import Mathlib

/-!
# PrixFinanceApi: request handlers over a document store

A shallow embedding of `src/functions/index.js`.  Every Express route of the
file is a Lean function from the request body and the store to a response and
the next store.

Modelling decisions, all visible in the definitions below:

* A request body and a stored document are association lists of field names
  and JavaScript values; a field is read with `Obj.get`, which gives
  `undefined` for a field that is not there.
* Objects and arrays inside a body are carried as one value (`JVal.compound`):
  the handlers never look inside them.  The store compares them by content;
  the handlers' own comparison `!==` of two body fields compares them by
  reference (`JVal.strictNe`).
* Numbers are `NaN`, the two infinities, or a rational; `-0` is not told apart
  from `0`.
* The conversions of the JavaScript runtime that the handlers call but do not
  define (`Number` on strings, `new Date`, template-literal rendering) are the
  fields of `Runtime`; the general theorems hold for every runtime, and the
  statements about concrete requests use `sampleRuntime`.
* The readings of the server clock and the identifiers the store hands out for
  new documents are the fields of `Env`.
* The store is the eight Firestore collections.  Store calls are total: a
  query, `add`, `update`, `set` and `delete` always return.  `update` and
  `set(..., merge)` replace whole top-level fields.  A query returns its
  matches in collection order, and `add` puts the new document last.  The one
  store failure that is modelled is a rejected write to `userActivityLog`, in
  the handlers named `...WithLog`.
* Document identifiers are strings; that no two documents of a collection
  have the same identifier is a guarantee of the store, stated as the
  hypothesis `UniqueIds` where a proof needs it.
* The only exception raised by the code itself is the one of
  `getUserIdByEmail`; it is an `Except String` value and every handler's
  `catch` block is the function `catchNotFound` or `catchAll`.
-/

namespace PrixFinance

/-! ## JavaScript values -/

/-- A JavaScript number. -/
inductive JNum where
  | nan
  | inf (negative : Bool)
  | fin (q : Rat)
  deriving DecidableEq, Repr

/-- A JavaScript value as it occurs in a parsed JSON body or in a stored
document.  `time` is a `Date` object or a Firestore `Timestamp` (milliseconds,
`NaN` for an invalid date). -/
inductive JVal where
  | undefined
  | null
  | bool (b : Bool)
  | num (n : JNum)
  | str (s : String)
  | time (t : JNum)
  | compound (json : String)
  deriving DecidableEq, Repr

/-- The truthiness test of `if (x)`, `!x`, `x || y` and `x ? a : b`. -/
def JVal.truthy : JVal → Bool
  | .undefined => false
  | .null => false
  | .bool b => b
  | .num .nan => false
  | .num (.inf _) => true
  | .num (.fin q) => q != 0
  | .str s => s != ""
  | .time _ => true
  | .compound _ => true

/-- The JavaScript expression `a || b`. -/
def JVal.or (a b : JVal) : JVal := if a.truthy then a else b

/-- Whether a value has the JavaScript type `number`. -/
def JVal.isNumber : JVal → Bool
  | .num _ => true
  | _ => false

/-- The conversions of the JavaScript runtime used by the handlers. -/
structure Runtime where
  /-- `Number(v)` for a string, a date or a compound value. -/
  numberOf : JVal → JNum
  /-- The time value of `new Date(v)`. -/
  dateOf : JVal → JNum
  /-- The text of a value inside a template literal, for a value that is not a
  string. -/
  render : JVal → String

/-- The JavaScript call `Number(v)`. -/
def toNumber (rt : Runtime) : JVal → JNum
  | .undefined => .nan
  | .null => .fin 0
  | .bool true => .fin 1
  | .bool false => .fin 0
  | .num n => n
  | v => rt.numberOf v

/-- The JavaScript expression `new Date(v)`. -/
def newDate (rt : Runtime) (v : JVal) : JVal := .time (rt.dateOf v)

/-- The text of `v` inside a template literal. -/
def render (rt : Runtime) : JVal → String
  | .str s => s
  | v => rt.render v

/-! ## Objects -/

/-- A JSON object: a request body, a stored document's data, an update set. -/
abbrev Obj := List (String × JVal)

/-- Reads field `k`; `undefined` when the object has no such field. -/
def Obj.get : Obj → String → JVal
  | [], _ => .undefined
  | (k', v) :: rest, k => if k' = k then v else Obj.get rest k

/-- The names of the fields of an object. -/
def Obj.keys (o : Obj) : List String := o.map Prod.fst

/-- The rest of a destructuring: the object without the fields `ks`. -/
def Obj.without (o : Obj) (ks : List String) : Obj :=
  o.filter (fun p => !(ks.contains p.1))

/-- The assignment `o.k = v`. -/
def Obj.set (o : Obj) (k : String) (v : JVal) : Obj :=
  (k, v) :: o.without [k]

/-- The object `d` with every field of `u` written over it: the object spread
`{...d, ...u}`, and the effect of `update(u)` or `set(u, {merge: true})` on a
document whose data is `d`. -/
def Obj.merge (d u : Obj) : Obj :=
  u ++ d.without u.keys

/-! ## The store -/

/-- A stored document: its identifier and its data. -/
structure Doc where
  id : String
  data : Obj
  deriving DecidableEq, Repr

/-- The eight collections. -/
structure Store where
  users : List Doc
  userSettings : List Doc
  budgets : List Doc
  transactions : List Doc
  goals : List Doc
  trophies : List Doc
  usersTrophies : List Doc
  userActivityLog : List Doc
  deriving DecidableEq, Repr

/-- What a request reads from outside the store: the clock (`Timestamp.now()`
in the handler and in `logUserActivity`) and the identifiers the store gives
to a document added by the handler and to an activity-log entry. -/
structure Env where
  now : Rat
  logNow : Rat
  newId : String
  logId : String
  deriving DecidableEq, Repr

/-- One equality filter `where(k, "==", v)` on one document.  A document
without the field never matches. -/
def Doc.has (d : Doc) (k : String) (v : JVal) : Bool :=
  v != .undefined && d.data.get k == v

/-- A query: the documents of a collection that pass every equality filter, in
collection order. -/
def whereEq (c : List Doc) (conds : List (String × JVal)) : List Doc :=
  c.filter (fun d => conds.all (fun p => d.has p.1 p.2))

/-- The first document of `where(...).limit(1).get()`, if any. -/
def findOne (c : List Doc) (conds : List (String × JVal)) : Option Doc :=
  (whereEq c conds).head?

/-- The call `collection.doc(id).get()`. -/
def findById (c : List Doc) (id : String) : Option Doc :=
  c.find? (fun d => d.id == id)

/-- The call `collection.add(data)`, the store choosing `id`. -/
def addDoc (c : List Doc) (id : String) (data : Obj) : List Doc :=
  c ++ [⟨id, data⟩]

/-- The call `docRef.update(u)` on the document `id`. -/
def updateById (c : List Doc) (id : String) (u : Obj) : List Doc :=
  c.map (fun d => if d.id = id then { d with data := d.data.merge u } else d)

/-- The call `collection.doc(id).set(u, {merge: true})`: as `update`, and
creating the document when it is not there. -/
def setMergeById (c : List Doc) (id : String) (u : Obj) : List Doc :=
  if c.any (fun d => d.id == id) then updateById c id u else c ++ [⟨id, u⟩]

/-- The call `docRef.delete()` on the document `id`. -/
def deleteById (c : List Doc) (id : String) : List Doc :=
  c.filter (fun d => d.id != id)

/-- The object `{id: doc.id, ...doc.data()}`. -/
def withId (d : Doc) : Obj :=
  Obj.merge [("id", .str d.id)] d.data

/-! ## Responses -/

/-- The body of a response. -/
inductive Body where
  | obj (o : Obj)
  | list (items : List Obj)
  | text (s : String)
  deriving DecidableEq, Repr

/-- An HTTP response. -/
structure Response where
  status : Nat
  body : Body
  deriving DecidableEq, Repr

/-- The response `res.status(code).json({error: msg})`. -/
def errorResponse (code : Nat) (msg : String) : Response :=
  ⟨code, .obj [("error", .str msg)]⟩

/-- The response `res.status(code).json({message: msg, ...extra})`. -/
def messageResponse (code : Nat) (msg : String) (extra : Obj) : Response :=
  ⟨code, .obj (("message", .str msg) :: extra)⟩

/-- The test `err.message.includes("not found")`. -/
def includesNotFound (msg : String) : Bool :=
  decide ("not found".data <:+: msg.data)

/-- A `catch` block that maps a "not found" message to 404 and anything else
to 500. -/
def catchNotFound (msg : String) : Response :=
  if includesNotFound msg then errorResponse 404 msg else errorResponse 500 msg

/-- A `catch` block that answers 500 whatever the error. -/
def catchAll (msg : String) : Response :=
  errorResponse 500 msg

/-! ## Helper functions of the source -/

/-- Looks up a user by email and returns the document identifier, or throws. -/
def getUserIdByEmail (rt : Runtime) (s : Store) (email : JVal) : Except String String :=
  match findOne s.users [("email", email)] with
  | none => .error ("User with email '" ++ render rt email ++ "' not found.")
  | some d => .ok d.id

/-- Logs user activity: nothing when `userId` is falsy, else one new entry. -/
def logUserActivity (env : Env) (s : Store) (userId : JVal) (activityDescription : String) :
    Store :=
  if !userId.truthy then s
  else
    { s with
      userActivityLog :=
        addDoc s.userActivityLog env.logId
          [("userId", userId), ("activityDescription", .str activityDescription),
            ("timestamp", .time (.fin env.logNow))] }

/-- The value of `Timestamp.now()` in the handler. -/
def Env.stamp (env : Env) : JVal := .time (.fin env.now)

/-! ## 1. Users -/

/-- The object `userData` of `/users/create`. -/
def userData (env : Env) (email : JVal) : Obj :=
  [("email", email), ("createdAt", env.stamp), ("updatedAt", env.stamp)]

/-- Route `POST /users/create`. -/
def usersCreate (env : Env) (body : Obj) (s : Store) : Response × Store :=
  let email := body.get "email"
  if !email.truthy then
    (errorResponse 400 "Email is required to create a user.", s)
  else
    match findOne s.users [("email", email)] with
    | some _ => (errorResponse 400 "A user with that email already exists.", s)
    | none =>
      (messageResponse 201 "User created" [("userId", .str env.newId)],
        { s with users := addDoc s.users env.newId (userData env email) })

/-- Route `POST /users/get`. -/
def usersGet (rt : Runtime) (body : Obj) (s : Store) : Response × Store :=
  let email := body.get "email"
  if !email.truthy then
    (errorResponse 400 "Email is required to retrieve user.", s)
  else
    match getUserIdByEmail rt s email with
    | .error msg => (catchNotFound msg, s)
    | .ok userId =>
      let data : Obj :=
        match findById s.users userId with
        | some d => d.data
        | none => []
      (⟨200, .obj (Obj.merge [("id", .str userId)] data)⟩, s)

/-- Route `POST /users/update`. -/
def usersUpdate (rt : Runtime) (env : Env) (body : Obj) (s : Store) : Response × Store :=
  let email := body.get "email"
  let updates := body.without ["email"]
  if !email.truthy then
    (errorResponse 400 "Email is required to update user.", s)
  else
    match getUserIdByEmail rt s email with
    | .error msg => (catchNotFound msg, s)
    | .ok userId =>
      let updates := updates.set "updatedAt" env.stamp
      let s1 := { s with users := setMergeById s.users userId updates }
      let s2 := logUserActivity env s1 (.str userId) "Updated user profile"
      (messageResponse 200 "User updated" [("userId", .str userId)], s2)

/-! ## 2. User settings -/

/-- Route `POST /users/settings/get`. -/
def settingsGet (rt : Runtime) (body : Obj) (s : Store) : Response × Store :=
  let email := body.get "email"
  if !email.truthy then
    (errorResponse 400 "Email is required to get settings.", s)
  else
    match getUserIdByEmail rt s email with
    | .error msg => (catchNotFound msg, s)
    | .ok userId =>
      match findById s.userSettings userId with
      | none => (errorResponse 404 "No settings found for this user.", s)
      | some d => (⟨200, .obj (withId d)⟩, s)

/-- Route `POST /users/settings/update`. -/
def settingsUpdate (rt : Runtime) (env : Env) (body : Obj) (s : Store) : Response × Store :=
  let email := body.get "email"
  let updates := body.without ["email"]
  if !email.truthy then
    (errorResponse 400 "Email is required to update settings.", s)
  else
    match getUserIdByEmail rt s email with
    | .error msg => (catchNotFound msg, s)
    | .ok userId =>
      let updates := updates.set "updatedAt" env.stamp
      let s1 := { s with userSettings := setMergeById s.userSettings userId updates }
      let s2 := logUserActivity env s1 (.str userId) "Updated user settings"
      (messageResponse 200 "Settings updated" [], s2)

/-! ## 3. Budgets -/

/-- The query that identifies a budget: `userId` and `category`. -/
def budgetKey (userId : String) (category : JVal) : List (String × JVal) :=
  [("userId", .str userId), ("category", category)]

/-- The object `budgetData` of `/budgets/create`. -/
def budgetData (rt : Runtime) (env : Env) (userId : String)
    (category amount startDate endDate : JVal) : Obj :=
  [("userId", .str userId), ("category", category),
    ("amount", .num (toNumber rt amount)),
    ("startDate", newDate rt startDate), ("endDate", newDate rt endDate),
    ("createdAt", env.stamp), ("updatedAt", env.stamp)]

/-- Route `POST /budgets/create`. -/
def budgetsCreate (rt : Runtime) (env : Env) (body : Obj) (s : Store) : Response × Store :=
  let email := body.get "email"
  let category := body.get "category"
  let amount := body.get "amount"
  let startDate := body.get "startDate"
  let endDate := body.get "endDate"
  if !email.truthy || !category.truthy || !amount.truthy || !startDate.truthy
      || !endDate.truthy then
    (errorResponse 400 "Missing required fields.", s)
  else
    match getUserIdByEmail rt s email with
    | .error msg => (catchNotFound msg, s)
    | .ok userId =>
      match findOne s.budgets (budgetKey userId category) with
      | some _ =>
        (errorResponse 400
          ("A budget with category \"" ++ render rt category
            ++ "\" already exists for this user."), s)
      | none =>
        let s1 :=
          { s with
            budgets := addDoc s.budgets env.newId
              (budgetData rt env userId category amount startDate endDate) }
        let s2 := logUserActivity env s1 (.str userId)
          ("Created a new budget for category: " ++ render rt category)
        (messageResponse 201 "Budget created" [], s2)

/-- Route `POST /budgets/get`. -/
def budgetsGet (rt : Runtime) (body : Obj) (s : Store) : Response × Store :=
  let email := body.get "email"
  let category := body.get "category"
  if !email.truthy || !category.truthy then
    (errorResponse 400 "Email and category are required to fetch a budget.", s)
  else
    match getUserIdByEmail rt s email with
    | .error msg => (catchAll msg, s)
    | .ok userId =>
      match findOne s.budgets (budgetKey userId category) with
      | none =>
        (errorResponse 404 ("No budget found for category \"" ++ render rt category ++ "\""), s)
      | some doc => (⟨200, .obj (withId doc)⟩, s)

/-- The coercions of `/budgets/update` on the update set: `amount` to a number
and the two dates to dates, each only when truthy. -/
def budgetCoerce (rt : Runtime) (updates : Obj) : Obj :=
  let u1 :=
    if (updates.get "amount").truthy then
      updates.set "amount" (.num (toNumber rt (updates.get "amount")))
    else updates
  let u2 :=
    if (u1.get "startDate").truthy then u1.set "startDate" (newDate rt (u1.get "startDate"))
    else u1
  if (u2.get "endDate").truthy then u2.set "endDate" (newDate rt (u2.get "endDate"))
  else u2

/-- Route `POST /budgets/update`. -/
def budgetsUpdate (rt : Runtime) (env : Env) (body : Obj) (s : Store) : Response × Store :=
  let email := body.get "email"
  let category := body.get "category"
  let updates := body.without ["email", "category"]
  if !email.truthy || !category.truthy then
    (errorResponse 400 "Email and category are required to update a budget.", s)
  else
    match getUserIdByEmail rt s email with
    | .error msg => (catchAll msg, s)
    | .ok userId =>
      match findOne s.budgets (budgetKey userId category) with
      | none =>
        (errorResponse 404 ("No budget found for category \"" ++ render rt category ++ "\""), s)
      | some doc =>
        let updates := budgetCoerce rt (updates.set "updatedAt" env.stamp)
        let s1 := { s with budgets := updateById s.budgets doc.id updates }
        let s2 := logUserActivity env s1 (.str userId)
          ("Updated budget for category: " ++ render rt category)
        (messageResponse 200 "Budget updated" [], s2)

/-- Route `POST /budgets/list`. -/
def budgetsList (rt : Runtime) (body : Obj) (s : Store) : Response × Store :=
  let email := body.get "email"
  if !email.truthy then
    (errorResponse 400 "Email is required to list budgets.", s)
  else
    match getUserIdByEmail rt s email with
    | .error msg => (catchNotFound msg, s)
    | .ok userId =>
      (⟨200, .list ((whereEq s.budgets [("userId", .str userId)]).map withId)⟩, s)

/-- Route `POST /budgets/delete`. -/
def budgetsDelete (rt : Runtime) (env : Env) (body : Obj) (s : Store) : Response × Store :=
  let email := body.get "email"
  let category := body.get "category"
  if !email.truthy || !category.truthy then
    (errorResponse 400 "Email and category are required to delete a budget.", s)
  else
    match getUserIdByEmail rt s email with
    | .error msg => (catchAll msg, s)
    | .ok userId =>
      match findOne s.budgets (budgetKey userId category) with
      | none =>
        (errorResponse 404 ("No budget found for category \"" ++ render rt category ++ "\""), s)
      | some doc =>
        let s1 := { s with budgets := deleteById s.budgets doc.id }
        let s2 := logUserActivity env s1 (.str userId)
          ("Deleted budget for category: " ++ render rt category)
        (messageResponse 200 "Budget deleted" [], s2)

/-! ## 4. Transactions -/

/-- The query that identifies a transaction: `userId`, `category` and
`transactionDate` (already a date). -/
def transactionKey (userId : String) (category date : JVal) : List (String × JVal) :=
  [("userId", .str userId), ("category", category), ("transactionDate", date)]

/-- The object `txData` of `/transactions/create`. -/
def txData (rt : Runtime) (env : Env) (userId : String)
    (category amount transactionDate : JVal) : Obj :=
  [("userId", .str userId), ("category", category),
    ("amount", .num (toNumber rt amount)),
    ("transactionDate", newDate rt transactionDate),
    ("createdAt", env.stamp), ("updatedAt", env.stamp)]

/-- Route `POST /transactions/create`. -/
def transactionsCreate (rt : Runtime) (env : Env) (body : Obj) (s : Store) :
    Response × Store :=
  let email := body.get "email"
  let category := body.get "category"
  let amount := body.get "amount"
  let transactionDate := body.get "transactionDate"
  if !email.truthy || !category.truthy || !amount.truthy || !transactionDate.truthy then
    (errorResponse 400 "Missing required fields.", s)
  else
    match getUserIdByEmail rt s email with
    | .error msg => (catchNotFound msg, s)
    | .ok userId =>
      match findOne s.transactions
          (transactionKey userId category (newDate rt transactionDate)) with
      | some _ =>
        (errorResponse 400
          ("A transaction already exists for category \"" ++ render rt category
            ++ "\" on date \"" ++ render rt transactionDate ++ "\""), s)
      | none =>
        let s1 :=
          { s with
            transactions := addDoc s.transactions env.newId
              (txData rt env userId category amount transactionDate) }
        let s2 := logUserActivity env s1 (.str userId)
          ("Created transaction: " ++ render rt category ++ " @ "
            ++ render rt transactionDate)
        (messageResponse 201 "Transaction created" [], s2)

/-- The 404 message of the transaction routes. -/
def noTransactionMessage (rt : Runtime) (category transactionDate : JVal) : String :=
  "No transaction found for category \"" ++ render rt category ++ "\" on date \""
    ++ render rt transactionDate ++ "\""

/-- Route `POST /transactions/get`. -/
def transactionsGet (rt : Runtime) (body : Obj) (s : Store) : Response × Store :=
  let email := body.get "email"
  let category := body.get "category"
  let transactionDate := body.get "transactionDate"
  if !email.truthy || !category.truthy || !transactionDate.truthy then
    (errorResponse 400 "Email, category, transactionDate are required.", s)
  else
    match getUserIdByEmail rt s email with
    | .error msg => (catchAll msg, s)
    | .ok userId =>
      match findOne s.transactions
          (transactionKey userId category (newDate rt transactionDate)) with
      | none => (errorResponse 404 (noTransactionMessage rt category transactionDate), s)
      | some doc => (⟨200, .obj (withId doc)⟩, s)

/-- The category of the prospective key of `/transactions/update`:
`newCategory || category`. -/
def prospectiveCategory (category newCategory : JVal) : JVal :=
  newCategory.or category

/-- The date of the prospective key of `/transactions/update`:
`newDate ? new Date(newDate) : new Date(transactionDate)`. -/
def prospectiveDate (rt : Runtime) (transactionDate newDateField : JVal) : JVal :=
  if newDateField.truthy then newDate rt newDateField else newDate rt transactionDate

/-- The update set of `/transactions/update` once the conflict check has
passed (or was not needed). -/
def transactionUpdates (rt : Runtime) (env : Env) (updates : Obj)
    (transactionDate newCategory newDateField : JVal) : Obj :=
  let u1 :=
    if newCategory.truthy || newDateField.truthy then
      let a := if newCategory.truthy then updates.set "category" newCategory else updates
      if newDateField.truthy then
        a.set "transactionDate" (prospectiveDate rt transactionDate newDateField)
      else a
    else updates
  let u2 :=
    if (u1.get "amount").truthy then u1.set "amount" (.num (toNumber rt (u1.get "amount")))
    else u1
  u2.set "updatedAt" env.stamp

/-- Route `POST /transactions/update`. -/
def transactionsUpdate (rt : Runtime) (env : Env) (body : Obj) (s : Store) :
    Response × Store :=
  let email := body.get "email"
  let category := body.get "category"
  let transactionDate := body.get "transactionDate"
  let newCategory := body.get "newCategory"
  let newDateField := body.get "newDate"
  let updates :=
    body.without ["email", "category", "transactionDate", "newCategory", "newDate"]
  if !email.truthy || !category.truthy || !transactionDate.truthy then
    (errorResponse 400 "Email, category, and transactionDate are required to update.", s)
  else
    match getUserIdByEmail rt s email with
    | .error msg => (catchAll msg, s)
    | .ok userId =>
      match findOne s.transactions
          (transactionKey userId category (newDate rt transactionDate)) with
      | none => (errorResponse 404 (noTransactionMessage rt category transactionDate), s)
      | some doc =>
        let c := prospectiveCategory category newCategory
        let d := prospectiveDate rt transactionDate newDateField
        if (newCategory.truthy || newDateField.truthy)
            && (findOne s.transactions (transactionKey userId c d)).isSome then
          (errorResponse 400
            ("A transaction already exists with category \"" ++ render rt c
              ++ "\" on date \"" ++ render rt d ++ "\""), s)
        else
          let updates :=
            transactionUpdates rt env updates transactionDate newCategory newDateField
          let s1 := { s with transactions := updateById s.transactions doc.id updates }
          let s2 := logUserActivity env s1 (.str userId)
            ("Updated transaction " ++ render rt category ++ " @ "
              ++ render rt transactionDate)
          (messageResponse 200 "Transaction updated" [], s2)

/-- Route `POST /transactions/list`. -/
def transactionsList (rt : Runtime) (body : Obj) (s : Store) : Response × Store :=
  let email := body.get "email"
  if !email.truthy then
    (errorResponse 400 "Email is required to list transactions.", s)
  else
    match getUserIdByEmail rt s email with
    | .error msg => (catchNotFound msg, s)
    | .ok userId =>
      (⟨200, .list ((whereEq s.transactions [("userId", .str userId)]).map withId)⟩, s)

/-- Route `POST /transactions/list-by-category`. -/
def transactionsListByCategory (rt : Runtime) (body : Obj) (s : Store) : Response × Store :=
  let email := body.get "email"
  let category := body.get "category"
  if !email.truthy || !category.truthy then
    (errorResponse 400 "Email and category are required.", s)
  else
    match getUserIdByEmail rt s email with
    | .error msg => (catchAll msg, s)
    | .ok userId =>
      (⟨200, .list ((whereEq s.transactions
          [("userId", .str userId), ("category", category)]).map withId)⟩, s)

/-- Route `POST /transactions/delete`. -/
def transactionsDelete (rt : Runtime) (env : Env) (body : Obj) (s : Store) :
    Response × Store :=
  let email := body.get "email"
  let category := body.get "category"
  let transactionDate := body.get "transactionDate"
  if !email.truthy || !category.truthy || !transactionDate.truthy then
    (errorResponse 400 "Email, category, and transactionDate required for delete.", s)
  else
    match getUserIdByEmail rt s email with
    | .error msg => (catchAll msg, s)
    | .ok userId =>
      match findOne s.transactions
          (transactionKey userId category (newDate rt transactionDate)) with
      | none => (errorResponse 404 (noTransactionMessage rt category transactionDate), s)
      | some doc =>
        let s1 := { s with transactions := deleteById s.transactions doc.id }
        let s2 := logUserActivity env s1 (.str userId)
          ("Deleted transaction " ++ render rt category ++ " @ "
            ++ render rt transactionDate)
        (messageResponse 200 "Transaction deleted" [], s2)

/-! ## 5. Goals -/

/-- The query that identifies a goal: `userId` and `goalName`. -/
def goalKey (userId : String) (goalName : JVal) : List (String × JVal) :=
  [("userId", .str userId), ("goalName", goalName)]

/-- The object `newGoal` of `/goals/create`. -/
def newGoal (rt : Runtime) (env : Env) (userId : String)
    (goalName targetAmount currentAmount targetDate status : JVal) : Obj :=
  [("userId", .str userId), ("goalName", goalName),
    ("targetAmount", .num (toNumber rt targetAmount)),
    ("currentAmount", (JVal.num (toNumber rt currentAmount)).or (.num (.fin 0))),
    ("targetDate", newDate rt targetDate),
    ("status", status.or (.str "In Progress")),
    ("createdAt", env.stamp), ("updatedAt", env.stamp)]

/-- Route `POST /goals/create`. -/
def goalsCreate (rt : Runtime) (env : Env) (body : Obj) (s : Store) : Response × Store :=
  let email := body.get "email"
  let goalName := body.get "goalName"
  let targetAmount := body.get "targetAmount"
  let currentAmount := body.get "currentAmount"
  let targetDate := body.get "targetDate"
  let status := body.get "status"
  if !email.truthy || !goalName.truthy || !targetAmount.truthy || !targetDate.truthy then
    (errorResponse 400 "Missing required fields.", s)
  else
    match getUserIdByEmail rt s email with
    | .error msg => (catchNotFound msg, s)
    | .ok userId =>
      match findOne s.goals (goalKey userId goalName) with
      | some _ =>
        (errorResponse 400 ("A goal named \"" ++ render rt goalName ++ "\" already exists."), s)
      | none =>
        let s1 :=
          { s with
            goals := addDoc s.goals env.newId
              (newGoal rt env userId goalName targetAmount currentAmount targetDate status) }
        let s2 := logUserActivity env s1 (.str userId)
          ("Created goal: " ++ render rt goalName)
        (messageResponse 201 "Goal created" [], s2)

/-- Route `POST /goals/get`. -/
def goalsGet (rt : Runtime) (body : Obj) (s : Store) : Response × Store :=
  let email := body.get "email"
  let goalName := body.get "goalName"
  if !email.truthy || !goalName.truthy then
    (errorResponse 400 "Email and goalName are required to retrieve a goal.", s)
  else
    match getUserIdByEmail rt s email with
    | .error msg => (catchAll msg, s)
    | .ok userId =>
      match findOne s.goals (goalKey userId goalName) with
      | none =>
        (errorResponse 404 ("No goal found named \"" ++ render rt goalName ++ "\"."), s)
      | some doc => (⟨200, .obj (withId doc)⟩, s)

/-- The coercions of `/goals/update` on the update set: the two amounts to
numbers and `targetDate` to a date, each when the field is not `undefined`. -/
def goalCoerce (rt : Runtime) (updates : Obj) : Obj :=
  let u1 :=
    if updates.get "targetAmount" != .undefined then
      updates.set "targetAmount" (.num (toNumber rt (updates.get "targetAmount")))
    else updates
  let u2 :=
    if u1.get "currentAmount" != .undefined then
      u1.set "currentAmount" (.num (toNumber rt (u1.get "currentAmount")))
    else u1
  if u2.get "targetDate" != .undefined then
    u2.set "targetDate" (newDate rt (u2.get "targetDate"))
  else u2

/-- Whether a value is an array, an object or a date, which JavaScript compares
by reference. -/
def JVal.byReference : JVal → Bool
  | .compound _ => true
  | .time _ => true
  | _ => false

/-- JavaScript's `a !== b` for two values that were read from different places
(two fields of a parsed request body): values that differ are unequal; two
arrays or objects never are the same reference, so they are unequal also when
their content is the same; `NaN` is unequal to itself. -/
def JVal.strictNe (a b : JVal) : Bool :=
  a != b || a.byReference || a == .num .nan

/-- Whether `/goals/update` is asked to rename:
`newGoalName && newGoalName !== goalName`. -/
def wantsRename (name newName : JVal) : Bool :=
  newName.truthy && newName.strictNe name

/-- Route `POST /goals/update`. -/
def goalsUpdate (rt : Runtime) (env : Env) (body : Obj) (s : Store) : Response × Store :=
  let email := body.get "email"
  let goalName := body.get "goalName"
  let newGoalName := body.get "newGoalName"
  let updates := body.without ["email", "goalName", "newGoalName"]
  if !email.truthy || !goalName.truthy then
    (errorResponse 400 "Email and goalName are required to update a goal.", s)
  else
    match getUserIdByEmail rt s email with
    | .error msg => (catchAll msg, s)
    | .ok userId =>
      match findOne s.goals (goalKey userId goalName) with
      | none =>
        (errorResponse 404 ("No goal found named \"" ++ render rt goalName ++ "\""), s)
      | some doc =>
        if wantsRename goalName newGoalName
            && (findOne s.goals (goalKey userId newGoalName)).isSome then
          (errorResponse 400 ("Goal \"" ++ render rt newGoalName ++ "\" already exists."), s)
        else
          let updates :=
            if wantsRename goalName newGoalName then updates.set "goalName" newGoalName
            else updates
          let updates := (goalCoerce rt updates).set "updatedAt" env.stamp
          let s1 := { s with goals := updateById s.goals doc.id updates }
          let s2 := logUserActivity env s1 (.str userId)
            ("Updated goal: " ++ render rt goalName)
          (messageResponse 200 "Goal updated" [], s2)

/-- Route `POST /goals/list`. -/
def goalsList (rt : Runtime) (body : Obj) (s : Store) : Response × Store :=
  let email := body.get "email"
  if !email.truthy then
    (errorResponse 400 "Email is required to list goals.", s)
  else
    match getUserIdByEmail rt s email with
    | .error msg => (catchNotFound msg, s)
    | .ok userId =>
      (⟨200, .list ((whereEq s.goals [("userId", .str userId)]).map withId)⟩, s)

/-- Route `POST /goals/list-by-status`. -/
def goalsListByStatus (rt : Runtime) (body : Obj) (s : Store) : Response × Store :=
  let email := body.get "email"
  let status := body.get "status"
  if !email.truthy || !status.truthy then
    (errorResponse 400 "Email and status are required.", s)
  else
    match getUserIdByEmail rt s email with
    | .error msg => (catchAll msg, s)
    | .ok userId =>
      (⟨200, .list ((whereEq s.goals
          [("userId", .str userId), ("status", status)]).map withId)⟩, s)

/-- Route `POST /goals/delete`. -/
def goalsDelete (rt : Runtime) (env : Env) (body : Obj) (s : Store) : Response × Store :=
  let email := body.get "email"
  let goalName := body.get "goalName"
  if !email.truthy || !goalName.truthy then
    (errorResponse 400 "Email and goalName are required to delete a goal.", s)
  else
    match getUserIdByEmail rt s email with
    | .error msg => (catchAll msg, s)
    | .ok userId =>
      match findOne s.goals (goalKey userId goalName) with
      | none =>
        (errorResponse 404 ("No goal found named \"" ++ render rt goalName ++ "\"."), s)
      | some doc =>
        let s1 := { s with goals := deleteById s.goals doc.id }
        let s2 := logUserActivity env s1 (.str userId)
          ("Deleted goal: " ++ render rt goalName)
        (messageResponse 200 "Goal deleted" [], s2)

/-! ## 6. User activity log -/

/-- Route `POST /activity/list`. -/
def activityList (rt : Runtime) (body : Obj) (s : Store) : Response × Store :=
  let email := body.get "email"
  if email.truthy then
    match getUserIdByEmail rt s email with
    | .error msg => (catchNotFound msg, s)
    | .ok userId =>
      (⟨200, .list ((whereEq s.userActivityLog [("userId", .str userId)]).map withId)⟩, s)
  else
    (⟨200, .list (s.userActivityLog.map withId)⟩, s)

/-! ## 7. Trophies -/

/-- The 404 message of the trophy routes. -/
def noTrophyMessage (rt : Runtime) (trophyName : JVal) : String :=
  "No trophy found with name \"" ++ render rt trophyName ++ "\"."

/-- The object `newTrophy` of `/trophies/create`. -/
def newTrophy (rt : Runtime) (env : Env) (trophyName displayName description points : JVal) :
    Obj :=
  [("trophyName", trophyName), ("displayName", displayName.or trophyName),
    ("description", description.or (.str "")),
    ("points", if points.truthy then .num (toNumber rt points) else .num (.fin 0)),
    ("createdAt", env.stamp), ("updatedAt", env.stamp)]

/-- Route `POST /trophies/create`. -/
def trophiesCreate (rt : Runtime) (env : Env) (body : Obj) (s : Store) : Response × Store :=
  let trophyName := body.get "trophyName"
  let displayName := body.get "displayName"
  let description := body.get "description"
  let points := body.get "points"
  if !trophyName.truthy then
    (errorResponse 400 "trophyName is required to create a trophy.", s)
  else
    match findOne s.trophies [("trophyName", trophyName)] with
    | some _ =>
      (errorResponse 400 ("Trophy \"" ++ render rt trophyName ++ "\" already exists."), s)
    | none =>
      (messageResponse 201 "Trophy created" [("trophyName", trophyName)],
        { s with
          trophies := addDoc s.trophies env.newId
            (newTrophy rt env trophyName displayName description points) })

/-- Route `POST /trophies/get`. -/
def trophiesGet (rt : Runtime) (body : Obj) (s : Store) : Response × Store :=
  let trophyName := body.get "trophyName"
  if !trophyName.truthy then
    (errorResponse 400 "trophyName is required.", s)
  else
    match findOne s.trophies [("trophyName", trophyName)] with
    | none => (errorResponse 404 (noTrophyMessage rt trophyName), s)
    | some doc => (⟨200, .obj (withId doc)⟩, s)

/-- Route `POST /trophies/list`. -/
def trophiesList (s : Store) : Response × Store :=
  (⟨200, .list (s.trophies.map withId)⟩, s)

/-- The update set of `/trophies/update`. -/
def trophyUpdates (rt : Runtime) (env : Env)
    (newTrophyName displayName description points : JVal) : Obj :=
  let u0 : Obj := [("updatedAt", env.stamp)]
  let u1 := if newTrophyName.truthy then u0.set "trophyName" newTrophyName else u0
  let u2 := if displayName != .undefined then u1.set "displayName" displayName else u1
  let u3 := if description != .undefined then u2.set "description" description else u2
  if points != .undefined then u3.set "points" (.num (toNumber rt points)) else u3

/-- Route `POST /trophies/update`. -/
def trophiesUpdate (rt : Runtime) (env : Env) (body : Obj) (s : Store) : Response × Store :=
  let trophyName := body.get "trophyName"
  let newTrophyName := body.get "newTrophyName"
  let displayName := body.get "displayName"
  let description := body.get "description"
  let points := body.get "points"
  if !trophyName.truthy then
    (errorResponse 400 "trophyName is required to update a trophy.", s)
  else
    match findOne s.trophies [("trophyName", trophyName)] with
    | none => (errorResponse 404 (noTrophyMessage rt trophyName), s)
    | some doc =>
      if wantsRename trophyName newTrophyName
          && (findOne s.trophies [("trophyName", newTrophyName)]).isSome then
        (errorResponse 400
          ("A trophy named \"" ++ render rt newTrophyName ++ "\" already exists."), s)
      else
        let updates := trophyUpdates rt env newTrophyName displayName description points
        (messageResponse 200 "Trophy updated"
            [("oldName", trophyName), ("newName", newTrophyName.or trophyName)],
          { s with trophies := updateById s.trophies doc.id updates })

/-- Route `POST /trophies/delete`. -/
def trophiesDelete (rt : Runtime) (body : Obj) (s : Store) : Response × Store :=
  let trophyName := body.get "trophyName"
  if !trophyName.truthy then
    (errorResponse 400 "trophyName is required to delete a trophy.", s)
  else
    match findOne s.trophies [("trophyName", trophyName)] with
    | none => (errorResponse 404 (noTrophyMessage rt trophyName), s)
    | some doc =>
      (messageResponse 200 "Trophy deleted" [("trophyName", trophyName)],
        { s with trophies := deleteById s.trophies doc.id })

/-! ## 8. Users' trophies -/

/-- The query that identifies a user's trophy record: `userId` and
`trophyName`. -/
def userTrophyKey (userId : String) (trophyName : JVal) : List (String × JVal) :=
  [("userId", .str userId), ("trophyName", trophyName)]

/-- The object `record` of `/usersTrophies/earn`. -/
def earnRecord (env : Env) (userId : String) (trophyName : JVal) : Obj :=
  [("userId", .str userId), ("trophyName", trophyName), ("earnedAt", env.stamp)]

/-- Route `POST /usersTrophies/earn`. -/
def usersTrophiesEarn (rt : Runtime) (env : Env) (body : Obj) (s : Store) :
    Response × Store :=
  let email := body.get "email"
  let trophyName := body.get "trophyName"
  if !email.truthy || !trophyName.truthy then
    (errorResponse 400 "email and trophyName are required.", s)
  else
    match getUserIdByEmail rt s email with
    | .error msg => (catchAll msg, s)
    | .ok userId =>
      match findOne s.trophies [("trophyName", trophyName)] with
      | none => (errorResponse 404 (noTrophyMessage rt trophyName), s)
      | some _ =>
        match findOne s.usersTrophies (userTrophyKey userId trophyName) with
        | some _ =>
          (errorResponse 400
            ("User already has trophy \"" ++ render rt trophyName ++ "\"."), s)
        | none =>
          let s1 :=
            { s with
              usersTrophies := addDoc s.usersTrophies env.newId
                (earnRecord env userId trophyName) }
          let s2 := logUserActivity env s1 (.str userId)
            ("Earned trophy: " ++ render rt trophyName)
          (messageResponse 201 "User trophy earned"
            [("trophyName", trophyName), ("userId", .str userId)], s2)

/-- One turn of the loop of `/usersTrophies/list`: the entry for one record,
or nothing when its trophy is not in the catalogue. -/
def userTrophyEntry (s : Store) (userId : String) (doc : Doc) : Option Obj :=
  let trophyName := doc.data.get "trophyName"
  let earnedAt := doc.data.get "earnedAt"
  match findOne s.trophies [("trophyName", trophyName)] with
  | none => none
  | some trophyDoc =>
    some (Obj.merge
      [("userTrophyId", .str doc.id), ("userId", .str userId), ("earnedAt", earnedAt),
        ("trophyName", trophyName)]
      trophyDoc.data)

/-- Route `POST /usersTrophies/list`. -/
def usersTrophiesList (rt : Runtime) (body : Obj) (s : Store) : Response × Store :=
  let email := body.get "email"
  if !email.truthy then
    (errorResponse 400 "Email is required to list user trophies.", s)
  else
    match getUserIdByEmail rt s email with
    | .error msg => (catchAll msg, s)
    | .ok userId =>
      let records := whereEq s.usersTrophies [("userId", .str userId)]
      if records.isEmpty then (⟨200, .list []⟩, s)
      else (⟨200, .list (records.filterMap (userTrophyEntry s userId))⟩, s)

/-- Route `POST /usersTrophies/delete`. -/
def usersTrophiesDelete (rt : Runtime) (env : Env) (body : Obj) (s : Store) :
    Response × Store :=
  let email := body.get "email"
  let trophyName := body.get "trophyName"
  if !email.truthy || !trophyName.truthy then
    (errorResponse 400 "email and trophyName are required.", s)
  else
    match getUserIdByEmail rt s email with
    | .error msg => (catchAll msg, s)
    | .ok userId =>
      match findOne s.usersTrophies (userTrophyKey userId trophyName) with
      | none =>
        (errorResponse 404
          ("User does not have trophy \"" ++ render rt trophyName ++ "\"."), s)
      | some doc =>
        let s1 := { s with usersTrophies := deleteById s.usersTrophies doc.id }
        let s2 := logUserActivity env s1 (.str userId)
          ("Removed trophy from user: " ++ render rt trophyName)
        (messageResponse 200 "User trophy removed" [("trophyName", trophyName)], s2)

/-! ## Test route and dispatch -/

/-- Route `GET /hello-world`. -/
def helloWorld (s : Store) : Response × Store :=
  (⟨200, .text "Hello World!"⟩, s)

/-- The routes registered on the Express application. -/
inductive Route where
  | usersCreate | usersGet | usersUpdate
  | settingsGet | settingsUpdate
  | budgetsCreate | budgetsGet | budgetsUpdate | budgetsList | budgetsDelete
  | transactionsCreate | transactionsGet | transactionsUpdate | transactionsList
  | transactionsListByCategory | transactionsDelete
  | goalsCreate | goalsGet | goalsUpdate | goalsList | goalsListByStatus | goalsDelete
  | activityList
  | trophiesCreate | trophiesGet | trophiesList | trophiesUpdate | trophiesDelete
  | usersTrophiesEarn | usersTrophiesList | usersTrophiesDelete
  | helloWorld
  deriving DecidableEq, Repr

/-- One request: the handler registered for the route, run on the body and
the store. -/
def handle (rt : Runtime) (env : Env) (r : Route) (body : Obj) (s : Store) :
    Response × Store :=
  match r with
  | .usersCreate => usersCreate env body s
  | .usersGet => usersGet rt body s
  | .usersUpdate => usersUpdate rt env body s
  | .settingsGet => settingsGet rt body s
  | .settingsUpdate => settingsUpdate rt env body s
  | .budgetsCreate => budgetsCreate rt env body s
  | .budgetsGet => budgetsGet rt body s
  | .budgetsUpdate => budgetsUpdate rt env body s
  | .budgetsList => budgetsList rt body s
  | .budgetsDelete => budgetsDelete rt env body s
  | .transactionsCreate => transactionsCreate rt env body s
  | .transactionsGet => transactionsGet rt body s
  | .transactionsUpdate => transactionsUpdate rt env body s
  | .transactionsList => transactionsList rt body s
  | .transactionsListByCategory => transactionsListByCategory rt body s
  | .transactionsDelete => transactionsDelete rt env body s
  | .goalsCreate => goalsCreate rt env body s
  | .goalsGet => goalsGet rt body s
  | .goalsUpdate => goalsUpdate rt env body s
  | .goalsList => goalsList rt body s
  | .goalsListByStatus => goalsListByStatus rt body s
  | .goalsDelete => goalsDelete rt env body s
  | .activityList => activityList rt body s
  | .trophiesCreate => trophiesCreate rt env body s
  | .trophiesGet => trophiesGet rt body s
  | .trophiesList => trophiesList s
  | .trophiesUpdate => trophiesUpdate rt env body s
  | .trophiesDelete => trophiesDelete rt body s
  | .usersTrophiesEarn => usersTrophiesEarn rt env body s
  | .usersTrophiesList => usersTrophiesList rt body s
  | .usersTrophiesDelete => usersTrophiesDelete rt env body s
  | .helloWorld => helloWorld s

/-! ## A runtime and a store for concrete requests -/

/-- The value of a string of decimal digits, `none` when another character
occurs. -/
def digitsValue : List Char → Nat → Option Nat
  | [], acc => some acc
  | c :: cs, acc =>
    if c.isDigit then digitsValue cs (acc * 10 + (c.toNat - 48)) else none

/-- A runtime for evaluating concrete requests.  `Number` is exact on the empty
string and on strings of decimal digits and gives `NaN` on other strings;
`new Date` is exact on a number of milliseconds and on a date; rendering is
exact on `undefined`, `null` and the booleans and a placeholder elsewhere.
The concrete requests below pass dates as numbers and amounts as numbers,
`null`, the empty string or digit strings, and no statement about them reads a
rendered text. -/
def sampleRuntime : Runtime where
  numberOf v :=
    match v with
    | .str s =>
      match digitsValue s.data 0 with
      | some n => .fin n
      | none => .nan
    | .time t => t
    | _ => .nan
  dateOf v :=
    match v with
    | .num n => n
    | .time t => t
    | _ => .nan
  render v :=
    match v with
    | .undefined => "undefined"
    | .null => "null"
    | .bool true => "true"
    | .bool false => "false"
    | _ => "[value]"

/-- A clock and identifiers for concrete requests. -/
def sampleEnv : Env := ⟨1000, 1001, "new1", "log1"⟩

/-- A second reading, for the request after `sampleEnv`. -/
def sampleEnv2 : Env := ⟨2000, 2001, "new2", "log2"⟩

/-- The empty store. -/
def emptyStore : Store := ⟨[], [], [], [], [], [], [], []⟩

/-- A store with one user, `ann@example.com`, whose identifier is `u1`. -/
def oneUser : Store :=
  { emptyStore with
    users := [⟨"u1", [("email", .str "ann@example.com"), ("createdAt", .time (.fin 5)),
      ("updatedAt", .time (.fin 5))]⟩] }

/-! ## Vocabulary of the specification -/

/-- The resource types that have a uniqueness key. -/
inductive Resource where
  | users | budgets | transactions | goals | trophies | usersTrophies
  deriving DecidableEq, Repr

/-- The collection that holds a resource type. -/
def Resource.collection : Resource → Store → List Doc
  | .users, s => s.users
  | .budgets, s => s.budgets
  | .transactions, s => s.transactions
  | .goals, s => s.goals
  | .trophies, s => s.trophies
  | .usersTrophies, s => s.usersTrophies

/-- The route that creates a document of a resource type. -/
def Resource.createRoute : Resource → Route
  | .users => .usersCreate
  | .budgets => .budgetsCreate
  | .transactions => .transactionsCreate
  | .goals => .goalsCreate
  | .trophies => .trophiesCreate
  | .usersTrophies => .usersTrophiesEarn

/-- The fields the create route of a resource type checks before anything
else. -/
def Resource.createFields : Resource → List String
  | .users => ["email"]
  | .budgets => ["email", "category", "amount", "startDate", "endDate"]
  | .transactions => ["email", "category", "amount", "transactionDate"]
  | .goals => ["email", "goalName", "targetAmount", "targetDate"]
  | .trophies => ["trophyName"]
  | .usersTrophies => ["email", "trophyName"]

/-- The fields the get, update and delete routes of a resource type check
before anything else. -/
def Resource.keyFields : Resource → List String
  | .users => ["email"]
  | .budgets => ["email", "category"]
  | .transactions => ["email", "category", "transactionDate"]
  | .goals => ["email", "goalName"]
  | .trophies => ["trophyName"]
  | .usersTrophies => ["email", "trophyName"]

/-- Whether the routes of a resource type resolve the email to a user first. -/
def Resource.perUser : Resource → Bool
  | .users => false
  | .trophies => false
  | _ => true

/-- The uniqueness key a request body names, for the user `uid`: the equality
filters of the query the routes of that resource type run. -/
def Resource.key (res : Resource) (rt : Runtime) (uid : String) (body : Obj) :
    List (String × JVal) :=
  match res with
  | .users => [("email", body.get "email")]
  | .budgets => budgetKey uid (body.get "category")
  | .transactions =>
    transactionKey uid (body.get "category") (newDate rt (body.get "transactionDate"))
  | .goals => goalKey uid (body.get "goalName")
  | .trophies => [("trophyName", body.get "trophyName")]
  | .usersTrophies => userTrophyKey uid (body.get "trophyName")

/-- The fields that make up the uniqueness key of a stored document. -/
def Resource.docKey : Resource → List String
  | .users => ["email"]
  | .budgets => ["userId", "category"]
  | .transactions => ["userId", "category", "transactionDate"]
  | .goals => ["userId", "goalName"]
  | .trophies => ["trophyName"]
  | .usersTrophies => ["userId", "trophyName"]

/-- Two documents share a key: each key field is there in both and equal. -/
def sameKey (fields : List String) (a b : Doc) : Prop :=
  ∀ f ∈ fields, a.data.get f ≠ .undefined ∧ a.data.get f = b.data.get f

instance (fields : List String) (a b : Doc) : Decidable (sameKey fields a b) := by
  unfold sameKey; infer_instance

/-- No two documents of the collection share a key. -/
def UniqueKeys (fields : List String) (c : List Doc) : Prop :=
  c.Pairwise (fun a b => ¬ sameKey fields a b)

instance (fields : List String) (c : List Doc) : Decidable (UniqueKeys fields c) := by
  unfold UniqueKeys; infer_instance

/-- No two documents of the collection have the same identifier (the store
guarantees it). -/
def UniqueIds (c : List Doc) : Prop := (c.map Doc.id).Nodup

instance (c : List Doc) : Decidable (UniqueIds c) := by
  unfold UniqueIds; infer_instance

/-! ## Concrete requests, and the vocabulary of single claims -/

/-- A `/budgets/create` body for `ann@example.com`. -/
def budgetBody : Obj :=
  [("email", .str "ann@example.com"), ("category", .str "food"), ("amount", .str "12"),
    ("startDate", .num (.fin 100)), ("endDate", .num (.fin 200))]

/-- A second `/budgets/create` body with the same email and category. -/
def budgetBodyAgain : Obj :=
  [("email", .str "ann@example.com"), ("category", .str "food"), ("amount", .num (.fin 30)),
    ("startDate", .num (.fin 300)), ("endDate", .num (.fin 400))]

/-- A `/budgets/create` body in which every field is there and `amount` is the
number 0. -/
def budgetBodyZero : Obj :=
  [("email", .str "ann@example.com"), ("category", .str "food"), ("amount", .num (.fin 0)),
    ("startDate", .num (.fin 100)), ("endDate", .num (.fin 200))]

/-- A `/usersTrophies/earn` body for `ann@example.com`. -/
def earnBody : Obj :=
  [("email", .str "ann@example.com"), ("trophyName", .str "saver")]

/-- A body that names a user who is not in `oneUser`, with every field a
lookup route may ask for. -/
def strangerBody : Obj :=
  [("email", .str "bob@example.com"), ("category", .str "food"),
    ("transactionDate", .num (.fin 100)), ("goalName", .str "car"),
    ("status", .str "In Progress"), ("trophyName", .str "saver")]

/-- The routes that take an email and whose `catch` block answers 500 for
every error. -/
def routesWithoutNotFoundCatch : List Route :=
  [.budgetsGet, .budgetsUpdate, .budgetsDelete, .transactionsGet, .transactionsUpdate,
    .transactionsListByCategory, .transactionsDelete, .goalsGet, .goalsUpdate,
    .goalsListByStatus, .goalsDelete, .usersTrophiesEarn, .usersTrophiesList,
    .usersTrophiesDelete]

/-- The resource type whose key a get, update or delete route looks up. -/
def Route.lookup : Route → Option Resource
  | .budgetsGet => some .budgets
  | .budgetsUpdate => some .budgets
  | .budgetsDelete => some .budgets
  | .transactionsGet => some .transactions
  | .transactionsUpdate => some .transactions
  | .transactionsDelete => some .transactions
  | .goalsGet => some .goals
  | .goalsUpdate => some .goals
  | .goalsDelete => some .goals
  | .trophiesGet => some .trophies
  | .trophiesUpdate => some .trophies
  | .trophiesDelete => some .trophies
  | .usersTrophiesDelete => some .usersTrophies
  | _ => none

/-- A `/budgets/get` body for `ann@example.com`. -/
def budgetLookupBody : Obj :=
  [("email", .str "ann@example.com"), ("category", .str "food")]

/-- A `/budgets/get` body whose `category` is there and is the empty string. -/
def budgetLookupBodyEmpty : Obj :=
  [("email", .str "ann@example.com"), ("category", .str "")]

/-- The key `/goals/update` or `/transactions/update` would give the document
it updates: the filters of the conflict query. -/
def Route.prospectiveKey (r : Route) (rt : Runtime) (uid : String) (body : Obj) :
    List (String × JVal) :=
  match r with
  | .goalsUpdate => goalKey uid (body.get "newGoalName")
  | .transactionsUpdate =>
    transactionKey uid (prospectiveCategory (body.get "category") (body.get "newCategory"))
      (prospectiveDate rt (body.get "transactionDate") (body.get "newDate"))
  | _ => []

/-- Whether the body of `/goals/update` or `/transactions/update` supplies a
new value for a key field. -/
def Route.renameAsked (r : Route) (body : Obj) : Bool :=
  match r with
  | .goalsUpdate => (body.get "newGoalName").truthy
  | .transactionsUpdate => (body.get "newCategory").truthy || (body.get "newDate").truthy
  | _ => false

/-- A store in which `ann@example.com` has the goals `car` and `house`. -/
def twoGoals : Store :=
  { oneUser with
    goals :=
      [⟨"g1", [("userId", .str "u1"), ("goalName", .str "car"),
          ("targetAmount", .num (.fin 1000)), ("createdAt", .time (.fin 7))]⟩,
        ⟨"g2", [("userId", .str "u1"), ("goalName", .str "house"),
          ("targetAmount", .num (.fin 9000)), ("createdAt", .time (.fin 8))]⟩] }

/-- A `/goals/update` body that renames `car` to `house`. -/
def renameGoalBody : Obj :=
  [("email", .str "ann@example.com"), ("goalName", .str "car"),
    ("newGoalName", .str "house"), ("targetAmount", .str "2000")]

/-- The one transaction of `oneTransaction`. -/
def foodTransaction : Doc :=
  ⟨"t1", [("userId", .str "u1"), ("category", .str "food"), ("amount", .num (.fin 12)),
    ("transactionDate", .time (.fin 100)), ("createdAt", .time (.fin 6)),
    ("updatedAt", .time (.fin 6))]⟩

/-- A store in which `ann@example.com` has one transaction. -/
def oneTransaction : Store :=
  { oneUser with transactions := [foodTransaction] }

/-- A `/transactions/update` body that changes the amount and names the
category the transaction already has as `newCategory`. -/
def sameCategoryBody : Obj :=
  [("email", .str "ann@example.com"), ("category", .str "food"),
    ("transactionDate", .num (.fin 100)), ("newCategory", .str "food"),
    ("amount", .str "15")]

/-- A `/transactions/update` body whose `amount` is `null`. -/
def nullAmountBody : Obj :=
  [("email", .str "ann@example.com"), ("category", .str "food"),
    ("transactionDate", .num (.fin 100)), ("amount", .null)]

/-- A store with two users, each with a budget for `food`. -/
def twoUsers : Store :=
  { emptyStore with
    users :=
      [⟨"u1", [("email", .str "ann@example.com"), ("createdAt", .time (.fin 5)),
          ("updatedAt", .time (.fin 5))]⟩,
        ⟨"u2", [("email", .str "bob@example.com"), ("createdAt", .time (.fin 6)),
          ("updatedAt", .time (.fin 6))]⟩]
    budgets :=
      [⟨"b1", [("userId", .str "u1"), ("category", .str "food"), ("amount", .num (.fin 10)),
          ("createdAt", .time (.fin 7)), ("updatedAt", .time (.fin 7))]⟩,
        ⟨"b2", [("userId", .str "u2"), ("category", .str "food"), ("amount", .num (.fin 20)),
          ("createdAt", .time (.fin 8)), ("updatedAt", .time (.fin 8))]⟩] }

/-- A `/budgets/update` body for `ann@example.com` that carries a `userId`
field. -/
def foreignUserIdBody : Obj :=
  [("email", .str "ann@example.com"), ("category", .str "food"), ("userId", .str "u2")]

/-- A `/budgets/update` body whose `amount` is the empty string. -/
def emptyAmountBody : Obj :=
  [("email", .str "ann@example.com"), ("category", .str "food"), ("amount", .str "")]

/-- The amounts stored in a collection, in collection order. -/
def storedAmounts (c : List Doc) : List JVal :=
  c.map (fun d => d.data.get "amount")

/-- A store whose catalogue has the trophies `saver` and `spender`. -/
def twoTrophies : Store :=
  { oneUser with
    trophies :=
      [⟨"tr1", [("trophyName", .str "saver"), ("displayName", .str "Saver"),
          ("description", .str ""), ("points", .num (.fin 10)),
          ("createdAt", .time (.fin 3)), ("updatedAt", .time (.fin 3))]⟩,
        ⟨"tr2", [("trophyName", .str "spender"), ("displayName", .str "Spender"),
          ("description", .str ""), ("points", .num (.fin 0)),
          ("createdAt", .time (.fin 4)), ("updatedAt", .time (.fin 4))]⟩] }

/-- A `/trophies/update` body that renames `saver` to `hero`. -/
def renameTrophyBody : Obj :=
  [("trophyName", .str "saver"), ("newTrophyName", .str "hero"), ("points", .str "25")]

/-- The routes that update a document in place. -/
def updateRoutes : List Route :=
  [.usersUpdate, .settingsUpdate, .budgetsUpdate, .transactionsUpdate, .goalsUpdate,
    .trophiesUpdate]

/-- The collection an update route writes to. -/
def Route.targetCollection : Route → Store → List Doc
  | .usersUpdate, s => s.users
  | .settingsUpdate, s => s.userSettings
  | .budgetsUpdate, s => s.budgets
  | .transactionsUpdate, s => s.transactions
  | .goalsUpdate, s => s.goals
  | .trophiesUpdate, s => s.trophies
  | _, _ => []

/-- The identifier of the document an update route writes to: the user's
identifier for users and settings, the identifier of the located document for
the other routes. -/
def Route.target (r : Route) (rt : Runtime) (s : Store) (body : Obj) : Option String :=
  match r with
  | .usersUpdate => (getUserIdByEmail rt s (body.get "email")).toOption
  | .settingsUpdate => (getUserIdByEmail rt s (body.get "email")).toOption
  | .budgetsUpdate =>
    match getUserIdByEmail rt s (body.get "email") with
    | .ok uid => (findOne s.budgets (Resource.budgets.key rt uid body)).map Doc.id
    | .error _ => none
  | .transactionsUpdate =>
    match getUserIdByEmail rt s (body.get "email") with
    | .ok uid => (findOne s.transactions (Resource.transactions.key rt uid body)).map Doc.id
    | .error _ => none
  | .goalsUpdate =>
    match getUserIdByEmail rt s (body.get "email") with
    | .ok uid => (findOne s.goals (Resource.goals.key rt uid body)).map Doc.id
    | .error _ => none
  | .trophiesUpdate => (findOne s.trophies (Resource.trophies.key rt "" body)).map Doc.id
  | _ => none

/-- The update set an update route hands to the store. -/
def Route.updateSet (r : Route) (rt : Runtime) (env : Env) (body : Obj) : Obj :=
  match r with
  | .usersUpdate => (body.without ["email"]).set "updatedAt" env.stamp
  | .settingsUpdate => (body.without ["email"]).set "updatedAt" env.stamp
  | .budgetsUpdate =>
    budgetCoerce rt ((body.without ["email", "category"]).set "updatedAt" env.stamp)
  | .transactionsUpdate =>
    transactionUpdates rt env
      (body.without ["email", "category", "transactionDate", "newCategory", "newDate"])
      (body.get "transactionDate") (body.get "newCategory") (body.get "newDate")
  | .goalsUpdate =>
    (goalCoerce rt
      (if wantsRename (body.get "goalName") (body.get "newGoalName") then
        (body.without ["email", "goalName", "newGoalName"]).set "goalName"
          (body.get "newGoalName")
      else body.without ["email", "goalName", "newGoalName"])).set "updatedAt" env.stamp
  | .trophiesUpdate =>
    trophyUpdates rt env (body.get "newTrophyName") (body.get "displayName")
      (body.get "description") (body.get "points")
  | _ => []

/-- The store after an update route has handed the update set `u` for the
document `tid` to the store. -/
def Route.applyUpdate (r : Route) (s : Store) (tid : String) (u : Obj) : Store :=
  match r with
  | .usersUpdate => { s with users := setMergeById s.users tid u }
  | .settingsUpdate => { s with userSettings := setMergeById s.userSettings tid u }
  | .budgetsUpdate => { s with budgets := updateById s.budgets tid u }
  | .transactionsUpdate => { s with transactions := updateById s.transactions tid u }
  | .goalsUpdate => { s with goals := updateById s.goals tid u }
  | .trophiesUpdate => { s with trophies := updateById s.trophies tid u }
  | _ => s

/-- The identifier and the `createdAt` of every document of a collection. -/
def createdAts (c : List Doc) : List (String × JVal) :=
  c.map (fun d => (d.id, d.data.get "createdAt"))

/-- The eight collections of a store, in a fixed order. -/
def Store.collections (s : Store) : List (List Doc) :=
  [s.users, s.userSettings, s.budgets, s.transactions, s.goals, s.trophies, s.usersTrophies,
    s.userActivityLog]

/-- How an update of the document `tid` by a request with body `body` relates
a document `d` before to the document `d'` in its place after: the identifier
stays; a document other than `tid` is as it was; `tid` has `updatedAt` set to
the handler's clock reading and keeps every field the body does not name. -/
def Touched (tid : String) (body : Obj) (env : Env) (d d' : Doc) : Prop :=
  d'.id = d.id
    ∧ (d.id ≠ tid → d' = d)
    ∧ (d.id = tid →
        d'.data.get "updatedAt" = env.stamp
          ∧ ∀ f, f ∉ body.keys → f ≠ "updatedAt" → d'.data.get f = d.data.get f)

/-- The collections an update route does not write to are as they were, and
the activity log has at most grown at its end. -/
def OthersKept (r : Route) (s s' : Store) : Prop :=
  (r ≠ .usersUpdate → s'.users = s.users)
    ∧ (r ≠ .settingsUpdate → s'.userSettings = s.userSettings)
    ∧ (r ≠ .budgetsUpdate → s'.budgets = s.budgets)
    ∧ (r ≠ .transactionsUpdate → s'.transactions = s.transactions)
    ∧ (r ≠ .goalsUpdate → s'.goals = s.goals)
    ∧ (r ≠ .trophiesUpdate → s'.trophies = s.trophies)
    ∧ s'.usersTrophies = s.usersTrophies
    ∧ s.userActivityLog <+: s'.userActivityLog

/-- The fields an update route checks before anything else. -/
def Route.checkedFields : Route → List String
  | .usersUpdate => ["email"]
  | .settingsUpdate => ["email"]
  | .budgetsUpdate => ["email", "category"]
  | .transactionsUpdate => ["email", "category", "transactionDate"]
  | .goalsUpdate => ["email", "goalName"]
  | .trophiesUpdate => ["trophyName"]
  | _ => []

/-- A document that `/users/settings/update` has created for the user `tid`:
no document of the collection `c` had that identifier, `updatedAt` is the
handler's clock reading, and it has no field that the body does not name. -/
def FreshlySet (tid : String) (body : Obj) (env : Env) (c : List Doc) (d : Doc) : Prop :=
  d.id = tid
    ∧ (∀ x ∈ c, x.id ≠ tid)
    ∧ d.data.get "updatedAt" = env.stamp
    ∧ ∀ f, f ∉ body.keys → f ≠ "updatedAt" → d.data.get f = .undefined

/-- Every document that was in the store is still there, in its place, with
its identifier and its `createdAt`; documents may have been added at the end
of a collection. -/
def CreatedAtKept (s s' : Store) : Prop :=
  createdAts s.users <+: createdAts s'.users
    ∧ createdAts s.userSettings <+: createdAts s'.userSettings
    ∧ createdAts s.budgets <+: createdAts s'.budgets
    ∧ createdAts s.transactions <+: createdAts s'.transactions
    ∧ createdAts s.goals <+: createdAts s'.goals
    ∧ createdAts s.trophies <+: createdAts s'.trophies
    ∧ createdAts s.usersTrophies <+: createdAts s'.usersTrophies
    ∧ createdAts s.userActivityLog <+: createdAts s'.userActivityLog

/-- A `/users/update` body that carries a `createdAt` field. -/
def createdAtBody : Obj :=
  [("email", .str "ann@example.com"), ("createdAt", .num (.fin 0))]

/-- A `/users/update` body that sets a profile field. -/
def profileBody : Obj :=
  [("email", .str "ann@example.com"), ("displayName", .str "Ann")]

/-- A `/goals/update` body that changes the target amount of `car`. -/
def goalAmountBody : Obj :=
  [("email", .str "ann@example.com"), ("goalName", .str "car"), ("targetAmount", .str "2000")]

/-- The entry `logUserActivity` adds to `userActivityLog`. -/
def activityEntry (env : Env) (userId : JVal) (activityDescription : String) : Doc :=
  ⟨env.logId, [("userId", userId), ("activityDescription", .str activityDescription),
    ("timestamp", .time (.fin env.logNow))]⟩

/-- The identifier and the `email` of every document of a collection. -/
def emails (c : List Doc) : List (String × JVal) :=
  c.map (fun d => (d.id, d.data.get "email"))

/-- A store with two users and no other document. -/
def annAndBob : Store :=
  { emptyStore with
    users :=
      [⟨"u1", [("email", .str "ann@example.com"), ("createdAt", .time (.fin 5)),
          ("updatedAt", .time (.fin 5))]⟩,
        ⟨"u2", [("email", .str "bob@example.com"), ("createdAt", .time (.fin 6)),
          ("updatedAt", .time (.fin 6))]⟩] }

/-- A `/budgets/list` body for `ann@example.com`, with a category for the
list-by-category route and a status for the list-by-status route. -/
def listBody : Obj :=
  [("email", .str "ann@example.com"), ("category", .str "food"),
    ("status", .str "In Progress")]

/-- The numeric field a create route checks: `targetAmount` for goals, `amount`
for budgets and transactions. -/
def Resource.amountField : Resource → String
  | .goals => "targetAmount"
  | _ => "amount"

/-- A `/budgets/create` body whose `amount` is the string `"0"`. -/
def budgetBodyStringZero : Obj :=
  [("email", .str "ann@example.com"), ("category", .str "food"), ("amount", .str "0"),
    ("startDate", .num (.fin 100)), ("endDate", .num (.fin 200))]

/-- The `/goals/create` body of the scenario of the specification, with the
target date given in milliseconds. -/
def vacationBody : Obj :=
  [("email", .str "ann@example.com"), ("goalName", .str "Vacation"),
    ("targetAmount", .str "1000"), ("targetDate", .num (.fin 1764547200000))]

/-- The `/goals/get` body for the goal of `vacationBody`. -/
def vacationLookup : Obj :=
  [("email", .str "ann@example.com"), ("goalName", .str "Vacation")]

/-- A store in which the catalogue has the trophy `saver` and
`ann@example.com` has no trophy. -/
def oneTrophy : Store :=
  { oneUser with
    trophies :=
      [⟨"tr1", [("trophyName", .str "saver"), ("displayName", .str "Saver"),
          ("description", .str ""), ("points", .num (.fin 10)),
          ("createdAt", .time (.fin 3)), ("updatedAt", .time (.fin 3))]⟩] }

/-- Whether the catalogue has a trophy with the name a record holds. -/
def hasTrophy (s : Store) (d : Doc) : Bool :=
  (findOne s.trophies [("trophyName", d.data.get "trophyName")]).isSome

/-- The object `o` is the entry of `/usersTrophies/list` for the record `d` of
the user `uid`: the catalogue has a trophy with the record's name, and `o`
holds the fields of the first such trophy and, where the trophy has no field
of that name, the record's identifier as `userTrophyId`, `userId`, and the
record's `earnedAt` and `trophyName`. -/
def EntryOf (s : Store) (uid : String) (d : Doc) (o : Obj) : Prop :=
  ∃ t, findOne s.trophies [("trophyName", d.data.get "trophyName")] = some t
    ∧ ∀ f, o.get f
        = if f ∈ t.data.keys then t.data.get f
          else Obj.get
            [("userTrophyId", .str d.id), ("userId", .str uid),
              ("earnedAt", d.data.get "earnedAt"), ("trophyName", d.data.get "trophyName")] f

/-- A store in which `ann@example.com` has earned `saver` and `spender`, both
in the catalogue. -/
def twoEarned : Store :=
  { twoTrophies with
    usersTrophies :=
      [⟨"ut1", [("userId", .str "u1"), ("trophyName", .str "saver"),
          ("earnedAt", .time (.fin 50))]⟩,
        ⟨"ut2", [("userId", .str "u1"), ("trophyName", .str "spender"),
          ("earnedAt", .time (.fin 60))]⟩] }

/-- A `/trophies/delete` body for `saver`. -/
def deleteSaverBody : Obj := [("trophyName", .str "saver")]

/-- A `/usersTrophies/list` body for `ann@example.com`. -/
def annBody : Obj := [("email", .str "ann@example.com")]

/-- Runs requests one after the other, each on the store the one before left;
gives the statuses of the answers and the last store. -/
def runAll (rt : Runtime) : List (Env × Route × Obj) → Store → List Nat × Store
  | [], s => ([], s)
  | (env, r, body) :: rest, s =>
    let out := handle rt env r body s
    let tail := runAll rt rest out.2
    (out.1.status :: tail.1, tail.2)

/-- A clock and identifiers for the `n`-th request of a run. -/
def envAt (n : Nat) (newId logId : String) : Env := ⟨n, n, newId, logId⟩

/-- A `/trophies/create` body for `hero`. -/
def createHeroBody : Obj := [("trophyName", .str "hero")]

/-- A `/trophies/create` body for `saver`. -/
def createSaverBody : Obj := [("trophyName", .str "saver")]

/-- A `/trophies/delete` body for `hero`. -/
def deleteHeroBody : Obj := [("trophyName", .str "hero")]

/-- A `/usersTrophies/earn` body of `ann@example.com` for `hero`. -/
def earnHeroBody : Obj := [("email", .str "ann@example.com"), ("trophyName", .str "hero")]

/-- A `/trophies/update` body that renames `saver` to `hero` and nothing else. -/
def renameSaverBody : Obj := [("trophyName", .str "saver"), ("newTrophyName", .str "hero")]

/-- Five requests on the store `oneUser`: the trophy `hero` is created, earned
by `ann@example.com` and deleted, then the trophy `saver` is created and
earned. -/
def orphanRun : List (Env × Route × Obj) :=
  [(envAt 1 "tr1" "l1", .trophiesCreate, createHeroBody),
    (envAt 2 "ut1" "l2", .usersTrophiesEarn, earnHeroBody),
    (envAt 3 "x3" "l3", .trophiesDelete, deleteHeroBody),
    (envAt 4 "tr2" "l4", .trophiesCreate, createSaverBody),
    (envAt 5 "ut2" "l5", .usersTrophiesEarn, earnBody)]

/-- The store the five requests of `orphanRun` leave. -/
def orphanStore : Store := (runAll sampleRuntime orphanRun oneUser).2

/-! ## The handlers that record activity, with a log write that may fail -/

/-- The last steps of a handler that records activity: `await
logUserActivity(...)`, then the success response.  The call
`userActivityLog.add` is either accepted (`logWrite` is `none`) or rejected
with a message; `logUserActivity` does not call it for a falsy `userId`; a
rejection is an exception inside the handler's `try`, so the answer is the one
of the handler's `catch` block, given as `catchBlock`, and the store is as the
steps before left it. -/
def recordThenRespond (catchBlock : String → Response) (logWrite : Option String) (env : Env)
    (s1 : Store) (userId : JVal) (activityDescription : String) (resp : Response) :
    Response × Store :=
  match logWrite with
  | none => (resp, logUserActivity env s1 userId activityDescription)
  | some err => if !userId.truthy then (resp, s1) else (catchBlock err, s1)

/-- Route `POST /users/update`, the write to the activity log being accepted or rejected
as `logWrite` says. -/
def usersUpdateWithLog (logWrite : Option String) (rt : Runtime) (env : Env)
    (body : Obj) (s : Store) : Response × Store :=
  let email := body.get "email"
  let updates := body.without ["email"]
  if !email.truthy then
    (errorResponse 400 "Email is required to update user.", s)
  else
    match getUserIdByEmail rt s email with
    | .error msg => (catchNotFound msg, s)
    | .ok userId =>
      let updates := updates.set "updatedAt" env.stamp
      let s1 := { s with users := setMergeById s.users userId updates }
      recordThenRespond catchNotFound logWrite env s1 (.str userId)
        "Updated user profile"
        (messageResponse 200 "User updated" [("userId", .str userId)])

/-- Route `POST /users/settings/update`, the write to the activity log being accepted or rejected
as `logWrite` says. -/
def settingsUpdateWithLog (logWrite : Option String) (rt : Runtime) (env : Env)
    (body : Obj) (s : Store) : Response × Store :=
  let email := body.get "email"
  let updates := body.without ["email"]
  if !email.truthy then
    (errorResponse 400 "Email is required to update settings.", s)
  else
    match getUserIdByEmail rt s email with
    | .error msg => (catchNotFound msg, s)
    | .ok userId =>
      let updates := updates.set "updatedAt" env.stamp
      let s1 := { s with userSettings := setMergeById s.userSettings userId updates }
      recordThenRespond catchNotFound logWrite env s1 (.str userId)
        "Updated user settings"
        (messageResponse 200 "Settings updated" [])

/-- Route `POST /budgets/create`, the write to the activity log being accepted or rejected
as `logWrite` says. -/
def budgetsCreateWithLog (logWrite : Option String) (rt : Runtime) (env : Env)
    (body : Obj) (s : Store) : Response × Store :=
  let email := body.get "email"
  let category := body.get "category"
  let amount := body.get "amount"
  let startDate := body.get "startDate"
  let endDate := body.get "endDate"
  if !email.truthy || !category.truthy || !amount.truthy || !startDate.truthy
      || !endDate.truthy then
    (errorResponse 400 "Missing required fields.", s)
  else
    match getUserIdByEmail rt s email with
    | .error msg => (catchNotFound msg, s)
    | .ok userId =>
      match findOne s.budgets (budgetKey userId category) with
      | some _ =>
        (errorResponse 400
          ("A budget with category \"" ++ render rt category
            ++ "\" already exists for this user."), s)
      | none =>
        let s1 :=
          { s with
            budgets := addDoc s.budgets env.newId
              (budgetData rt env userId category amount startDate endDate) }
        recordThenRespond catchNotFound logWrite env s1 (.str userId)
          ("Created a new budget for category: " ++ render rt category)
          (messageResponse 201 "Budget created" [])

/-- Route `POST /budgets/update`, the write to the activity log being accepted or rejected
as `logWrite` says. -/
def budgetsUpdateWithLog (logWrite : Option String) (rt : Runtime) (env : Env)
    (body : Obj) (s : Store) : Response × Store :=
  let email := body.get "email"
  let category := body.get "category"
  let updates := body.without ["email", "category"]
  if !email.truthy || !category.truthy then
    (errorResponse 400 "Email and category are required to update a budget.", s)
  else
    match getUserIdByEmail rt s email with
    | .error msg => (catchAll msg, s)
    | .ok userId =>
      match findOne s.budgets (budgetKey userId category) with
      | none =>
        (errorResponse 404 ("No budget found for category \"" ++ render rt category ++ "\""), s)
      | some doc =>
        let updates := budgetCoerce rt (updates.set "updatedAt" env.stamp)
        let s1 := { s with budgets := updateById s.budgets doc.id updates }
        recordThenRespond catchAll logWrite env s1 (.str userId)
          ("Updated budget for category: " ++ render rt category)
          (messageResponse 200 "Budget updated" [])

/-- Route `POST /budgets/delete`, the write to the activity log being accepted or rejected
as `logWrite` says. -/
def budgetsDeleteWithLog (logWrite : Option String) (rt : Runtime) (env : Env)
    (body : Obj) (s : Store) : Response × Store :=
  let email := body.get "email"
  let category := body.get "category"
  if !email.truthy || !category.truthy then
    (errorResponse 400 "Email and category are required to delete a budget.", s)
  else
    match getUserIdByEmail rt s email with
    | .error msg => (catchAll msg, s)
    | .ok userId =>
      match findOne s.budgets (budgetKey userId category) with
      | none =>
        (errorResponse 404 ("No budget found for category \"" ++ render rt category ++ "\""), s)
      | some doc =>
        let s1 := { s with budgets := deleteById s.budgets doc.id }
        recordThenRespond catchAll logWrite env s1 (.str userId)
          ("Deleted budget for category: " ++ render rt category)
          (messageResponse 200 "Budget deleted" [])

/-- Route `POST /transactions/create`, the write to the activity log being accepted or rejected
as `logWrite` says. -/
def transactionsCreateWithLog (logWrite : Option String) (rt : Runtime) (env : Env)
    (body : Obj) (s : Store) : Response × Store :=
  let email := body.get "email"
  let category := body.get "category"
  let amount := body.get "amount"
  let transactionDate := body.get "transactionDate"
  if !email.truthy || !category.truthy || !amount.truthy || !transactionDate.truthy then
    (errorResponse 400 "Missing required fields.", s)
  else
    match getUserIdByEmail rt s email with
    | .error msg => (catchNotFound msg, s)
    | .ok userId =>
      match findOne s.transactions
          (transactionKey userId category (newDate rt transactionDate)) with
      | some _ =>
        (errorResponse 400
          ("A transaction already exists for category \"" ++ render rt category
            ++ "\" on date \"" ++ render rt transactionDate ++ "\""), s)
      | none =>
        let s1 :=
          { s with
            transactions := addDoc s.transactions env.newId
              (txData rt env userId category amount transactionDate) }
        recordThenRespond catchNotFound logWrite env s1 (.str userId)
          ("Created transaction: " ++ render rt category ++ " @ "
            ++ render rt transactionDate)
          (messageResponse 201 "Transaction created" [])

/-- Route `POST /transactions/update`, the write to the activity log being accepted or rejected
as `logWrite` says. -/
def transactionsUpdateWithLog (logWrite : Option String) (rt : Runtime) (env : Env)
    (body : Obj) (s : Store) : Response × Store :=
  let email := body.get "email"
  let category := body.get "category"
  let transactionDate := body.get "transactionDate"
  let newCategory := body.get "newCategory"
  let newDateField := body.get "newDate"
  let updates :=
    body.without ["email", "category", "transactionDate", "newCategory", "newDate"]
  if !email.truthy || !category.truthy || !transactionDate.truthy then
    (errorResponse 400 "Email, category, and transactionDate are required to update.", s)
  else
    match getUserIdByEmail rt s email with
    | .error msg => (catchAll msg, s)
    | .ok userId =>
      match findOne s.transactions
          (transactionKey userId category (newDate rt transactionDate)) with
      | none => (errorResponse 404 (noTransactionMessage rt category transactionDate), s)
      | some doc =>
        let c := prospectiveCategory category newCategory
        let d := prospectiveDate rt transactionDate newDateField
        if (newCategory.truthy || newDateField.truthy)
            && (findOne s.transactions (transactionKey userId c d)).isSome then
          (errorResponse 400
            ("A transaction already exists with category \"" ++ render rt c
              ++ "\" on date \"" ++ render rt d ++ "\""), s)
        else
          let updates :=
            transactionUpdates rt env updates transactionDate newCategory newDateField
          let s1 := { s with transactions := updateById s.transactions doc.id updates }
          recordThenRespond catchAll logWrite env s1 (.str userId)
            ("Updated transaction " ++ render rt category ++ " @ "
              ++ render rt transactionDate)
            (messageResponse 200 "Transaction updated" [])

/-- Route `POST /transactions/delete`, the write to the activity log being accepted or rejected
as `logWrite` says. -/
def transactionsDeleteWithLog (logWrite : Option String) (rt : Runtime) (env : Env)
    (body : Obj) (s : Store) : Response × Store :=
  let email := body.get "email"
  let category := body.get "category"
  let transactionDate := body.get "transactionDate"
  if !email.truthy || !category.truthy || !transactionDate.truthy then
    (errorResponse 400 "Email, category, and transactionDate required for delete.", s)
  else
    match getUserIdByEmail rt s email with
    | .error msg => (catchAll msg, s)
    | .ok userId =>
      match findOne s.transactions
          (transactionKey userId category (newDate rt transactionDate)) with
      | none => (errorResponse 404 (noTransactionMessage rt category transactionDate), s)
      | some doc =>
        let s1 := { s with transactions := deleteById s.transactions doc.id }
        recordThenRespond catchAll logWrite env s1 (.str userId)
          ("Deleted transaction " ++ render rt category ++ " @ "
            ++ render rt transactionDate)
          (messageResponse 200 "Transaction deleted" [])

/-- Route `POST /goals/create`, the write to the activity log being accepted or rejected
as `logWrite` says. -/
def goalsCreateWithLog (logWrite : Option String) (rt : Runtime) (env : Env)
    (body : Obj) (s : Store) : Response × Store :=
  let email := body.get "email"
  let goalName := body.get "goalName"
  let targetAmount := body.get "targetAmount"
  let currentAmount := body.get "currentAmount"
  let targetDate := body.get "targetDate"
  let status := body.get "status"
  if !email.truthy || !goalName.truthy || !targetAmount.truthy || !targetDate.truthy then
    (errorResponse 400 "Missing required fields.", s)
  else
    match getUserIdByEmail rt s email with
    | .error msg => (catchNotFound msg, s)
    | .ok userId =>
      match findOne s.goals (goalKey userId goalName) with
      | some _ =>
        (errorResponse 400 ("A goal named \"" ++ render rt goalName ++ "\" already exists."), s)
      | none =>
        let s1 :=
          { s with
            goals := addDoc s.goals env.newId
              (newGoal rt env userId goalName targetAmount currentAmount targetDate status) }
        recordThenRespond catchNotFound logWrite env s1 (.str userId)
          ("Created goal: " ++ render rt goalName)
          (messageResponse 201 "Goal created" [])

/-- Route `POST /goals/update`, the write to the activity log being accepted or rejected
as `logWrite` says. -/
def goalsUpdateWithLog (logWrite : Option String) (rt : Runtime) (env : Env)
    (body : Obj) (s : Store) : Response × Store :=
  let email := body.get "email"
  let goalName := body.get "goalName"
  let newGoalName := body.get "newGoalName"
  let updates := body.without ["email", "goalName", "newGoalName"]
  if !email.truthy || !goalName.truthy then
    (errorResponse 400 "Email and goalName are required to update a goal.", s)
  else
    match getUserIdByEmail rt s email with
    | .error msg => (catchAll msg, s)
    | .ok userId =>
      match findOne s.goals (goalKey userId goalName) with
      | none =>
        (errorResponse 404 ("No goal found named \"" ++ render rt goalName ++ "\""), s)
      | some doc =>
        if wantsRename goalName newGoalName
            && (findOne s.goals (goalKey userId newGoalName)).isSome then
          (errorResponse 400 ("Goal \"" ++ render rt newGoalName ++ "\" already exists."), s)
        else
          let updates :=
            if wantsRename goalName newGoalName then updates.set "goalName" newGoalName
            else updates
          let updates := (goalCoerce rt updates).set "updatedAt" env.stamp
          let s1 := { s with goals := updateById s.goals doc.id updates }
          recordThenRespond catchAll logWrite env s1 (.str userId)
            ("Updated goal: " ++ render rt goalName)
            (messageResponse 200 "Goal updated" [])

/-- Route `POST /goals/delete`, the write to the activity log being accepted or rejected
as `logWrite` says. -/
def goalsDeleteWithLog (logWrite : Option String) (rt : Runtime) (env : Env)
    (body : Obj) (s : Store) : Response × Store :=
  let email := body.get "email"
  let goalName := body.get "goalName"
  if !email.truthy || !goalName.truthy then
    (errorResponse 400 "Email and goalName are required to delete a goal.", s)
  else
    match getUserIdByEmail rt s email with
    | .error msg => (catchAll msg, s)
    | .ok userId =>
      match findOne s.goals (goalKey userId goalName) with
      | none =>
        (errorResponse 404 ("No goal found named \"" ++ render rt goalName ++ "\"."), s)
      | some doc =>
        let s1 := { s with goals := deleteById s.goals doc.id }
        recordThenRespond catchAll logWrite env s1 (.str userId)
          ("Deleted goal: " ++ render rt goalName)
          (messageResponse 200 "Goal deleted" [])

/-- Route `POST /usersTrophies/earn`, the write to the activity log being accepted or rejected
as `logWrite` says. -/
def usersTrophiesEarnWithLog (logWrite : Option String) (rt : Runtime) (env : Env)
    (body : Obj) (s : Store) : Response × Store :=
  let email := body.get "email"
  let trophyName := body.get "trophyName"
  if !email.truthy || !trophyName.truthy then
    (errorResponse 400 "email and trophyName are required.", s)
  else
    match getUserIdByEmail rt s email with
    | .error msg => (catchAll msg, s)
    | .ok userId =>
      match findOne s.trophies [("trophyName", trophyName)] with
      | none => (errorResponse 404 (noTrophyMessage rt trophyName), s)
      | some _ =>
        match findOne s.usersTrophies (userTrophyKey userId trophyName) with
        | some _ =>
          (errorResponse 400
            ("User already has trophy \"" ++ render rt trophyName ++ "\"."), s)
        | none =>
          let s1 :=
            { s with
              usersTrophies := addDoc s.usersTrophies env.newId
                (earnRecord env userId trophyName) }
          recordThenRespond catchAll logWrite env s1 (.str userId)
            ("Earned trophy: " ++ render rt trophyName)
            (messageResponse 201 "User trophy earned"
              [("trophyName", trophyName), ("userId", .str userId)])

/-- Route `POST /usersTrophies/delete`, the write to the activity log being accepted or rejected
as `logWrite` says. -/
def usersTrophiesDeleteWithLog (logWrite : Option String) (rt : Runtime) (env : Env)
    (body : Obj) (s : Store) : Response × Store :=
  let email := body.get "email"
  let trophyName := body.get "trophyName"
  if !email.truthy || !trophyName.truthy then
    (errorResponse 400 "email and trophyName are required.", s)
  else
    match getUserIdByEmail rt s email with
    | .error msg => (catchAll msg, s)
    | .ok userId =>
      match findOne s.usersTrophies (userTrophyKey userId trophyName) with
      | none =>
        (errorResponse 404
          ("User does not have trophy \"" ++ render rt trophyName ++ "\"."), s)
      | some doc =>
        let s1 := { s with usersTrophies := deleteById s.usersTrophies doc.id }
        recordThenRespond catchAll logWrite env s1 (.str userId)
          ("Removed trophy from user: " ++ render rt trophyName)
          (messageResponse 200 "User trophy removed" [("trophyName", trophyName)])

/-- One request, the write to the activity log being accepted or rejected as
`logWrite` says. -/
def handleWithLog (logWrite : Option String) (rt : Runtime) (env : Env) (r : Route)
    (body : Obj) (s : Store) : Response × Store :=
  match r with
  | .usersUpdate => usersUpdateWithLog logWrite rt env body s
  | .settingsUpdate => settingsUpdateWithLog logWrite rt env body s
  | .budgetsCreate => budgetsCreateWithLog logWrite rt env body s
  | .budgetsUpdate => budgetsUpdateWithLog logWrite rt env body s
  | .budgetsDelete => budgetsDeleteWithLog logWrite rt env body s
  | .transactionsCreate => transactionsCreateWithLog logWrite rt env body s
  | .transactionsUpdate => transactionsUpdateWithLog logWrite rt env body s
  | .transactionsDelete => transactionsDeleteWithLog logWrite rt env body s
  | .goalsCreate => goalsCreateWithLog logWrite rt env body s
  | .goalsUpdate => goalsUpdateWithLog logWrite rt env body s
  | .goalsDelete => goalsDeleteWithLog logWrite rt env body s
  | .usersTrophiesEarn => usersTrophiesEarnWithLog logWrite rt env body s
  | .usersTrophiesDelete => usersTrophiesDeleteWithLog logWrite rt env body s
  | _ => handle rt env r body s

/-! ## Further concrete requests -/

/-- A `/users/create` body for `bob@example.com`. -/
def bobBody : Obj := [("email", .str "bob@example.com")]

/-- A `/goals/create` body of `ann@example.com` for the goal `car`. -/
def annCarBody : Obj :=
  [("email", .str "ann@example.com"), ("goalName", .str "car"),
    ("targetAmount", .str "1000"), ("targetDate", .num (.fin 500))]

/-- A `/goals/create` body of `bob@example.com` for the goal `car`. -/
def bobCarBody : Obj :=
  [("email", .str "bob@example.com"), ("goalName", .str "car"),
    ("targetAmount", .str "1000"), ("targetDate", .num (.fin 500))]

/-- A `/goals/update` body of `bob@example.com` for the goal `car` that carries
a `userId` field. -/
def moveCarBody : Obj :=
  [("email", .str "bob@example.com"), ("goalName", .str "car"), ("userId", .str "u1")]

/-- A `/goals/update` body of `ann@example.com` whose `newGoalName` is the
`goalName` it names the goal by. -/
def sameGoalNameBody : Obj :=
  [("email", .str "ann@example.com"), ("goalName", .str "car"),
    ("newGoalName", .str "car"), ("targetAmount", .str "2000")]

/-- Five requests on the empty store: the users `ann@example.com` and
`bob@example.com` are created, each creates a goal `car`, and a `/goals/update`
of `bob@example.com` writes the `userId` of `ann@example.com` to his goal. -/
def sharedKeyRun : List (Env × Route × Obj) :=
  [(envAt 1 "u1" "l1", .usersCreate, annBody),
    (envAt 2 "u2" "l2", .usersCreate, bobBody),
    (envAt 3 "g1" "l3", .goalsCreate, annCarBody),
    (envAt 4 "g2" "l4", .goalsCreate, bobCarBody),
    (envAt 5 "x5" "l5", .goalsUpdate, moveCarBody)]

/-- The store the five requests of `sharedKeyRun` leave. -/
def sharedKeyStore : Store := (runAll sampleRuntime sharedKeyRun emptyStore).2

/-- A `/usersTrophies/earn` body for `ann@example.com` whose `trophyName` is
the empty string. -/
def earnNamelessBody : Obj :=
  [("email", .str "ann@example.com"), ("trophyName", .str "")]

/-- A `/goals/update` body that sets the status of the goal `car` to the empty
string. -/
def clearStatusBody : Obj :=
  [("email", .str "ann@example.com"), ("goalName", .str "car"), ("status", .str "")]

/-- The store `/goals/update` with `clearStatusBody` leaves of `twoGoals`. -/
def clearedStatusStore : Store :=
  (handle sampleRuntime sampleEnv .goalsUpdate clearStatusBody twoGoals).2

/-- A list-by-category and list-by-status body for `ann@example.com` whose
`category` and `status` are the empty string. -/
def emptyFilterBody : Obj :=
  [("email", .str "ann@example.com"), ("category", .str ""), ("status", .str "")]
/-! ## Lemmas on objects -/

theorem Obj.get_cons (k' : String) (v : JVal) (rest : Obj) (k : String) :
    Obj.get ((k', v) :: rest) k = if k' = k then v else Obj.get rest k := rfl

theorem Obj.get_append (a b : Obj) (k : String) :
    Obj.get (a ++ b) k = if k ∈ a.keys then a.get k else b.get k := by
  induction a with
  | nil => simp [Obj.keys]
  | cons p a ih =>
    obtain ⟨k', v⟩ := p
    by_cases h : k' = k
    · simp [Obj.get_cons, Obj.keys, h]
    · have h' : ¬ k = k' := fun e => h e.symm
      simp only [List.cons_append, Obj.get_cons, h, if_false, ih, Obj.keys, List.map_cons,
        List.mem_cons, h', false_or]

theorem Obj.get_of_not_mem_keys (o : Obj) (k : String) (h : k ∉ o.keys) :
    o.get k = .undefined := by
  induction o with
  | nil => rfl
  | cons p o ih =>
    obtain ⟨k', v⟩ := p
    simp only [Obj.keys, List.map_cons, List.mem_cons, not_or] at h
    have h1 : ¬ k' = k := fun e => h.1 e.symm
    simp only [Obj.get_cons, h1, if_false]
    exact ih h.2

theorem Obj.mem_keys_of_get (o : Obj) (k : String) (h : o.get k ≠ .undefined) :
    k ∈ o.keys := by
  by_contra hk
  exact h (Obj.get_of_not_mem_keys o k hk)

theorem Obj.get_without (o : Obj) (ks : List String) (k : String) :
    (o.without ks).get k = if k ∈ ks then .undefined else o.get k := by
  induction o with
  | nil => simp [Obj.without, Obj.get]
  | cons p o ih =>
    obtain ⟨k', v⟩ := p
    unfold Obj.without at ih ⊢
    by_cases hk' : k' ∈ ks
    · have : (!(ks.contains k')) = false := by simp [hk']
      rw [List.filter_cons_of_neg (by simpa using hk'), ih]
      by_cases hk : k ∈ ks
      · simp [hk]
      · have hne : ¬ k' = k := fun e => hk (e ▸ hk')
        simp [hk, Obj.get_cons, hne]
    · rw [List.filter_cons_of_pos (by simpa using hk'), Obj.get_cons, ih, Obj.get_cons]
      by_cases hne : k' = k
      · subst hne
        simp [hk']
      · simp [hne]

theorem Obj.keys_without (o : Obj) (ks : List String) (k : String) :
    k ∈ (o.without ks).keys ↔ k ∈ o.keys ∧ k ∉ ks := by
  induction o with
  | nil => simp [Obj.without, Obj.keys]
  | cons p o ih =>
    obtain ⟨k', v⟩ := p
    unfold Obj.without Obj.keys at ih ⊢
    by_cases hk' : k' ∈ ks
    · rw [List.filter_cons_of_neg (by simpa using hk'), ih]
      simp only [List.map_cons, List.mem_cons]
      constructor
      · rintro ⟨h1, h2⟩
        exact ⟨Or.inr h1, h2⟩
      · rintro ⟨h1 | h1, h2⟩
        · exact absurd (h1 ▸ hk') h2
        · exact ⟨h1, h2⟩
    · rw [List.filter_cons_of_pos (by simpa using hk')]
      simp only [List.map_cons, List.mem_cons, ih]
      constructor
      · rintro (h1 | ⟨h1, h2⟩)
        · exact ⟨Or.inl h1, h1 ▸ hk'⟩
        · exact ⟨Or.inr h1, h2⟩
      · rintro ⟨h1 | h1, h2⟩
        · exact Or.inl h1
        · exact Or.inr ⟨h1, h2⟩

theorem Obj.get_set (o : Obj) (k : String) (v : JVal) (k' : String) :
    (o.set k v).get k' = if k = k' then v else o.get k' := by
  unfold Obj.set
  rw [Obj.get_cons, Obj.get_without]
  by_cases h : k = k'
  · simp [h]
  · have h' : ¬ k' = k := fun e => h e.symm
    simp [h, h']

theorem Obj.keys_set (o : Obj) (k : String) (v : JVal) (k' : String) :
    k' ∈ (o.set k v).keys ↔ k' = k ∨ k' ∈ o.keys := by
  unfold Obj.set
  have := Obj.keys_without o [k] k'
  simp only [Obj.keys, List.map_cons, List.mem_cons] at this ⊢
  rw [this]
  simp only [List.mem_singleton, List.not_mem_nil, or_false]
  tauto

theorem Obj.get_merge (d u : Obj) (k : String) :
    (d.merge u).get k = if k ∈ u.keys then u.get k else d.get k := by
  unfold Obj.merge
  rw [Obj.get_append, Obj.get_without]
  by_cases h : k ∈ u.keys <;> simp [h]

theorem JVal.ne_undefined_of_truthy {v : JVal} (h : v.truthy = true) : v ≠ .undefined := by
  rintro rfl
  simp [JVal.truthy] at h

/-! ## Lemmas on the store and on the helper functions -/

theorem includesNotFound_userMessage (a : String) :
    includesNotFound ("User with email '" ++ a ++ "' not found.") = true := by
  unfold includesNotFound
  rw [decide_eq_true_iff]
  refine ⟨("User with email '" ++ a).data ++ "' ".data, ".".data, ?_⟩
  simp [String.data_append]

theorem getUserIdByEmail_error {rt : Runtime} {s : Store} {email : JVal} {msg : String}
    (h : getUserIdByEmail rt s email = .error msg) :
    msg = "User with email '" ++ render rt email ++ "' not found."
      ∧ findOne s.users [("email", email)] = none := by
  unfold getUserIdByEmail at h
  split at h
  · injection h with h
    exact ⟨h.symm, by assumption⟩
  · cases h

theorem catchNotFound_status {rt : Runtime} {s : Store} {email : JVal} {msg : String}
    (h : getUserIdByEmail rt s email = .error msg) : (catchNotFound msg).status = 404 := by
  rw [(getUserIdByEmail_error h).1]
  unfold catchNotFound
  rw [includesNotFound_userMessage]
  rfl

theorem catchAll_status (msg : String) : (catchAll msg).status = 500 := rfl

@[simp] theorem logUserActivity_users (env : Env) (s : Store) (u : JVal) (d : String) :
    (logUserActivity env s u d).users = s.users := by
  unfold logUserActivity; split <;> rfl

@[simp] theorem logUserActivity_userSettings (env : Env) (s : Store) (u : JVal) (d : String) :
    (logUserActivity env s u d).userSettings = s.userSettings := by
  unfold logUserActivity; split <;> rfl

@[simp] theorem logUserActivity_budgets (env : Env) (s : Store) (u : JVal) (d : String) :
    (logUserActivity env s u d).budgets = s.budgets := by
  unfold logUserActivity; split <;> rfl

@[simp] theorem logUserActivity_transactions (env : Env) (s : Store) (u : JVal) (d : String) :
    (logUserActivity env s u d).transactions = s.transactions := by
  unfold logUserActivity; split <;> rfl

@[simp] theorem logUserActivity_goals (env : Env) (s : Store) (u : JVal) (d : String) :
    (logUserActivity env s u d).goals = s.goals := by
  unfold logUserActivity; split <;> rfl

@[simp] theorem logUserActivity_trophies (env : Env) (s : Store) (u : JVal) (d : String) :
    (logUserActivity env s u d).trophies = s.trophies := by
  unfold logUserActivity; split <;> rfl

@[simp] theorem logUserActivity_usersTrophies (env : Env) (s : Store) (u : JVal) (d : String) :
    (logUserActivity env s u d).usersTrophies = s.usersTrophies := by
  unfold logUserActivity; split <;> rfl

theorem findOne_eq_none_iff (c : List Doc) (K : List (String × JVal)) :
    findOne c K = none ↔ whereEq c K = [] := by
  unfold findOne
  exact List.head?_eq_none_iff

theorem findOne_some_mem {c : List Doc} {K : List (String × JVal)} {d : Doc}
    (h : findOne c K = some d) : d ∈ c ∧ (K.all (fun p => d.has p.1 p.2)) = true := by
  unfold findOne at h
  have hm : d ∈ whereEq c K := List.mem_of_mem_head? h
  unfold whereEq at hm
  exact List.mem_filter.mp hm

theorem findOne_isSome_of_mem {c : List Doc} {K : List (String × JVal)} {d : Doc}
    (hd : d ∈ c) (hK : (K.all (fun p => d.has p.1 p.2)) = true) :
    (findOne c K).isSome = true := by
  cases h : findOne c K with
  | some _ => rfl
  | none =>
    rw [findOne_eq_none_iff] at h
    have : d ∈ whereEq c K := List.mem_filter.mpr ⟨hd, hK⟩
    rw [h] at this
    cases this

theorem whereEq_addDoc (c : List Doc) (id : String) (data : Obj) (K : List (String × JVal)) :
    whereEq (addDoc c id data) K
      = whereEq c K ++ (if K.all (fun p => (Doc.mk id data).has p.1 p.2) then [⟨id, data⟩]
          else []) := by
  unfold whereEq addDoc
  rw [List.filter_append]
  by_cases h : (K.all (fun p => (Doc.mk id data).has p.1 p.2)) = true
  · simp [h]
  · simp [h]

/-! ## C1: two creates with the same key -/

theorem getUserIdByEmail_congr (rt : Runtime) {s s' : Store} (h : s'.users = s.users)
    (email : JVal) : getUserIdByEmail rt s' email = getUserIdByEmail rt s email := by
  unfold getUserIdByEmail
  rw [h]

theorem whereEq_addDoc_of_free {c : List Doc} {id : String} {data : Obj}
    {K : List (String × JVal)} (hfree : whereEq c K = [])
    (hm : (K.all (fun p => (Doc.mk id data).has p.1 p.2)) = true) :
    whereEq (addDoc c id data) K = [⟨id, data⟩] := by
  rw [whereEq_addDoc, hfree, if_pos hm]
  rfl

theorem findOne_addDoc_of_free {c : List Doc} {id : String} {data : Obj}
    {K : List (String × JVal)} (hfree : whereEq c K = [])
    (hm : (K.all (fun p => (Doc.mk id data).has p.1 p.2)) = true) :
    findOne (addDoc c id data) K = some ⟨id, data⟩ := by
  unfold findOne
  rw [whereEq_addDoc_of_free hfree hm]
  rfl

theorem Doc.has_iff (d : Doc) (k : String) (v : JVal) :
    d.has k v = true ↔ v ≠ .undefined ∧ d.data.get k = v := by
  unfold Doc.has
  simp

theorem isSome_elim {α : Type} {o : Option α} (h : o.isSome = true) : ∃ a, o = some a := by
  cases o with
  | none => cases h
  | some a => exact ⟨a, rfl⟩

/-- The outcome of `/users/create` when the email is new. -/
theorem usersCreate_created (env : Env) (b : Obj) (s : Store)
    (he : (b.get "email").truthy = true)
    (hk : whereEq s.users [("email", b.get "email")] = []) :
    usersCreate env b s
      = (messageResponse 201 "User created" [("userId", .str env.newId)],
          { s with users := addDoc s.users env.newId (userData env (b.get "email")) }) := by
  have hk' := (findOne_eq_none_iff _ _).mpr hk
  unfold usersCreate
  simp only [he, hk', Bool.not_true, Bool.false_eq_true, if_false]

/-- The outcome of `/users/create` when the email is taken. -/
theorem usersCreate_conflict (env : Env) (b : Obj) (s : Store)
    (he : (b.get "email").truthy = true)
    (hk : (findOne s.users [("email", b.get "email")]).isSome = true) :
    (usersCreate env b s).1.status = 400 ∧ (usersCreate env b s).2 = s := by
  obtain ⟨d, hd⟩ := isSome_elim hk
  unfold usersCreate
  simp only [he, hd, Bool.not_true, Bool.false_eq_true, if_false]
  exact ⟨rfl, trivial⟩

/-- The outcome of `/budgets/create` when every check passes. -/
theorem budgetsCreate_created (rt : Runtime) (env : Env) (b : Obj) (s : Store) (uid : String)
    (hreq : ∀ f ∈ Resource.budgets.createFields, (b.get f).truthy = true)
    (hu : getUserIdByEmail rt s (b.get "email") = .ok uid)
    (hk : whereEq s.budgets (Resource.budgets.key rt uid b) = []) :
    budgetsCreate rt env b s
      = (messageResponse 201 "Budget created" [],
          logUserActivity env
            { s with
              budgets := addDoc s.budgets env.newId
                (budgetData rt env uid (b.get "category") (b.get "amount") (b.get "startDate")
                  (b.get "endDate")) }
            (.str uid)
            ("Created a new budget for category: " ++ render rt (b.get "category"))) := by
  have he := hreq "email" (by simp [Resource.createFields])
  have hc := hreq "category" (by simp [Resource.createFields])
  have ha := hreq "amount" (by simp [Resource.createFields])
  have hs := hreq "startDate" (by simp [Resource.createFields])
  have hd := hreq "endDate" (by simp [Resource.createFields])
  have hk' := (findOne_eq_none_iff _ _).mpr hk
  simp only [Resource.key] at hk'
  unfold budgetsCreate
  simp only [he, hc, ha, hs, hd, hu, hk', Bool.not_true, Bool.or_self, Bool.false_eq_true,
    if_false]

/-- The outcome of `/budgets/create` when the key is taken. -/
theorem budgetsCreate_conflict (rt : Runtime) (env : Env) (b : Obj) (s : Store) (uid : String)
    (hreq : ∀ f ∈ Resource.budgets.createFields, (b.get f).truthy = true)
    (hu : getUserIdByEmail rt s (b.get "email") = .ok uid)
    (hk : (findOne s.budgets (Resource.budgets.key rt uid b)).isSome = true) :
    (budgetsCreate rt env b s).1.status = 400 ∧ (budgetsCreate rt env b s).2 = s := by
  have he := hreq "email" (by simp [Resource.createFields])
  have hc := hreq "category" (by simp [Resource.createFields])
  have ha := hreq "amount" (by simp [Resource.createFields])
  have hs := hreq "startDate" (by simp [Resource.createFields])
  have hd := hreq "endDate" (by simp [Resource.createFields])
  obtain ⟨d, hd'⟩ := isSome_elim hk
  simp only [Resource.key] at hd'
  unfold budgetsCreate
  simp only [he, hc, ha, hs, hd, hu, hd', Bool.not_true, Bool.or_self, Bool.false_eq_true,
    if_false]
  exact ⟨rfl, trivial⟩

/-- The outcome of `/transactions/create` when every check passes. -/
theorem transactionsCreate_created (rt : Runtime) (env : Env) (b : Obj) (s : Store)
    (uid : String)
    (hreq : ∀ f ∈ Resource.transactions.createFields, (b.get f).truthy = true)
    (hu : getUserIdByEmail rt s (b.get "email") = .ok uid)
    (hk : whereEq s.transactions (Resource.transactions.key rt uid b) = []) :
    transactionsCreate rt env b s
      = (messageResponse 201 "Transaction created" [],
          logUserActivity env
            { s with
              transactions := addDoc s.transactions env.newId
                (txData rt env uid (b.get "category") (b.get "amount")
                  (b.get "transactionDate")) }
            (.str uid)
            ("Created transaction: " ++ render rt (b.get "category") ++ " @ "
              ++ render rt (b.get "transactionDate"))) := by
  have he := hreq "email" (by simp [Resource.createFields])
  have hc := hreq "category" (by simp [Resource.createFields])
  have ha := hreq "amount" (by simp [Resource.createFields])
  have hd := hreq "transactionDate" (by simp [Resource.createFields])
  have hk' := (findOne_eq_none_iff _ _).mpr hk
  simp only [Resource.key] at hk'
  unfold transactionsCreate
  simp only [he, hc, ha, hd, hu, hk', Bool.not_true, Bool.or_self, Bool.false_eq_true,
    if_false]

/-- The outcome of `/transactions/create` when the key is taken. -/
theorem transactionsCreate_conflict (rt : Runtime) (env : Env) (b : Obj) (s : Store)
    (uid : String)
    (hreq : ∀ f ∈ Resource.transactions.createFields, (b.get f).truthy = true)
    (hu : getUserIdByEmail rt s (b.get "email") = .ok uid)
    (hk : (findOne s.transactions (Resource.transactions.key rt uid b)).isSome = true) :
    (transactionsCreate rt env b s).1.status = 400
      ∧ (transactionsCreate rt env b s).2 = s := by
  have he := hreq "email" (by simp [Resource.createFields])
  have hc := hreq "category" (by simp [Resource.createFields])
  have ha := hreq "amount" (by simp [Resource.createFields])
  have hd := hreq "transactionDate" (by simp [Resource.createFields])
  obtain ⟨d, hd'⟩ := isSome_elim hk
  simp only [Resource.key] at hd'
  unfold transactionsCreate
  simp only [he, hc, ha, hd, hu, hd', Bool.not_true, Bool.or_self, Bool.false_eq_true,
    if_false]
  exact ⟨rfl, trivial⟩

/-- The outcome of `/goals/create` when every check passes. -/
theorem goalsCreate_created (rt : Runtime) (env : Env) (b : Obj) (s : Store) (uid : String)
    (hreq : ∀ f ∈ Resource.goals.createFields, (b.get f).truthy = true)
    (hu : getUserIdByEmail rt s (b.get "email") = .ok uid)
    (hk : whereEq s.goals (Resource.goals.key rt uid b) = []) :
    goalsCreate rt env b s
      = (messageResponse 201 "Goal created" [],
          logUserActivity env
            { s with
              goals := addDoc s.goals env.newId
                (newGoal rt env uid (b.get "goalName") (b.get "targetAmount")
                  (b.get "currentAmount") (b.get "targetDate") (b.get "status")) }
            (.str uid) ("Created goal: " ++ render rt (b.get "goalName"))) := by
  have he := hreq "email" (by simp [Resource.createFields])
  have hc := hreq "goalName" (by simp [Resource.createFields])
  have ha := hreq "targetAmount" (by simp [Resource.createFields])
  have hd := hreq "targetDate" (by simp [Resource.createFields])
  have hk' := (findOne_eq_none_iff _ _).mpr hk
  simp only [Resource.key] at hk'
  unfold goalsCreate
  simp only [he, hc, ha, hd, hu, hk', Bool.not_true, Bool.or_self, Bool.false_eq_true,
    if_false]

/-- The outcome of `/goals/create` when the key is taken. -/
theorem goalsCreate_conflict (rt : Runtime) (env : Env) (b : Obj) (s : Store) (uid : String)
    (hreq : ∀ f ∈ Resource.goals.createFields, (b.get f).truthy = true)
    (hu : getUserIdByEmail rt s (b.get "email") = .ok uid)
    (hk : (findOne s.goals (Resource.goals.key rt uid b)).isSome = true) :
    (goalsCreate rt env b s).1.status = 400 ∧ (goalsCreate rt env b s).2 = s := by
  have he := hreq "email" (by simp [Resource.createFields])
  have hc := hreq "goalName" (by simp [Resource.createFields])
  have ha := hreq "targetAmount" (by simp [Resource.createFields])
  have hd := hreq "targetDate" (by simp [Resource.createFields])
  obtain ⟨d, hd'⟩ := isSome_elim hk
  simp only [Resource.key] at hd'
  unfold goalsCreate
  simp only [he, hc, ha, hd, hu, hd', Bool.not_true, Bool.or_self, Bool.false_eq_true,
    if_false]
  exact ⟨rfl, trivial⟩

/-- The outcome of `/trophies/create` when the name is new. -/
theorem trophiesCreate_created (rt : Runtime) (env : Env) (b : Obj) (s : Store)
    (he : (b.get "trophyName").truthy = true)
    (hk : whereEq s.trophies [("trophyName", b.get "trophyName")] = []) :
    trophiesCreate rt env b s
      = (messageResponse 201 "Trophy created" [("trophyName", b.get "trophyName")],
          { s with
            trophies := addDoc s.trophies env.newId
              (newTrophy rt env (b.get "trophyName") (b.get "displayName")
                (b.get "description") (b.get "points")) }) := by
  have hk' := (findOne_eq_none_iff _ _).mpr hk
  unfold trophiesCreate
  simp only [he, hk', Bool.not_true, Bool.false_eq_true, if_false]

/-- The outcome of `/trophies/create` when the name is taken. -/
theorem trophiesCreate_conflict (rt : Runtime) (env : Env) (b : Obj) (s : Store)
    (he : (b.get "trophyName").truthy = true)
    (hk : (findOne s.trophies [("trophyName", b.get "trophyName")]).isSome = true) :
    (trophiesCreate rt env b s).1.status = 400 ∧ (trophiesCreate rt env b s).2 = s := by
  obtain ⟨d, hd⟩ := isSome_elim hk
  unfold trophiesCreate
  simp only [he, hd, Bool.not_true, Bool.false_eq_true, if_false]
  exact ⟨rfl, trivial⟩

/-- The outcome of `/usersTrophies/earn` when every check passes. -/
theorem usersTrophiesEarn_created (rt : Runtime) (env : Env) (b : Obj) (s : Store)
    (uid : String)
    (hreq : ∀ f ∈ Resource.usersTrophies.createFields, (b.get f).truthy = true)
    (hu : getUserIdByEmail rt s (b.get "email") = .ok uid)
    (ht : (findOne s.trophies [("trophyName", b.get "trophyName")]).isSome = true)
    (hk : whereEq s.usersTrophies (Resource.usersTrophies.key rt uid b) = []) :
    usersTrophiesEarn rt env b s
      = (messageResponse 201 "User trophy earned"
            [("trophyName", b.get "trophyName"), ("userId", .str uid)],
          logUserActivity env
            { s with
              usersTrophies := addDoc s.usersTrophies env.newId
                (earnRecord env uid (b.get "trophyName")) }
            (.str uid) ("Earned trophy: " ++ render rt (b.get "trophyName"))) := by
  have he := hreq "email" (by simp [Resource.createFields])
  have hc := hreq "trophyName" (by simp [Resource.createFields])
  obtain ⟨t, ht'⟩ := isSome_elim ht
  have hk' := (findOne_eq_none_iff _ _).mpr hk
  simp only [Resource.key] at hk'
  unfold usersTrophiesEarn
  simp only [he, hc, hu, ht', hk', Bool.not_true, Bool.or_self, Bool.false_eq_true, if_false]

/-- The outcome of `/usersTrophies/earn` when the user has the trophy. -/
theorem usersTrophiesEarn_conflict (rt : Runtime) (env : Env) (b : Obj) (s : Store)
    (uid : String)
    (hreq : ∀ f ∈ Resource.usersTrophies.createFields, (b.get f).truthy = true)
    (hu : getUserIdByEmail rt s (b.get "email") = .ok uid)
    (ht : (findOne s.trophies [("trophyName", b.get "trophyName")]).isSome = true)
    (hk : (findOne s.usersTrophies (Resource.usersTrophies.key rt uid b)).isSome = true) :
    (usersTrophiesEarn rt env b s).1.status = 400 ∧ (usersTrophiesEarn rt env b s).2 = s := by
  have he := hreq "email" (by simp [Resource.createFields])
  have hc := hreq "trophyName" (by simp [Resource.createFields])
  obtain ⟨t, ht'⟩ := isSome_elim ht
  obtain ⟨d, hd'⟩ := isSome_elim hk
  simp only [Resource.key] at hd'
  unfold usersTrophiesEarn
  simp only [he, hc, hu, ht', hd', Bool.not_true, Bool.or_self, Bool.false_eq_true, if_false]
  exact ⟨rfl, trivial⟩

/-- A create request that passes every check, followed by a second one with
the same key: the shape shared by the six resource types. -/
theorem create_twice_of {H : Env → Obj → Store → Response × Store} {C : Store → List Doc}
    {env1 env2 : Env} {b1 b2 : Obj} {s s1 : Store} {r1 : Response} {K : List (String × JVal)}
    {data : Obj}
    (h1 : H env1 b1 s = (r1, s1)) (hr1 : r1.status = 201)
    (hcoll : C s1 = addDoc (C s) env1.newId data)
    (hfree : whereEq (C s) K = [])
    (hm : (K.all (fun p => (Doc.mk env1.newId data).has p.1 p.2)) = true)
    (h2 : (findOne (C s1) K).isSome = true →
      (H env2 b2 s1).1.status = 400 ∧ (H env2 b2 s1).2 = s1) :
    (H env1 b1 s).1.status = 201
      ∧ (H env2 b2 (H env1 b1 s).2).1.status = 400
      ∧ (H env2 b2 (H env1 b1 s).2).2 = (H env1 b1 s).2
      ∧ (whereEq (C (H env2 b2 (H env1 b1 s).2).2) K).length = 1 := by
  have hsome : (findOne (C s1) K).isSome = true := by
    rw [hcoll, findOne_addDoc_of_free hfree hm]
    rfl
  obtain ⟨h2a, h2b⟩ := h2 hsome
  rw [h1]
  refine ⟨hr1, h2a, h2b, ?_⟩
  show (whereEq (C (H env2 b2 s1).2) K).length = 1
  rw [h2b, hcoll, whereEq_addDoc_of_free hfree hm]
  rfl

/-- C1, as amended.  For each of the six resource types: in a store where no
document has the key K, two create requests that name K, whose checked fields
are all truthy and whose email (where one is required) resolves to a user,
and, for usersTrophies, whose trophy is in the catalogue, run one after the
other, answer 201 and then 400; the second leaves the store as the first left
it, and exactly one document with key K is then in the collection. -/
theorem create_twice_same_key (rt : Runtime) (env1 env2 : Env) (res : Resource)
    (b1 b2 : Obj) (s : Store) (uid : String)
    (hreq1 : ∀ f ∈ res.createFields, (b1.get f).truthy = true)
    (hreq2 : ∀ f ∈ res.createFields, (b2.get f).truthy = true)
    (huser : res.perUser = true →
      getUserIdByEmail rt s (b1.get "email") = .ok uid
        ∧ getUserIdByEmail rt s (b2.get "email") = .ok uid)
    (hkey : res.key rt uid b2 = res.key rt uid b1)
    (hfree : whereEq (res.collection s) (res.key rt uid b1) = [])
    (htrophy : res = .usersTrophies →
      (findOne s.trophies [("trophyName", b1.get "trophyName")]).isSome = true) :
    (handle rt env1 res.createRoute b1 s).1.status = 201
      ∧ (handle rt env2 res.createRoute b2 (handle rt env1 res.createRoute b1 s).2).1.status
          = 400
      ∧ (handle rt env2 res.createRoute b2 (handle rt env1 res.createRoute b1 s).2).2
          = (handle rt env1 res.createRoute b1 s).2
      ∧ (whereEq
          (res.collection
            (handle rt env2 res.createRoute b2 (handle rt env1 res.createRoute b1 s).2).2)
          (res.key rt uid b1)).length = 1 := by
  cases res with
  | users =>
    have he1 := hreq1 "email" (by simp [Resource.createFields])
    have he2 := hreq2 "email" (by simp [Resource.createFields])
    have hk2 : b2.get "email" = b1.get "email" := by
      simpa [Resource.key] using hkey
    refine create_twice_of (H := fun e b t => usersCreate e b t) (C := Store.users)
      (usersCreate_created env1 b1 s he1 hfree) rfl rfl hfree ?_ ?_
    · simp [Resource.key, userData, Doc.has_iff, Obj.get, JVal.ne_undefined_of_truthy he1]
    · intro hsome
      refine usersCreate_conflict env2 b2 _ he2 ?_
      rw [hk2]
      exact hsome
  | budgets =>
    obtain ⟨hu1, hu2⟩ := huser rfl
    have hc := hreq1 "category" (by simp [Resource.createFields])
    refine create_twice_of (H := fun e b t => budgetsCreate rt e b t) (C := Store.budgets)
      (budgetsCreate_created rt env1 b1 s uid hreq1 hu1 hfree) rfl
      (by rw [logUserActivity_budgets]) hfree ?_ ?_
    · simp [Resource.key, budgetKey, budgetData, Doc.has_iff, Obj.get,
        JVal.ne_undefined_of_truthy hc]
    · intro hsome
      refine budgetsCreate_conflict rt env2 b2 _ uid hreq2 ?_ ?_
      · exact (getUserIdByEmail_congr rt (by simp) _).trans hu2
      · rw [hkey]
        exact hsome
  | transactions =>
    obtain ⟨hu1, hu2⟩ := huser rfl
    have hc := hreq1 "category" (by simp [Resource.createFields])
    refine create_twice_of (H := fun e b t => transactionsCreate rt e b t)
      (C := Store.transactions)
      (transactionsCreate_created rt env1 b1 s uid hreq1 hu1 hfree) rfl
      (by rw [logUserActivity_transactions]) hfree ?_ ?_
    · simp [Resource.key, transactionKey, txData, Doc.has_iff, Obj.get, newDate,
        JVal.ne_undefined_of_truthy hc]
    · intro hsome
      refine transactionsCreate_conflict rt env2 b2 _ uid hreq2 ?_ ?_
      · exact (getUserIdByEmail_congr rt (by simp) _).trans hu2
      · rw [hkey]
        exact hsome
  | goals =>
    obtain ⟨hu1, hu2⟩ := huser rfl
    have hc := hreq1 "goalName" (by simp [Resource.createFields])
    refine create_twice_of (H := fun e b t => goalsCreate rt e b t) (C := Store.goals)
      (goalsCreate_created rt env1 b1 s uid hreq1 hu1 hfree) rfl
      (by rw [logUserActivity_goals]) hfree ?_ ?_
    · simp [Resource.key, goalKey, newGoal, Doc.has_iff, Obj.get,
        JVal.ne_undefined_of_truthy hc]
    · intro hsome
      refine goalsCreate_conflict rt env2 b2 _ uid hreq2 ?_ ?_
      · exact (getUserIdByEmail_congr rt (by simp) _).trans hu2
      · rw [hkey]
        exact hsome
  | trophies =>
    have he1 := hreq1 "trophyName" (by simp [Resource.createFields])
    have he2 := hreq2 "trophyName" (by simp [Resource.createFields])
    have hk2 : b2.get "trophyName" = b1.get "trophyName" := by
      simpa [Resource.key] using hkey
    refine create_twice_of (H := fun e b t => trophiesCreate rt e b t) (C := Store.trophies)
      (trophiesCreate_created rt env1 b1 s he1 hfree) rfl rfl hfree ?_ ?_
    · simp [Resource.key, newTrophy, Doc.has_iff, Obj.get, JVal.ne_undefined_of_truthy he1]
    · intro hsome
      refine trophiesCreate_conflict rt env2 b2 _ he2 ?_
      rw [hk2]
      exact hsome
  | usersTrophies =>
    obtain ⟨hu1, hu2⟩ := huser rfl
    have ht := htrophy rfl
    have hc := hreq1 "trophyName" (by simp [Resource.createFields])
    have hk2 : b2.get "trophyName" = b1.get "trophyName" := by
      simpa [Resource.key, userTrophyKey] using hkey
    refine create_twice_of (H := fun e b t => usersTrophiesEarn rt e b t)
      (C := Store.usersTrophies)
      (usersTrophiesEarn_created rt env1 b1 s uid hreq1 hu1 ht hfree) rfl
      (by rw [logUserActivity_usersTrophies]) hfree ?_ ?_
    · simp [Resource.key, userTrophyKey, earnRecord, Doc.has_iff, Obj.get,
        JVal.ne_undefined_of_truthy hc]
    · intro hsome
      refine usersTrophiesEarn_conflict rt env2 b2 _ uid hreq2 ?_ ?_ ?_
      · exact (getUserIdByEmail_congr rt (by simp) _).trans hu2
      · rw [hk2]
        simpa using ht
      · rw [hkey]
        exact hsome

/-- C1, the amended claim at a concrete input: two `/budgets/create` requests
for the same user and category on a store without such a budget. -/
theorem create_twice_same_key_witness :
    (handle sampleRuntime sampleEnv Resource.budgets.createRoute budgetBody oneUser).1.status
        = 201
      ∧ (handle sampleRuntime sampleEnv2 Resource.budgets.createRoute budgetBodyAgain
          (handle sampleRuntime sampleEnv Resource.budgets.createRoute budgetBody
            oneUser).2).1.status = 400
      ∧ (handle sampleRuntime sampleEnv2 Resource.budgets.createRoute budgetBodyAgain
          (handle sampleRuntime sampleEnv Resource.budgets.createRoute budgetBody
            oneUser).2).2
          = (handle sampleRuntime sampleEnv Resource.budgets.createRoute budgetBody oneUser).2
      ∧ (whereEq
          (Resource.budgets.collection
            (handle sampleRuntime sampleEnv2 Resource.budgets.createRoute budgetBodyAgain
              (handle sampleRuntime sampleEnv Resource.budgets.createRoute budgetBody
                oneUser).2).2)
          (Resource.budgets.key sampleRuntime "u1" budgetBody)).length = 1 :=
  create_twice_same_key sampleRuntime sampleEnv sampleEnv2 .budgets budgetBody budgetBodyAgain
    oneUser "u1" (by decide) (by decide) (fun _ => ⟨rfl, rfl⟩) rfl (by decide)
    (fun h => by cases h)

/-- C1 as stated fails.  (a) `/usersTrophies/earn` twice for an existing user,
with both fields given and no record with that key, when the trophy is not in
the catalogue: 404 both times and no record.  (b) `/budgets/create` twice with
every field in the body and `amount` the number 0: 400 both times and no
budget. -/
theorem create_twice_counterexample :
    ((∀ f ∈ Resource.usersTrophies.createFields, (earnBody.get f).truthy = true)
      ∧ getUserIdByEmail sampleRuntime oneUser (earnBody.get "email") = .ok "u1"
      ∧ whereEq oneUser.usersTrophies (Resource.usersTrophies.key sampleRuntime "u1" earnBody)
          = []
      ∧ (handle sampleRuntime sampleEnv .usersTrophiesEarn earnBody oneUser).1.status = 404
      ∧ (handle sampleRuntime sampleEnv2 .usersTrophiesEarn earnBody
          (handle sampleRuntime sampleEnv .usersTrophiesEarn earnBody oneUser).2).1.status
          = 404
      ∧ (handle sampleRuntime sampleEnv2 .usersTrophiesEarn earnBody
          (handle sampleRuntime sampleEnv .usersTrophiesEarn earnBody
            oneUser).2).2.usersTrophies = [])
    ∧ ((∀ f ∈ Resource.budgets.createFields, budgetBodyZero.get f ≠ .undefined)
      ∧ getUserIdByEmail sampleRuntime oneUser (budgetBodyZero.get "email") = .ok "u1"
      ∧ whereEq oneUser.budgets (Resource.budgets.key sampleRuntime "u1" budgetBodyZero) = []
      ∧ (handle sampleRuntime sampleEnv .budgetsCreate budgetBodyZero oneUser).1.status = 400
      ∧ (handle sampleRuntime sampleEnv2 .budgetsCreate budgetBodyZero
          (handle sampleRuntime sampleEnv .budgetsCreate budgetBodyZero oneUser).2).1.status
          = 400
      ∧ (handle sampleRuntime sampleEnv2 .budgetsCreate budgetBodyZero
          (handle sampleRuntime sampleEnv .budgetsCreate budgetBodyZero
            oneUser).2).2.budgets = []) := by
  refine ⟨⟨by decide, rfl, by decide, by decide, by decide, by decide⟩,
    ⟨by decide, rfl, by decide, by decide, by decide, by decide⟩⟩

/-! ## C2: an email that no user has -/

/-- C2 at a failing input: `bob@example.com` is not a user of the store, and
each of the fourteen routes listed answers 500, not 404. -/
theorem unknown_email_answers_500 :
    findOne oneUser.users [("email", strangerBody.get "email")] = none
      ∧ ∀ r ∈ routesWithoutNotFoundCatch,
          (handle sampleRuntime sampleEnv r strangerBody oneUser).1.status = 500 := by
  decide

/-! ## C3: a key that no document has -/

/-- C3, as amended.  For a get, update or delete route of budgets,
transactions, goals, trophies or usersTrophies: when the fields it checks are
all truthy, the email (where one is required) resolves to a user and no
document of the collection has the key, the answer is 404 and the store is
left as it was. -/
theorem lookup_missing_answers_404 (rt : Runtime) (env : Env) (r : Route) (res : Resource)
    (body : Obj) (s : Store) (uid : String)
    (hr : r.lookup = some res)
    (hreq : ∀ f ∈ res.keyFields, (body.get f).truthy = true)
    (huser : res.perUser = true → getUserIdByEmail rt s (body.get "email") = .ok uid)
    (hfree : whereEq (res.collection s) (res.key rt uid body) = []) :
    (handle rt env r body s).1.status = 404 ∧ (handle rt env r body s).2 = s := by
  have hnone := (findOne_eq_none_iff _ _).mpr hfree
  cases r <;> simp only [Route.lookup, Option.some.injEq] at hr <;> try (cases hr)
  all_goals
    simp only [Resource.keyFields, List.mem_cons, List.mem_singleton, forall_eq_or_imp,
      forall_eq, List.not_mem_nil, false_imp_iff, implies_true, and_true] at hreq
  all_goals simp only [Resource.perUser, forall_const] at huser
  all_goals simp only [Resource.key, Resource.collection] at hnone
  all_goals
    simp [handle, budgetsGet, budgetsUpdate, budgetsDelete, transactionsGet, transactionsUpdate,
      transactionsDelete, goalsGet, goalsUpdate, goalsDelete, trophiesGet, trophiesUpdate,
      trophiesDelete, usersTrophiesDelete, hreq, huser, hnone, errorResponse]

/-- C3, the amended claim at a concrete input: `/budgets/get` for an existing
user who has no budget. -/
theorem lookup_missing_answers_404_witness :
    (handle sampleRuntime sampleEnv .budgetsGet budgetLookupBody oneUser).1.status = 404
      ∧ (handle sampleRuntime sampleEnv .budgetsGet budgetLookupBody oneUser).2 = oneUser :=
  lookup_missing_answers_404 sampleRuntime sampleEnv .budgetsGet .budgets budgetLookupBody
    oneUser "u1" rfl (by decide) (fun _ => rfl) (by decide)

/-- C3 as stated fails: `/budgets/get` with both required fields in the body,
`category` being the empty string, for an existing user and a key that no
budget has, answers 400, not 404. -/
theorem lookup_missing_counterexample :
    (∀ f ∈ Resource.budgets.keyFields, budgetLookupBodyEmpty.get f ≠ .undefined)
      ∧ getUserIdByEmail sampleRuntime oneUser (budgetLookupBodyEmpty.get "email") = .ok "u1"
      ∧ whereEq oneUser.budgets (Resource.budgets.key sampleRuntime "u1" budgetLookupBodyEmpty)
          = []
      ∧ (handle sampleRuntime sampleEnv .budgetsGet budgetLookupBodyEmpty oneUser).1.status
          = 400 := by
  refine ⟨by decide, rfl, by decide, by decide⟩

/-! ## C4: renaming onto a key that is taken -/

theorem wantsRename_of_ne {name newName : JVal} (ht : newName.truthy = true)
    (hne : newName ≠ name) : wantsRename name newName = true := by
  simp [wantsRename, JVal.strictNe, ht, hne]

theorem sameKey_symm (fields : List String) (a b : Doc) (h : sameKey fields a b) :
    sameKey fields b a := by
  intro f hf
  obtain ⟨h1, h2⟩ := h f hf
  exact ⟨h2 ▸ h1, h2.symm⟩

theorem sameKey_of_match {K : List (String × JVal)} {a b : Doc}
    (ha : (K.all (fun p => a.has p.1 p.2)) = true)
    (hb : (K.all (fun p => b.has p.1 p.2)) = true) : sameKey (K.map Prod.fst) a b := by
  intro f hf
  rw [List.mem_map] at hf
  obtain ⟨p, hp, rfl⟩ := hf
  rw [List.all_eq_true] at ha hb
  have h1 := (Doc.has_iff _ _ _).mp (ha p hp)
  have h2 := (Doc.has_iff _ _ _).mp (hb p hp)
  exact ⟨h1.2 ▸ h1.1, h1.2.trans h2.2.symm⟩

theorem UniqueKeys.eq_of_sameKey {fields : List String} {c : List Doc}
    (hu : UniqueKeys fields c) {a b : Doc} (ha : a ∈ c) (hb : b ∈ c)
    (hs : sameKey fields a b) : a = b := by
  by_contra hne
  have hsym : Symmetric (fun a b : Doc => ¬ sameKey fields a b) :=
    fun x y hxy hyx => hxy (sameKey_symm fields y x hyx)
  exact List.Pairwise.forall hsym hu ha hb hne hs

/-- C4 as stated fails.  Six requests on the empty store, each answered with
success: two users and a goal `car` for each are created, a `/goals/update`
whose body carries `userId` moves the second goal to the first user, and then
`/goals/update` with `newGoalName` equal to `goalName` locates the first goal,
whose prospective key (`u1`, `car`) the second goal owns; the answer is 200
and the store is written. -/
theorem rename_onto_taken_key_counterexample :
    (runAll sampleRuntime sharedKeyRun emptyStore).1 = [201, 201, 201, 201, 200]
      ∧ Route.goalsUpdate.renameAsked sameGoalNameBody = true
      ∧ getUserIdByEmail sampleRuntime sharedKeyStore (sameGoalNameBody.get "email") = .ok "u1"
      ∧ (findOne sharedKeyStore.goals
            (Resource.goals.key sampleRuntime "u1" sameGoalNameBody)).map (fun d => d.id)
          = some "g1"
      ∧ (∃ d' ∈ sharedKeyStore.goals, d'.id ≠ "g1"
          ∧ ((Route.goalsUpdate.prospectiveKey sampleRuntime "u1" sameGoalNameBody).all
              (fun p => d'.has p.1 p.2)) = true)
      ∧ (handle sampleRuntime (envAt 6 "x6" "l6") .goalsUpdate sameGoalNameBody
          sharedKeyStore).1.status = 200
      ∧ (handle sampleRuntime (envAt 6 "x6" "l6") .goalsUpdate sameGoalNameBody
          sharedKeyStore).2 ≠ sharedKeyStore := by
  refine ⟨by decide, by decide, rfl, by decide, by decide, by decide, by decide⟩

/-- C4, amended.  When `/goals/update` with a truthy `newGoalName` that is not
the `goalName` of the request (`newGoalName !== goalName`), or
`/transactions/update` with a truthy `newCategory` or `newDate`, locates the
document `D` and a different document of the collection already has the
prospective key, the answer is 400 and the store is left as it was. -/
theorem rename_onto_taken_key_conflicts (rt : Runtime) (env : Env) (r : Route) (res : Resource)
    (body : Obj) (s : Store) (uid : String) (D d' : Doc)
    (hask : r.renameAsked body = true)
    (hreal : r = .goalsUpdate
      → (body.get "newGoalName").strictNe (body.get "goalName") = true)
    (hl : r.lookup = some res)
    (hreq : ∀ f ∈ res.keyFields, (body.get f).truthy = true)
    (hu : getUserIdByEmail rt s (body.get "email") = .ok uid)
    (hD : findOne (res.collection s) (res.key rt uid body) = some D)
    (hmem : d' ∈ res.collection s) (_hne : d' ≠ D)
    (hown : ((r.prospectiveKey rt uid body).all (fun p => d'.has p.1 p.2)) = true) :
    (handle rt env r body s).1.status = 400 ∧ (handle rt env r body s).2 = s := by
  have hconf := findOne_isSome_of_mem hmem hown
  cases r <;> simp only [Route.renameAsked, Bool.false_eq_true] at hask
  · -- transactions
    simp only [Route.lookup, Option.some.injEq] at hl
    subst hl
    simp only [Resource.keyFields, List.mem_cons, List.mem_singleton, forall_eq_or_imp,
      forall_eq, List.not_mem_nil, false_imp_iff, implies_true, and_true] at hreq
    simp only [Resource.key, Resource.collection] at hD
    simp only [Route.prospectiveKey, Resource.collection] at hconf
    simp only [Bool.or_eq_true] at hask
    simp [handle, transactionsUpdate, hreq, hu, hD, hconf, hask, errorResponse]
  · -- goals
    simp only [Route.lookup, Option.some.injEq] at hl
    subst hl
    simp only [Resource.keyFields, List.mem_cons, List.mem_singleton, forall_eq_or_imp,
      forall_eq, List.not_mem_nil, false_imp_iff, implies_true, and_true] at hreq
    have hw : wantsRename (body.get "goalName") (body.get "newGoalName") = true := by
      simp only [wantsRename, hask, hreal rfl, Bool.and_self]
    simp only [Resource.key, Resource.collection] at hD
    simp only [Route.prospectiveKey, Resource.collection] at hconf
    simp [handle, goalsUpdate, hreq, hu, hD, hconf, hw, errorResponse]

/-- C4, amended, at a concrete input: renaming the goal `car` to `house` when
the user already has a goal `house`. -/
theorem rename_onto_taken_key_conflicts_witness :
    (handle sampleRuntime sampleEnv .goalsUpdate renameGoalBody twoGoals).1.status = 400
      ∧ (handle sampleRuntime sampleEnv .goalsUpdate renameGoalBody twoGoals).2 = twoGoals :=
  rename_onto_taken_key_conflicts sampleRuntime sampleEnv .goalsUpdate .goals renameGoalBody
    twoGoals "u1"
    ⟨"g1", [("userId", .str "u1"), ("goalName", .str "car"),
      ("targetAmount", .num (.fin 1000)), ("createdAt", .time (.fin 7))]⟩
    ⟨"g2", [("userId", .str "u1"), ("goalName", .str "house"),
      ("targetAmount", .num (.fin 9000)), ("createdAt", .time (.fin 8))]⟩
    rfl (fun _ => by decide) rfl (by decide) rfl rfl (by decide) (by decide) (by decide)

/-! ## C5: a transaction update that names its own key -/

/-- C5 at a failing input.  The store has one transaction; the request locates
it, supplies `newCategory` equal to its category, and no other document owns
the prospective key; the answer is 400 and nothing is written. -/
theorem update_onto_own_key_conflicts :
    Route.transactionsUpdate.renameAsked sameCategoryBody = true
      ∧ findOne oneTransaction.transactions
          (Resource.transactions.key sampleRuntime "u1" sameCategoryBody) = some foodTransaction
      ∧ (∀ d ∈ oneTransaction.transactions, d = foodTransaction)
      ∧ (handle sampleRuntime sampleEnv .transactionsUpdate sameCategoryBody
          oneTransaction).1.status = 400
      ∧ (handle sampleRuntime sampleEnv .transactionsUpdate sameCategoryBody
          oneTransaction).2 = oneTransaction := by
  decide

/-! ## C6: uniqueness of per-user keys -/

/-- C6 at a failing input.  The store has unique identifiers and unique keys
in every collection; `/budgets/update` with a `userId` field in the body
answers 200 and leaves two budgets with the key (`u2`, `food`). -/
theorem update_with_userId_breaks_uniqueness :
    UniqueIds twoUsers.budgets
      ∧ UniqueKeys Resource.budgets.docKey twoUsers.budgets
      ∧ UniqueKeys Resource.transactions.docKey twoUsers.transactions
      ∧ UniqueKeys Resource.goals.docKey twoUsers.goals
      ∧ UniqueKeys Resource.usersTrophies.docKey twoUsers.usersTrophies
      ∧ (handle sampleRuntime sampleEnv .budgetsUpdate foreignUserIdBody twoUsers).1.status
          = 200
      ∧ ¬ UniqueKeys Resource.budgets.docKey
          (handle sampleRuntime sampleEnv .budgetsUpdate foreignUserIdBody twoUsers).2.budgets := by
  decide

/-! ## C7: uniqueness of trophy names -/

theorem UniqueIds.eq_of_id {c : List Doc} (h : UniqueIds c) {a b : Doc} (ha : a ∈ c)
    (hb : b ∈ c) (hid : a.id = b.id) : a = b :=
  List.inj_on_of_nodup_map h ha hb hid

theorem UniqueIds.pairwise {c : List Doc} (h : UniqueIds c) :
    c.Pairwise (fun a b => a.id ≠ b.id) := by
  unfold UniqueIds List.Nodup at h
  exact List.pairwise_map.mp h

theorem sameKey_congr_left {fields : List String} {a a' b : Doc}
    (h : ∀ f ∈ fields, a'.data.get f = a.data.get f) :
    sameKey fields a' b ↔ sameKey fields a b := by
  unfold sameKey
  constructor
  · intro hs f hf
    have := hs f hf
    rw [h f hf] at this
    exact this
  · intro hs f hf
    rw [h f hf]
    exact hs f hf

/-- Adding a document whose key no document has keeps keys unique. -/
theorem UniqueKeys.addDoc {fields : List String} {c : List Doc} (hk : UniqueKeys fields c)
    (id : String) (data : Obj) (hnew : ∀ a ∈ c, ¬ sameKey fields a ⟨id, data⟩) :
    UniqueKeys fields (addDoc c id data) := by
  unfold UniqueKeys PrixFinance.addDoc
  rw [List.pairwise_append]
  refine ⟨hk, List.pairwise_singleton _ _, ?_⟩
  intro a ha b hb
  rw [List.mem_singleton] at hb
  subst hb
  exact hnew a ha

/-- Deleting a document keeps keys unique. -/
theorem UniqueKeys.deleteById {fields : List String} {c : List Doc} (hk : UniqueKeys fields c)
    (id : String) : UniqueKeys fields (deleteById c id) :=
  List.Pairwise.filter _ hk

/-- Updating the document `D` keeps keys unique when the updated document
shares its key with no other document. -/
theorem UniqueKeys.updateById {fields : List String} {c : List Doc} (hids : UniqueIds c)
    (hk : UniqueKeys fields c) {D : Doc} (hD : D ∈ c) (u : Obj)
    (hnew : ∀ b ∈ c, b ≠ D → ¬ sameKey fields ⟨D.id, D.data.merge u⟩ b) :
    UniqueKeys fields (updateById c D.id u) := by
  unfold UniqueKeys PrixFinance.updateById
  rw [List.pairwise_map]
  have hboth := List.Pairwise.and hk hids.pairwise
  refine List.Pairwise.imp_of_mem ?_ hboth
  intro a b ha hb hab
  obtain ⟨hkey, hid⟩ := hab
  by_cases h1 : a.id = D.id
  · have haD : a = D := hids.eq_of_id ha hD h1
    have h2 : ¬ b.id = D.id := fun e => hid (h1.trans e.symm)
    have hbD : b ≠ D := fun e => h2 (e ▸ rfl)
    simp only [h1, h2, if_true, if_false]
    subst haD
    exact hnew b hb hbD
  · by_cases h2 : b.id = D.id
    · have hbD : b = D := hids.eq_of_id hb hD h2
      have haD : a ≠ D := fun e => h1 (e ▸ rfl)
      simp only [h1, h2, if_true, if_false]
      subst hbD
      intro hs
      exact hnew a ha haD (sameKey_symm _ _ _ hs)
    · simp only [h1, h2, if_false]
      exact hkey

theorem not_has_of_findOne_none {c : List Doc} {K : List (String × JVal)}
    (h : findOne c K = none) {a : Doc} (ha : a ∈ c) :
    ¬ (K.all (fun p => a.has p.1 p.2)) = true := by
  intro hm
  have := findOne_isSome_of_mem ha hm
  rw [h] at this
  cases this

/-- The `trophyName` that `/trophies/update` writes: the new name when one is
given, else none. -/
theorem trophyUpdates_trophyName (rt : Runtime) (env : Env)
    (newTrophyName displayName description points : JVal) (d : Obj) :
    (d.merge (trophyUpdates rt env newTrophyName displayName description points)).get
        "trophyName"
      = if newTrophyName.truthy then newTrophyName else d.get "trophyName" := by
  rw [Obj.get_merge]
  unfold trophyUpdates
  by_cases h1 : newTrophyName.truthy = true <;>
    by_cases h2 : (displayName != JVal.undefined) = true <;>
    by_cases h3 : (description != JVal.undefined) = true <;>
    by_cases h4 : (points != JVal.undefined) = true <;>
    simp only [h1, h2, h3, h4, if_true, if_false, Bool.false_eq_true, Obj.get_set,
      Obj.keys_set] <;>
    simp [Obj.keys, Obj.get]

/-- The trophies collection after any route other than the three that write it. -/
theorem handle_trophies_frame (rt : Runtime) (env : Env) (r : Route) (body : Obj) (s : Store)
    (hr : r ≠ .trophiesCreate ∧ r ≠ .trophiesUpdate ∧ r ≠ .trophiesDelete) :
    (handle rt env r body s).2.trophies = s.trophies := by
  obtain ⟨h1, h2, h3⟩ := hr
  cases r
  case trophiesCreate => exact absurd rfl h1
  case trophiesUpdate => exact absurd rfl h2
  case trophiesDelete => exact absurd rfl h3
  all_goals
    simp only [handle, usersCreate, usersGet, usersUpdate, settingsGet, settingsUpdate,
      budgetsCreate, budgetsGet, budgetsUpdate, budgetsList, budgetsDelete, transactionsCreate,
      transactionsGet, transactionsUpdate, transactionsList, transactionsListByCategory,
      transactionsDelete, goalsCreate, goalsGet, goalsUpdate, goalsList, goalsListByStatus,
      goalsDelete, activityList, trophiesGet, trophiesList, usersTrophiesEarn,
      usersTrophiesList, usersTrophiesDelete, helloWorld]
  all_goals repeat' split
  all_goals first | rfl | simp only [logUserActivity_trophies]

theorem trophiesCreate_unique (rt : Runtime) (env : Env) (body : Obj) (s : Store)
    (hk : UniqueKeys ["trophyName"] s.trophies) :
    UniqueKeys ["trophyName"] (trophiesCreate rt env body s).2.trophies := by
  unfold trophiesCreate
  simp only
  split
  · exact hk
  · rename_i htr
    split
    · exact hk
    · rename_i hnone
      refine hk.addDoc _ _ ?_
      intro a ha hs
      refine not_has_of_findOne_none hnone ha ?_
      obtain ⟨h1, h2⟩ := hs "trophyName" (by simp)
      simp only [newTrophy, Obj.get_cons, if_true] at h2
      simp [Doc.has_iff, h2 ▸ h1, h2]

theorem trophiesDelete_unique (rt : Runtime) (body : Obj) (s : Store)
    (hk : UniqueKeys ["trophyName"] s.trophies) :
    UniqueKeys ["trophyName"] (trophiesDelete rt body s).2.trophies := by
  unfold trophiesDelete
  simp only
  split
  · exact hk
  · split
    · exact hk
    · exact hk.deleteById _

theorem trophiesUpdate_unique (rt : Runtime) (env : Env) (body : Obj) (s : Store)
    (hids : UniqueIds s.trophies) (hk : UniqueKeys ["trophyName"] s.trophies) :
    UniqueKeys ["trophyName"] (trophiesUpdate rt env body s).2.trophies := by
  unfold trophiesUpdate
  simp only
  split
  · exact hk
  · rename_i htr
    split
    · exact hk
    · rename_i D hD
      obtain ⟨hDmem, hDkey⟩ := findOne_some_mem hD
      have hDname : D.data.get "trophyName" = body.get "trophyName" := by
        simp only [List.all_cons, List.all_nil, Bool.and_true, Doc.has_iff] at hDkey
        exact hDkey.2
      split
      · exact hk
      · rename_i hnoconf
        refine hk.updateById hids hDmem _ ?_
        intro b hb hbD
        by_cases hnew : (body.get "newTrophyName").truthy = true
        · by_cases hsame : body.get "newTrophyName" = body.get "trophyName"
          · -- the new name is the old one: the key does not change
            rw [sameKey_congr_left (a := D)]
            · exact fun hs => hbD (hk.eq_of_sameKey hb hDmem (sameKey_symm _ _ _ hs))
            · intro f hf
              simp only [List.mem_singleton] at hf
              subst hf
              rw [trophyUpdates_trophyName, if_pos hnew, hsame, hDname]
          · -- a new name that no trophy has
            have hnone : findOne s.trophies [("trophyName", body.get "newTrophyName")] = none := by
              rw [wantsRename_of_ne hnew hsame] at hnoconf
              simpa using hnoconf
            intro hs
            obtain ⟨h1, h2⟩ := hs "trophyName" (by simp)
            rw [trophyUpdates_trophyName, if_pos hnew] at h1 h2
            refine not_has_of_findOne_none hnone hb ?_
            simp only [List.all_cons, List.all_nil, Bool.and_true, Doc.has_iff]
            exact ⟨h1, h2.symm⟩
        · -- no new name: the key does not change
          rw [sameKey_congr_left (a := D)]
          · exact fun hs => hbD (hk.eq_of_sameKey hb hDmem (sameKey_symm _ _ _ hs))
          · intro f hf
            simp only [List.mem_singleton] at hf
            subst hf
            rw [trophyUpdates_trophyName, if_neg hnew]

/-- C7.  In a store whose trophies have distinct identifiers and distinct
names, every request, to any route and with any body, leaves the trophies
with distinct names; in particular `/trophies/create`, `/trophies/update`
(with or without `newTrophyName`) and `/trophies/delete` do. -/
theorem trophy_names_stay_unique (rt : Runtime) (env : Env) (r : Route) (body : Obj)
    (s : Store) (hids : UniqueIds s.trophies)
    (hk : UniqueKeys Resource.trophies.docKey s.trophies) :
    UniqueKeys Resource.trophies.docKey (handle rt env r body s).2.trophies := by
  by_cases hr : r ≠ .trophiesCreate ∧ r ≠ .trophiesUpdate ∧ r ≠ .trophiesDelete
  · rw [handle_trophies_frame rt env r body s hr]
    exact hk
  · cases r <;> simp only [ne_eq, not_true_eq_false, not_false_eq_true, and_self,
      and_false, false_and, reduceCtorEq] at hr
    · exact trophiesCreate_unique rt env body s hk
    · exact trophiesUpdate_unique rt env body s hids hk
    · exact trophiesDelete_unique rt body s hk

/-- C7 at a concrete input: renaming `saver` to `hero` in a catalogue of two
trophies answers 200 and leaves the names distinct. -/
theorem trophy_names_stay_unique_witness :
    (handle sampleRuntime sampleEnv .trophiesUpdate renameTrophyBody twoTrophies).1.status = 200
      ∧ UniqueKeys Resource.trophies.docKey
          (handle sampleRuntime sampleEnv .trophiesUpdate renameTrophyBody
            twoTrophies).2.trophies :=
  ⟨by decide,
    trophy_names_stay_unique sampleRuntime sampleEnv .trophiesUpdate renameTrophyBody
      twoTrophies (by decide) (by decide)⟩

/-! ## The shape of an update -/

theorem catchNotFound_status_ne (msg : String) : (catchNotFound msg).status ≠ 200 := by
  unfold catchNotFound
  split <;> simp [errorResponse]

theorem getUserIdByEmail_ok {rt : Runtime} {s : Store} {email : JVal} {uid : String}
    (h : getUserIdByEmail rt s email = .ok uid) : ∃ D ∈ s.users, D.id = uid := by
  unfold getUserIdByEmail at h
  split at h
  · cases h
  · rename_i d hd
    injection h with h
    exact ⟨d, (findOne_some_mem hd).1, h⟩

theorem logUserActivity_undefined (env : Env) (s : Store) (msg : String) :
    logUserActivity env s .undefined msg = s := by
  simp [logUserActivity, JVal.truthy]

/-- What an update route does: either it answers something other than 200 and
leaves the store as it was, or it answers 200, the fields it checks are
truthy, the target is located, and the store afterwards is the store with the
update set applied to the target, followed by the activity-log step. -/
theorem update_shape (rt : Runtime) (env : Env) (r : Route) (body : Obj) (s : Store)
    (hr : r ∈ updateRoutes) :
    ((handle rt env r body s).1.status ≠ 200 ∧ (handle rt env r body s).2 = s)
      ∨ ((handle rt env r body s).1.status = 200
        ∧ ∃ tid who msg,
          r.target rt s body = some tid
            ∧ (∀ f ∈ r.checkedFields, (body.get f).truthy = true)
            ∧ (r ≠ .settingsUpdate → ∃ D ∈ r.targetCollection s, D.id = tid)
            ∧ (handle rt env r body s).2
                = logUserActivity env (r.applyUpdate s tid (r.updateSet rt env body)) who
                    msg) := by
  simp only [updateRoutes, List.mem_cons, List.mem_singleton, List.not_mem_nil, or_false] at hr
  rcases hr with rfl | rfl | rfl | rfl | rfl | rfl
  · -- users
    by_cases he : (body.get "email").truthy = true
    · cases hu : getUserIdByEmail rt s (body.get "email") with
      | error msg =>
        refine Or.inl ?_
        simp only [handle, usersUpdate, he, hu, Bool.not_true, Bool.false_eq_true, if_false]
        exact ⟨catchNotFound_status_ne _, trivial⟩
      | ok uid =>
        refine Or.inr ⟨?_, uid, .str uid, "Updated user profile", ?_, ?_,
          fun _ => getUserIdByEmail_ok hu, ?_⟩
        · simp [handle, usersUpdate, he, hu, messageResponse]
        · simp [Route.target, hu, Except.toOption]
        · simp [Route.checkedFields, he]
        · simp only [handle, usersUpdate, he, hu, Bool.not_true, Bool.false_eq_true, if_false,
            Route.applyUpdate, Route.updateSet]
    · exact Or.inl (by simp [handle, usersUpdate, he, errorResponse])
  · -- settings
    by_cases he : (body.get "email").truthy = true
    · cases hu : getUserIdByEmail rt s (body.get "email") with
      | error msg =>
        refine Or.inl ?_
        simp only [handle, settingsUpdate, he, hu, Bool.not_true, Bool.false_eq_true, if_false]
        exact ⟨catchNotFound_status_ne _, trivial⟩
      | ok uid =>
        refine Or.inr ⟨?_, uid, .str uid, "Updated user settings", ?_, ?_,
          fun h => absurd rfl h, ?_⟩
        · simp [handle, settingsUpdate, he, hu, messageResponse]
        · simp [Route.target, hu, Except.toOption]
        · simp [Route.checkedFields, he]
        · simp only [handle, settingsUpdate, he, hu, Bool.not_true, Bool.false_eq_true,
            if_false, Route.applyUpdate, Route.updateSet]
    · exact Or.inl (by simp [handle, settingsUpdate, he, errorResponse])
  · -- budgets
    by_cases he : (body.get "email").truthy = true
    · by_cases hc : (body.get "category").truthy = true
      · cases hu : getUserIdByEmail rt s (body.get "email") with
        | error msg =>
          exact Or.inl (by simp [handle, budgetsUpdate, he, hc, hu, catchAll, errorResponse])
        | ok uid =>
          cases hD : findOne s.budgets (budgetKey uid (body.get "category")) with
          | none =>
            exact Or.inl (by simp [handle, budgetsUpdate, he, hc, hu, hD, errorResponse])
          | some D =>
            refine Or.inr ⟨?_, D.id, .str uid,
              "Updated budget for category: " ++ render rt (body.get "category"), ?_, ?_,
              fun _ => ⟨D, (findOne_some_mem hD).1, rfl⟩, ?_⟩
            · simp [handle, budgetsUpdate, he, hc, hu, hD, messageResponse]
            · simp [Route.target, hu, Resource.key, hD]
            · simp [Route.checkedFields, he, hc]
            · simp only [handle, budgetsUpdate, he, hc, hu, hD, Bool.not_true, Bool.or_self,
                Bool.false_eq_true, if_false, Route.applyUpdate, Route.updateSet]
      · exact Or.inl (by simp [handle, budgetsUpdate, he, hc, errorResponse])
    · exact Or.inl (by simp [handle, budgetsUpdate, he, errorResponse])
  · -- transactions
    by_cases he : (body.get "email").truthy = true
    · by_cases hc : (body.get "category").truthy = true
      · by_cases hd : (body.get "transactionDate").truthy = true
        · cases hu : getUserIdByEmail rt s (body.get "email") with
          | error msg =>
            exact Or.inl
              (by simp [handle, transactionsUpdate, he, hc, hd, hu, catchAll, errorResponse])
          | ok uid =>
            cases hD : findOne s.transactions
                (transactionKey uid (body.get "category")
                  (newDate rt (body.get "transactionDate"))) with
            | none =>
              exact Or.inl
                (by simp [handle, transactionsUpdate, he, hc, hd, hu, hD, errorResponse])
            | some D =>
              by_cases hconf :
                  ((((body.get "newCategory").truthy || (body.get "newDate").truthy)
                    && (findOne s.transactions
                        (transactionKey uid
                          (prospectiveCategory (body.get "category") (body.get "newCategory"))
                          (prospectiveDate rt (body.get "transactionDate")
                            (body.get "newDate")))).isSome) = true)
              · refine Or.inl ?_
                simp only [handle, transactionsUpdate, he, hc, hd, hu, hD, hconf, Bool.not_true,
                  Bool.or_self, Bool.false_eq_true, if_false, if_true, errorResponse]
                exact ⟨by decide, trivial⟩
              · refine Or.inr ⟨?_, D.id, .str uid,
                  "Updated transaction " ++ render rt (body.get "category") ++ " @ "
                    ++ render rt (body.get "transactionDate"), ?_, ?_,
                  fun _ => ⟨D, (findOne_some_mem hD).1, rfl⟩, ?_⟩
                · simp only [handle, transactionsUpdate, he, hc, hd, hu, hD, hconf,
                    Bool.not_true, Bool.or_self, Bool.false_eq_true, if_false, messageResponse]
                · simp [Route.target, hu, Resource.key, hD]
                · simp [Route.checkedFields, he, hc, hd]
                · simp only [handle, transactionsUpdate, he, hc, hd, hu, hD, hconf,
                    Bool.not_true, Bool.or_self, Bool.false_eq_true, if_false,
                    Route.applyUpdate, Route.updateSet]
        · exact Or.inl (by simp [handle, transactionsUpdate, he, hc, hd, errorResponse])
      · exact Or.inl (by simp [handle, transactionsUpdate, he, hc, errorResponse])
    · exact Or.inl (by simp [handle, transactionsUpdate, he, errorResponse])
  · -- goals
    by_cases he : (body.get "email").truthy = true
    · by_cases hc : (body.get "goalName").truthy = true
      · cases hu : getUserIdByEmail rt s (body.get "email") with
        | error msg =>
          exact Or.inl (by simp [handle, goalsUpdate, he, hc, hu, catchAll, errorResponse])
        | ok uid =>
          cases hD : findOne s.goals (goalKey uid (body.get "goalName")) with
          | none => exact Or.inl (by simp [handle, goalsUpdate, he, hc, hu, hD, errorResponse])
          | some D =>
            by_cases hconf :
                ((wantsRename (body.get "goalName") (body.get "newGoalName")
                  && (findOne s.goals (goalKey uid (body.get "newGoalName"))).isSome) = true)
            · refine Or.inl ?_
              simp only [handle, goalsUpdate, he, hc, hu, hD, hconf, Bool.not_true,
                Bool.or_self, Bool.false_eq_true, if_false, if_true, errorResponse]
              exact ⟨by decide, trivial⟩
            · refine Or.inr ⟨?_, D.id, .str uid,
                "Updated goal: " ++ render rt (body.get "goalName"), ?_, ?_,
                fun _ => ⟨D, (findOne_some_mem hD).1, rfl⟩, ?_⟩
              · simp only [handle, goalsUpdate, he, hc, hu, hD, hconf, Bool.not_true,
                  Bool.or_self, Bool.false_eq_true, if_false, messageResponse]
              · simp [Route.target, hu, Resource.key, hD]
              · simp [Route.checkedFields, he, hc]
              · simp only [handle, goalsUpdate, he, hc, hu, hD, hconf, Bool.not_true,
                  Bool.or_self, Bool.false_eq_true, if_false, Route.applyUpdate,
                  Route.updateSet]
      · exact Or.inl (by simp [handle, goalsUpdate, he, hc, errorResponse])
    · exact Or.inl (by simp [handle, goalsUpdate, he, errorResponse])
  · -- trophies
    by_cases he : (body.get "trophyName").truthy = true
    · cases hD : findOne s.trophies [("trophyName", body.get "trophyName")] with
      | none => exact Or.inl (by simp [handle, trophiesUpdate, he, hD, errorResponse])
      | some D =>
        by_cases hconf :
            ((wantsRename (body.get "trophyName") (body.get "newTrophyName")
              && (findOne s.trophies [("trophyName", body.get "newTrophyName")]).isSome)
              = true)
        · refine Or.inl ?_
          simp only [handle, trophiesUpdate, he, hD, hconf, Bool.not_true,
            Bool.false_eq_true, if_false, if_true, errorResponse]
          exact ⟨by decide, trivial⟩
        · refine Or.inr ⟨?_, D.id, .undefined, "", ?_, ?_,
            fun _ => ⟨D, (findOne_some_mem hD).1, rfl⟩, ?_⟩
          · simp only [handle, trophiesUpdate, he, hD, hconf, Bool.not_true,
              Bool.false_eq_true, if_false, messageResponse]
          · simp [Route.target, Resource.key, hD]
          · simp [Route.checkedFields, he]
          · rw [logUserActivity_undefined]
            simp only [handle, trophiesUpdate, he, hD, hconf, Bool.not_true,
              Bool.false_eq_true, if_false, Route.applyUpdate, Route.updateSet]
    · exact Or.inl (by simp [handle, trophiesUpdate, he, errorResponse])

/-! ## The update sets -/

theorem Obj.mem_keys_of_truthy {u : Obj} {k : String} (h : (u.get k).truthy = true) :
    k ∈ u.keys :=
  Obj.mem_keys_of_get u k (JVal.ne_undefined_of_truthy h)

theorem Obj.keys_set_of_get {u : Obj} {k : String} (h : u.get k ≠ .undefined) (v : JVal)
    (f : String) : f ∈ (u.set k v).keys ↔ f ∈ u.keys := by
  rw [Obj.keys_set]
  constructor
  · rintro (rfl | h')
    · exact Obj.mem_keys_of_get u _ h
    · exact h'
  · exact Or.inr

theorem Obj.keys_setIfTruthy (u : Obj) (k : String) (v : JVal) (f : String) :
    f ∈ (if (u.get k).truthy = true then u.set k v else u).keys ↔ f ∈ u.keys := by
  split_ifs with h
  · exact Obj.keys_set_of_get (JVal.ne_undefined_of_truthy h) v f
  · rfl

theorem Obj.keys_setIfDefined (u : Obj) (k : String) (v : JVal) (f : String) :
    f ∈ (if (u.get k != JVal.undefined) = true then u.set k v else u).keys ↔ f ∈ u.keys := by
  split_ifs with h
  · exact Obj.keys_set_of_get (by simpa using h) v f
  · rfl

theorem Obj.get_setIfTruthy (u : Obj) (k : String) (v : JVal) (f : String) (hf : k ≠ f) :
    (if (u.get k).truthy = true then u.set k v else u).get f = u.get f := by
  split_ifs with h
  · rw [Obj.get_set, if_neg hf]
  · rfl

theorem Obj.keys_ite_set (c : Prop) [Decidable c] (u : Obj) (k : String) (v : JVal)
    (f : String) : f ∈ (if c then u.set k v else u).keys ↔ (c ∧ f = k) ∨ f ∈ u.keys := by
  split_ifs with h
  · rw [Obj.keys_set]
    simp [h]
  · simp [h]

theorem budgetCoerce_keys (rt : Runtime) (u : Obj) (f : String) :
    f ∈ (budgetCoerce rt u).keys ↔ f ∈ u.keys := by
  unfold budgetCoerce
  simp only [Obj.keys_setIfTruthy]

theorem budgetCoerce_updatedAt (rt : Runtime) (u : Obj) :
    (budgetCoerce rt u).get "updatedAt" = u.get "updatedAt" := by
  unfold budgetCoerce
  simp only
  rw [Obj.get_setIfTruthy _ _ _ _ (by decide), Obj.get_setIfTruthy _ _ _ _ (by decide),
    Obj.get_setIfTruthy _ _ _ _ (by decide)]

theorem goalCoerce_keys (rt : Runtime) (u : Obj) (f : String) :
    f ∈ (goalCoerce rt u).keys ↔ f ∈ u.keys := by
  unfold goalCoerce
  simp only [Obj.keys_setIfDefined]

/-- Every field of the update set is `updatedAt` or a field of the body. -/
theorem updateSet_keys (rt : Runtime) (env : Env) (r : Route) (body : Obj)
    (hreq : ∀ f ∈ r.checkedFields, (body.get f).truthy = true) (f : String)
    (hf : f ∈ (r.updateSet rt env body).keys) : f = "updatedAt" ∨ f ∈ body.keys := by
  cases r <;> simp only [Route.updateSet, Obj.keys, List.map_nil, List.not_mem_nil] at hf
  · -- users
    rw [← Obj.keys, Obj.keys_set, Obj.keys_without] at hf
    exact hf.imp id And.left
  · -- settings
    rw [← Obj.keys, Obj.keys_set, Obj.keys_without] at hf
    exact hf.imp id And.left
  · -- budgets
    rw [← Obj.keys, budgetCoerce_keys, Obj.keys_set, Obj.keys_without] at hf
    exact hf.imp id And.left
  · -- transactions
    have hc := Obj.mem_keys_of_truthy (hreq "category" (by simp [Route.checkedFields]))
    have hd := Obj.mem_keys_of_truthy (hreq "transactionDate" (by simp [Route.checkedFields]))
    rw [← Obj.keys] at hf
    unfold transactionUpdates at hf
    simp only [Obj.keys_set, Obj.keys_setIfTruthy] at hf
    rcases hf with hf | hf
    · exact Or.inl hf
    · right
      split_ifs at hf <;> simp only [Obj.keys_set, Obj.keys_without] at hf
      · rcases hf with rfl | rfl | hf
        · exact hd
        · exact hc
        · exact hf.1
      · rcases hf with rfl | hf
        · exact hd
        · exact hf.1
      · rcases hf with rfl | hf
        · exact hc
        · exact hf.1
      · exact hf.1
      · exact hf.1
  · -- goals
    have hc := Obj.mem_keys_of_truthy (hreq "goalName" (by simp [Route.checkedFields]))
    rw [← Obj.keys, Obj.keys_set, goalCoerce_keys] at hf
    rcases hf with hf | hf
    · exact Or.inl hf
    · right
      split_ifs at hf
      · rw [Obj.keys_set, Obj.keys_without] at hf
        rcases hf with rfl | hf
        · exact hc
        · exact hf.1
      · rw [Obj.keys_without] at hf
        exact hf.1
  · -- trophies
    have hc := Obj.mem_keys_of_truthy (hreq "trophyName" (by simp [Route.checkedFields]))
    rw [← Obj.keys] at hf
    unfold trophyUpdates at hf
    simp only [Obj.keys_ite_set] at hf
    rcases hf with ⟨h, rfl⟩ | ⟨h, rfl⟩ | ⟨h, rfl⟩ | ⟨h, rfl⟩ | hf
    · exact Or.inr (Obj.mem_keys_of_get _ _ (by simpa using h))
    · exact Or.inr (Obj.mem_keys_of_get _ _ (by simpa using h))
    · exact Or.inr (Obj.mem_keys_of_get _ _ (by simpa using h))
    · exact Or.inr hc
    · left
      simpa [Obj.keys] using hf

theorem Obj.get_ite_set (c : Prop) [Decidable c] (u : Obj) (k : String) (v : JVal)
    (f : String) (hf : k ≠ f) : (if c then u.set k v else u).get f = u.get f := by
  split_ifs with h
  · rw [Obj.get_set, if_neg hf]
  · rfl

/-- The update set always carries `updatedAt`, the handler's clock reading. -/
theorem updateSet_updatedAt (rt : Runtime) (env : Env) (r : Route) (body : Obj)
    (hr : r ∈ updateRoutes) : (r.updateSet rt env body).get "updatedAt" = env.stamp := by
  simp only [updateRoutes, List.mem_cons, List.mem_singleton, List.not_mem_nil, or_false] at hr
  rcases hr with rfl | rfl | rfl | rfl | rfl | rfl
  · simp [Route.updateSet, Obj.get_set]
  · simp [Route.updateSet, Obj.get_set]
  · simp [Route.updateSet, budgetCoerce_updatedAt, Obj.get_set]
  · simp [Route.updateSet, transactionUpdates, Obj.get_set]
  · simp [Route.updateSet, Obj.get_set]
  · simp only [Route.updateSet, trophyUpdates]
    rw [Obj.get_ite_set _ _ _ _ _ (by decide), Obj.get_ite_set _ _ _ _ _ (by decide),
      Obj.get_ite_set _ _ _ _ _ (by decide), Obj.get_ite_set _ _ _ _ _ (by decide)]
    rfl

theorem updateSet_mem_updatedAt (rt : Runtime) (env : Env) (r : Route) (body : Obj)
    (hr : r ∈ updateRoutes) : "updatedAt" ∈ (r.updateSet rt env body).keys := by
  refine Obj.mem_keys_of_get _ _ ?_
  rw [updateSet_updatedAt rt env r body hr]
  simp [Env.stamp]

/-- The update set of `/trophies/update` never carries `createdAt`. -/
theorem trophyUpdates_createdAt (rt : Runtime) (env : Env)
    (newTrophyName displayName description points : JVal) :
    "createdAt" ∉ (trophyUpdates rt env newTrophyName displayName description points).keys := by
  unfold trophyUpdates
  simp only [Obj.keys_ite_set]
  simp [Obj.keys]

/-! ## C8: `createdAt` under the update routes -/

theorem createdAts_updateById (c : List Doc) (tid : String) (u : Obj)
    (h : "createdAt" ∉ u.keys) : createdAts (updateById c tid u) = createdAts c := by
  unfold createdAts updateById
  rw [List.map_map]
  refine List.map_congr_left ?_
  intro d _
  by_cases hd : d.id = tid
  · simp [hd, Obj.get_merge, h]
  · simp [hd]

theorem createdAts_setMergeById (c : List Doc) (tid : String) (u : Obj)
    (h : "createdAt" ∉ u.keys) : createdAts c <+: createdAts (setMergeById c tid u) := by
  unfold setMergeById
  split
  · rw [createdAts_updateById c tid u h]
  · unfold createdAts
    rw [List.map_append]
    exact List.prefix_append _ _

theorem logUserActivity_log (env : Env) (s : Store) (who : JVal) (msg : String) :
    s.userActivityLog <+: (logUserActivity env s who msg).userActivityLog := by
  unfold logUserActivity
  split
  · exact List.prefix_refl _
  · exact List.prefix_append _ _

theorem CreatedAtKept.refl (s : Store) : CreatedAtKept s s :=
  ⟨List.prefix_refl _, List.prefix_refl _, List.prefix_refl _, List.prefix_refl _,
    List.prefix_refl _, List.prefix_refl _, List.prefix_refl _, List.prefix_refl _⟩

theorem createdAtKept_applyUpdate (r : Route) (s : Store) (tid : String) (u : Obj)
    (h : "createdAt" ∉ u.keys) (env : Env) (who : JVal) (msg : String) :
    CreatedAtKept s (logUserActivity env (r.applyUpdate s tid u) who msg) := by
  have hlog : createdAts s.userActivityLog
      <+: createdAts (logUserActivity env (r.applyUpdate s tid u) who msg).userActivityLog := by
    have h1 := logUserActivity_log env (r.applyUpdate s tid u) who msg
    have h2 : (r.applyUpdate s tid u).userActivityLog = s.userActivityLog := by
      cases r <;> rfl
    rw [h2] at h1
    exact List.IsPrefix.map _ h1
  unfold CreatedAtKept
  simp only [logUserActivity_users, logUserActivity_userSettings, logUserActivity_budgets,
    logUserActivity_transactions, logUserActivity_goals, logUserActivity_trophies,
    logUserActivity_usersTrophies]
  refine ⟨?_, ?_, ?_, ?_, ?_, ?_, ?_, hlog⟩ <;> cases r <;>
    first
      | exact List.prefix_refl _
      | exact createdAts_setMergeById _ _ _ h
      | (simp only [Route.applyUpdate]
         rw [createdAts_updateById _ _ _ h])

/-- C8, as amended.  For each of the six update routes and every body that
has no `createdAt` field (for `/trophies/update`: every body), every document
of the store is afterwards in its place with the `createdAt` it had. -/
theorem createdAt_kept_by_updates (rt : Runtime) (env : Env) (r : Route) (body : Obj)
    (s : Store) (hr : r ∈ updateRoutes)
    (hb : "createdAt" ∉ body.keys ∨ r = .trophiesUpdate) :
    CreatedAtKept s (handle rt env r body s).2 := by
  rcases update_shape rt env r body s hr with ⟨_, h⟩ | ⟨_, tid, who, msg, _, hreq, _, h⟩
  · rw [h]
    exact CreatedAtKept.refl s
  · rw [h]
    refine createdAtKept_applyUpdate r s tid _ ?_ env who msg
    rcases hb with hb | rfl
    · intro hmem
      rcases updateSet_keys rt env r body hreq "createdAt" hmem with h1 | h1
      · exact absurd h1 (by decide)
      · exact hb h1
    · exact trophyUpdates_createdAt rt env _ _ _ _

/-- C8, the amended claim at a concrete input: `/users/update` with a profile
field. -/
theorem createdAt_kept_by_updates_witness :
    CreatedAtKept oneUser (handle sampleRuntime sampleEnv .usersUpdate profileBody oneUser).2 :=
  createdAt_kept_by_updates sampleRuntime sampleEnv .usersUpdate profileBody oneUser
    (by decide) (Or.inl (by decide))

/-- C8 as stated fails: `/users/update` with a `createdAt` field in the body
answers 200 and overwrites the `createdAt` of the user document. -/
theorem createdAt_overwritten_counterexample :
    createdAts oneUser.users = [("u1", .time (.fin 5))]
      ∧ (handle sampleRuntime sampleEnv .usersUpdate createdAtBody oneUser).1.status = 200
      ∧ createdAts (handle sampleRuntime sampleEnv .usersUpdate createdAtBody oneUser).2.users
          = [("u1", .num (.fin 0))] := by
  decide

/-! ## C9: what a successful update writes -/

theorem setMergeById_of_mem {c : List Doc} {tid : String} {D : Doc} (hD : D ∈ c)
    (hid : D.id = tid) (u : Obj) : setMergeById c tid u = updateById c tid u := by
  unfold setMergeById
  rw [if_pos]
  rw [List.any_eq_true]
  exact ⟨D, hD, by simp [hid]⟩

/-- An update of `tid` by a set whose fields are `updatedAt` or fields of the
body relates every document to the one in its place. -/
theorem touched_updateById (c : List Doc) (tid : String) (body : Obj) (env : Env) (u : Obj)
    (h1 : u.get "updatedAt" = env.stamp) (h1' : "updatedAt" ∈ u.keys)
    (h2 : ∀ f ∈ u.keys, f = "updatedAt" ∨ f ∈ body.keys) :
    List.Forall₂ (Touched tid body env) c (updateById c tid u) := by
  unfold updateById
  rw [List.forall₂_map_right_iff, List.forall₂_same]
  intro d _
  by_cases hd : d.id = tid
  · refine ⟨by simp [hd], fun h => absurd hd h, fun _ => ⟨?_, ?_⟩⟩
    · simp [hd, Obj.get_merge, h1', h1]
    · intro f hf hne
      have : f ∉ u.keys := fun hm => (h2 f hm).elim hne hf
      simp [hd, Obj.get_merge, this]
  · refine ⟨by simp [hd], fun _ => by simp [hd], fun h => absurd h hd⟩

theorem touched_self (c : List Doc) (tid : String) (body : Obj) (env : Env)
    (h : ∀ x ∈ c, x.id ≠ tid) : List.Forall₂ (Touched tid body env) c c := by
  rw [List.forall₂_same]
  intro d hd
  exact ⟨rfl, fun _ => rfl, fun e => absurd e (h d hd)⟩

theorem mem_updateById {c : List Doc} {tid : String} {D : Doc} (hD : D ∈ c)
    (hid : D.id = tid) (u : Obj) : (⟨tid, D.data.merge u⟩ : Doc) ∈ updateById c tid u := by
  unfold updateById
  rw [List.mem_map]
  exact ⟨D, hD, by simp [hid]⟩

theorem targetCollection_logUserActivity (r : Route) (env : Env) (s : Store) (who : JVal)
    (msg : String) :
    r.targetCollection (logUserActivity env s who msg) = r.targetCollection s := by
  cases r <;> simp [Route.targetCollection]

theorem targetCollection_applyUpdate (r : Route) (s : Store) (tid : String) (u : Obj)
    (hr : r ∈ updateRoutes) :
    r.targetCollection (r.applyUpdate s tid u)
      = if r = .usersUpdate ∨ r = .settingsUpdate then
          setMergeById (r.targetCollection s) tid u
        else updateById (r.targetCollection s) tid u := by
  simp only [updateRoutes, List.mem_cons, List.mem_singleton, List.not_mem_nil, or_false] at hr
  rcases hr with rfl | rfl | rfl | rfl | rfl | rfl <;>
    simp [Route.targetCollection, Route.applyUpdate]

theorem othersKept_applyUpdate (r : Route) (s : Store) (tid : String) (u : Obj) (env : Env)
    (who : JVal) (msg : String) :
    OthersKept r s (logUserActivity env (r.applyUpdate s tid u) who msg) := by
  have hlog : s.userActivityLog
      <+: (logUserActivity env (r.applyUpdate s tid u) who msg).userActivityLog := by
    have h1 := logUserActivity_log env (r.applyUpdate s tid u) who msg
    have h2 : (r.applyUpdate s tid u).userActivityLog = s.userActivityLog := by
      cases r <;> rfl
    rw [h2] at h1
    exact h1
  unfold OthersKept
  simp only [logUserActivity_users, logUserActivity_userSettings, logUserActivity_budgets,
    logUserActivity_transactions, logUserActivity_goals, logUserActivity_trophies,
    logUserActivity_usersTrophies]
  refine ⟨?_, ?_, ?_, ?_, ?_, ?_, ?_, hlog⟩ <;> cases r <;>
    first
      | rfl
      | (intro _; rfl)
      | (intro h; exact absurd rfl h)

/-- C9.  A successful update (200) by one of the six update routes has a
target document `tid`, and: in the target collection every document is in its
place with its identifier, documents other than `tid` are as they were, and
`tid` has `updatedAt` set to the handler's clock reading and every field the
body does not name as it was; the only document that can be new is the
settings document of `/users/settings/update`, with no field the body does
not name; the target is in the collection afterwards; every other collection
is as it was, the activity log having at most grown at its end. -/
theorem update_keeps_unnamed_fields (rt : Runtime) (env : Env) (r : Route) (body : Obj)
    (s : Store) (hr : r ∈ updateRoutes) (hok : (handle rt env r body s).1.status = 200) :
    ∃ tid c₁ extra,
      r.target rt s body = some tid
        ∧ r.targetCollection (handle rt env r body s).2 = c₁ ++ extra
        ∧ List.Forall₂ (Touched tid body env) (r.targetCollection s) c₁
        ∧ (∀ d ∈ extra,
            r = .settingsUpdate ∧ FreshlySet tid body env (r.targetCollection s) d)
        ∧ (∃ d ∈ r.targetCollection (handle rt env r body s).2,
            d.id = tid ∧ d.data.get "updatedAt" = env.stamp)
        ∧ OthersKept r s (handle rt env r body s).2 := by
  rcases update_shape rt env r body s hr with
    ⟨hne, _⟩ | ⟨_, tid, who, msg, ht, hreq, hex, h⟩
  · exact absurd hok hne
  · have h1 := updateSet_updatedAt rt env r body hr
    have h1' := updateSet_mem_updatedAt rt env r body hr
    have h2 := updateSet_keys rt env r body hreq
    have hcoll : r.targetCollection (handle rt env r body s).2
        = if r = .usersUpdate ∨ r = .settingsUpdate then
            setMergeById (r.targetCollection s) tid (r.updateSet rt env body)
          else updateById (r.targetCollection s) tid (r.updateSet rt env body) := by
      rw [h, targetCollection_logUserActivity, targetCollection_applyUpdate _ _ _ _ hr]
    have hkept : OthersKept r s (handle rt env r body s).2 := by
      rw [h]
      exact othersKept_applyUpdate r s tid _ env who msg
    -- the case of a target that is in the collection
    have hthere : ∀ D ∈ r.targetCollection s, D.id = tid →
        r.targetCollection (handle rt env r body s).2
          = updateById (r.targetCollection s) tid (r.updateSet rt env body) →
        ∃ tid c₁ extra,
          r.target rt s body = some tid
            ∧ r.targetCollection (handle rt env r body s).2 = c₁ ++ extra
            ∧ List.Forall₂ (Touched tid body env) (r.targetCollection s) c₁
            ∧ (∀ d ∈ extra,
                r = .settingsUpdate ∧ FreshlySet tid body env (r.targetCollection s) d)
            ∧ (∃ d ∈ r.targetCollection (handle rt env r body s).2,
                d.id = tid ∧ d.data.get "updatedAt" = env.stamp)
            ∧ OthersKept r s (handle rt env r body s).2 := by
      intro D hD hid hc
      refine ⟨tid, updateById (r.targetCollection s) tid (r.updateSet rt env body), [], ht,
        by rw [hc, List.append_nil], touched_updateById _ _ _ _ _ h1 h1' h2,
        fun d hd => absurd hd (List.not_mem_nil d), ?_, hkept⟩
      refine ⟨⟨tid, D.data.merge (r.updateSet rt env body)⟩, ?_, rfl, ?_⟩
      · rw [hc]
        exact mem_updateById hD hid _
      · simp [Obj.get_merge, h1', h1]
    by_cases hset : r = .settingsUpdate
    · by_cases hany : ∃ D ∈ r.targetCollection s, D.id = tid
      · obtain ⟨D, hD, hid⟩ := hany
        refine hthere D hD hid ?_
        rw [hcoll, if_pos (Or.inr hset), setMergeById_of_mem hD hid]
      · have hnone : ∀ x ∈ r.targetCollection s, x.id ≠ tid :=
          fun x hx e => hany ⟨x, hx, e⟩
        have hc : r.targetCollection (handle rt env r body s).2
            = r.targetCollection s ++ [⟨tid, r.updateSet rt env body⟩] := by
          rw [hcoll, if_pos (Or.inr hset)]
          unfold setMergeById
          rw [if_neg]
          rw [List.any_eq_true]
          rintro ⟨x, hx, hxid⟩
          exact hnone x hx (by simpa using hxid)
        refine ⟨tid, r.targetCollection s, [⟨tid, r.updateSet rt env body⟩], ht, hc,
          touched_self _ _ _ _ hnone, ?_, ?_, hkept⟩
        · intro d hd
          rw [List.mem_singleton] at hd
          subst hd
          refine ⟨hset, rfl, hnone, h1, ?_⟩
          intro f hf hne
          refine Obj.get_of_not_mem_keys _ _ ?_
          exact fun hm => (h2 f hm).elim hne hf
        · refine ⟨⟨tid, r.updateSet rt env body⟩, ?_, rfl, h1⟩
          rw [hc]
          simp
    · obtain ⟨D, hD, hid⟩ := hex hset
      refine hthere D hD hid ?_
      rw [hcoll]
      split_ifs with hus
      · exact setMergeById_of_mem hD hid _
      · rfl

/-- C9 at a concrete input: `/goals/update` of the goal `car` with a new
`targetAmount`, in a store with two goals. -/
theorem update_keeps_unnamed_fields_witness :
    ∃ tid c₁ extra,
      Route.goalsUpdate.target sampleRuntime twoGoals goalAmountBody = some tid
        ∧ Route.goalsUpdate.targetCollection
            (handle sampleRuntime sampleEnv .goalsUpdate goalAmountBody twoGoals).2
            = c₁ ++ extra
        ∧ List.Forall₂ (Touched tid goalAmountBody sampleEnv)
            (Route.goalsUpdate.targetCollection twoGoals) c₁
        ∧ (∀ d ∈ extra,
            Route.goalsUpdate = .settingsUpdate
              ∧ FreshlySet tid goalAmountBody sampleEnv
                  (Route.goalsUpdate.targetCollection twoGoals) d)
        ∧ (∃ d ∈ Route.goalsUpdate.targetCollection
              (handle sampleRuntime sampleEnv .goalsUpdate goalAmountBody twoGoals).2,
            d.id = tid ∧ d.data.get "updatedAt" = sampleEnv.stamp)
        ∧ OthersKept .goalsUpdate twoGoals
            (handle sampleRuntime sampleEnv .goalsUpdate goalAmountBody twoGoals).2 :=
  update_keeps_unnamed_fields sampleRuntime sampleEnv .goalsUpdate goalAmountBody twoGoals
    (by decide) (by decide)

/-! ## C10: numeric fields -/

/-- C10 at two failing inputs.  `/budgets/update` with `amount` the empty
string answers 200 and stores the empty string; `/transactions/update` with
`amount` `null` answers 200 and stores `null`. -/
theorem falsy_amount_is_stored_as_is :
    ((handle sampleRuntime sampleEnv .budgetsUpdate emptyAmountBody twoUsers).1.status = 200
      ∧ storedAmounts
          (handle sampleRuntime sampleEnv .budgetsUpdate emptyAmountBody twoUsers).2.budgets
          = [.str "", .num (.fin 20)])
    ∧ ((handle sampleRuntime sampleEnv .transactionsUpdate nullAmountBody
          oneTransaction).1.status = 200
      ∧ storedAmounts
          (handle sampleRuntime sampleEnv .transactionsUpdate nullAmountBody
            oneTransaction).2.transactions = [.null]) := by
  decide

/-! ## C18: rejected requests -/

/-- C18.  For every route, body and store (store calls not failing): a request
answered 400 or 404 leaves the whole store, activity log included, as it was;
and a request after which the activity log differs was answered 200 or 201. -/
theorem rejected_requests_write_nothing (rt : Runtime) (env : Env) (r : Route) (body : Obj)
    (s : Store) :
    (((handle rt env r body s).1.status = 400 ∨ (handle rt env r body s).1.status = 404) →
        (handle rt env r body s).2 = s)
      ∧ ((handle rt env r body s).2.userActivityLog ≠ s.userActivityLog →
          ((handle rt env r body s).1.status = 200
            ∨ (handle rt env r body s).1.status = 201)) := by
  cases r
  all_goals
    simp only [handle, usersCreate, usersGet, usersUpdate, settingsGet, settingsUpdate,
      budgetsCreate, budgetsGet, budgetsUpdate, budgetsList, budgetsDelete, transactionsCreate,
      transactionsGet, transactionsUpdate, transactionsList, transactionsListByCategory,
      transactionsDelete, goalsCreate, goalsGet, goalsUpdate, goalsList, goalsListByStatus,
      goalsDelete, activityList, trophiesCreate, trophiesGet, trophiesList, trophiesUpdate,
      trophiesDelete, usersTrophiesEarn, usersTrophiesList, usersTrophiesDelete, helloWorld]
  all_goals repeat' split
  all_goals simp [errorResponse, messageResponse, catchAll]

/-! ## C17: the activity log -/

theorem logUserActivity_log_of_eq (env : Env) {s1 : Store} {l : List Doc}
    (h : s1.userActivityLog = l) (who : JVal) (msg : String) :
    l <+: (logUserActivity env s1 who msg).userActivityLog :=
  h ▸ logUserActivity_log env s1 who msg

/-- The activity log after any request: the log before, with at most entries
added at its end. -/
theorem handle_log_prefix (rt : Runtime) (env : Env) (r : Route) (body : Obj) (s : Store) :
    s.userActivityLog <+: (handle rt env r body s).2.userActivityLog := by
  cases r
  all_goals
    simp only [handle, usersCreate, usersGet, usersUpdate, settingsGet, settingsUpdate,
      budgetsCreate, budgetsGet, budgetsUpdate, budgetsList, budgetsDelete, transactionsCreate,
      transactionsGet, transactionsUpdate, transactionsList, transactionsListByCategory,
      transactionsDelete, goalsCreate, goalsGet, goalsUpdate, goalsList, goalsListByStatus,
      goalsDelete, activityList, trophiesCreate, trophiesGet, trophiesList, trophiesUpdate,
      trophiesDelete, usersTrophiesEarn, usersTrophiesList, usersTrophiesDelete, helloWorld]
  all_goals repeat' split
  all_goals
    first
      | exact List.prefix_refl _
      | (refine logUserActivity_log_of_eq env ?_ _ _
         rfl)

/-- C17.  `logUserActivity` writes nothing when `userId` is `undefined` or the
empty string; for a user identifier that is not empty it appends exactly the
entry `activityEntry` and changes nothing else; and after any request, to any
route, every entry of the log is still in its place, unchanged. -/
theorem logUserActivity_appends_or_skips (rt : Runtime) (env : Env) (s : Store)
    (activityDescription : String) (uid : String) (huid : uid ≠ "") (r : Route) (body : Obj) :
    logUserActivity env s .undefined activityDescription = s
      ∧ logUserActivity env s (.str "") activityDescription = s
      ∧ logUserActivity env s (.str uid) activityDescription
          = { s with
              userActivityLog :=
                s.userActivityLog ++ [activityEntry env (.str uid) activityDescription] }
      ∧ s.userActivityLog <+: (handle rt env r body s).2.userActivityLog := by
  refine ⟨?_, ?_, ?_, handle_log_prefix rt env r body s⟩
  · simp [logUserActivity, JVal.truthy]
  · simp [logUserActivity, JVal.truthy]
  · simp [logUserActivity, JVal.truthy, huid, addDoc, activityEntry]

/-- C17 at a concrete input: the entry written for user `u1`, and the log
after a `/budgets/create` request. -/
theorem logUserActivity_appends_or_skips_witness :
    logUserActivity sampleEnv oneUser .undefined "Updated user profile" = oneUser
      ∧ logUserActivity sampleEnv oneUser (.str "") "Updated user profile" = oneUser
      ∧ logUserActivity sampleEnv oneUser (.str "u1") "Updated user profile"
          = { oneUser with
              userActivityLog :=
                oneUser.userActivityLog
                  ++ [activityEntry sampleEnv (.str "u1") "Updated user profile"] }
      ∧ oneUser.userActivityLog
          <+: (handle sampleRuntime sampleEnv .budgetsCreate budgetBody
                oneUser).2.userActivityLog :=
  logUserActivity_appends_or_skips sampleRuntime sampleEnv oneUser "Updated user profile" "u1"
    (by decide) .budgetsCreate budgetBody

/-! ## C15: the email of a user -/

theorem findOne_eq_find (c : List Doc) (K : List (String × JVal)) :
    findOne c K = c.find? (fun d => K.all (fun p => d.has p.1 p.2)) := by
  unfold findOne whereEq
  induction c with
  | nil => rfl
  | cons d c ih =>
    cases h : (K.all (fun p => d.has p.1 p.2))
    · simp only [List.filter_cons, List.find?_cons, h, Bool.false_eq_true, if_false]
      exact ih
    · simp [List.filter_cons, List.find?_cons, h]

/-- The identifier an email resolves to depends only on the identifiers and
emails of the users. -/
theorem findOne_email_id (c : List Doc) (e : JVal) :
    (findOne c [("email", e)]).map Doc.id
      = ((emails c).find? (fun p => e != JVal.undefined && p.2 == e)).map Prod.fst := by
  rw [findOne_eq_find]
  unfold emails
  induction c with
  | nil => rfl
  | cons d c ih =>
    simp only [List.map_cons, List.find?_cons, List.all_cons, List.all_nil, Bool.and_true,
      Doc.has]
    cases h : (e != JVal.undefined && d.data.get "email" == e)
    · simpa [Doc.has] using ih
    · rfl

theorem getUserIdByEmail_ok_iff (rt : Runtime) (s : Store) (e : JVal) (uid : String) :
    getUserIdByEmail rt s e = .ok uid
      ↔ (findOne s.users [("email", e)]).map Doc.id = some uid := by
  unfold getUserIdByEmail
  cases h : findOne s.users [("email", e)] with
  | none => simp
  | some d => simp

theorem emails_updateById (c : List Doc) (tid : String) (u : Obj) (h : "email" ∉ u.keys) :
    emails (updateById c tid u) = emails c := by
  unfold emails updateById
  rw [List.map_map]
  refine List.map_congr_left ?_
  intro d _
  by_cases hd : d.id = tid
  · simp [hd, Obj.get_merge, h]
  · simp [hd]

/-- The users collection after any route other than the two that write it. -/
theorem handle_users_frame (rt : Runtime) (env : Env) (r : Route) (body : Obj) (s : Store)
    (hr : r ≠ .usersCreate ∧ r ≠ .usersUpdate) :
    (handle rt env r body s).2.users = s.users := by
  obtain ⟨h1, h2⟩ := hr
  cases r
  case usersCreate => exact absurd rfl h1
  case usersUpdate => exact absurd rfl h2
  all_goals
    simp only [handle, usersGet, settingsGet, settingsUpdate,
      budgetsCreate, budgetsGet, budgetsUpdate, budgetsList, budgetsDelete, transactionsCreate,
      transactionsGet, transactionsUpdate, transactionsList, transactionsListByCategory,
      transactionsDelete, goalsCreate, goalsGet, goalsUpdate, goalsList, goalsListByStatus,
      goalsDelete, activityList, trophiesCreate, trophiesGet, trophiesList, trophiesUpdate,
      trophiesDelete, usersTrophiesEarn, usersTrophiesList, usersTrophiesDelete, helloWorld]
  all_goals repeat' split
  all_goals first | rfl | simp only [logUserActivity_users]

/-- After any request the users are the users before, each in its place with
its identifier and email, followed at most by users the store has given the
new identifier. -/
theorem handle_users_emails (rt : Runtime) (env : Env) (r : Route) (body : Obj) (s : Store) :
    ∃ extra, emails (handle rt env r body s).2.users = emails s.users ++ extra
      ∧ ∀ p ∈ extra, p.1 = env.newId := by
  by_cases hr : r ≠ .usersCreate ∧ r ≠ .usersUpdate
  · exact ⟨[], by rw [handle_users_frame rt env r body s hr, List.append_nil], by simp⟩
  · cases r <;> simp only [ne_eq, not_true_eq_false, not_false_eq_true, and_self,
      and_false, false_and, reduceCtorEq] at hr
    · -- users/create
      simp only [handle, usersCreate]
      split
      · exact ⟨[], by simp, by simp⟩
      · split
        · exact ⟨[], by simp, by simp⟩
        · exact ⟨[(env.newId, (userData env (body.get "email")).get "email")],
            by simp [emails, addDoc], by simp⟩
    · -- users/update
      rcases update_shape rt env .usersUpdate body s (by decide) with
        ⟨_, h⟩ | ⟨_, tid, who, msg, _, _, hex, h⟩
      · exact ⟨[], by rw [h, List.append_nil], by simp⟩
      · obtain ⟨D, hD, hid⟩ := hex (by decide)
        refine ⟨[], ?_, by simp⟩
        rw [h, logUserActivity_users, List.append_nil]
        simp only [Route.applyUpdate, Route.targetCollection] at hD ⊢
        rw [setMergeById_of_mem hD hid, emails_updateById]
        simp only [Route.updateSet]
        rw [Obj.keys_set, Obj.keys_without]
        simp

/-- C15.  For every route and body, in a store where the identifier the store
hands out next is not in use: every user document is afterwards in its place
with its identifier and its email, and an email resolves to an existing user
afterwards exactly when it did before. -/
theorem user_email_immutable (rt : Runtime) (env : Env) (r : Route) (body : Obj) (s : Store)
    (e : JVal) (uid : String) (hfresh : ∀ d ∈ s.users, d.id ≠ env.newId)
    (huid : ∃ d ∈ s.users, d.id = uid) :
    emails s.users <+: emails (handle rt env r body s).2.users
      ∧ (getUserIdByEmail rt (handle rt env r body s).2 e = .ok uid
          ↔ getUserIdByEmail rt s e = .ok uid) := by
  obtain ⟨extra, hx, hnew⟩ := handle_users_emails rt env r body s
  refine ⟨hx ▸ List.prefix_append _ _, ?_⟩
  have hne : uid ≠ env.newId := by
    obtain ⟨d, hd, rfl⟩ := huid
    exact hfresh d hd
  rw [getUserIdByEmail_ok_iff, getUserIdByEmail_ok_iff, findOne_email_id, findOne_email_id, hx,
    List.find?_append]
  cases h : (emails s.users).find? (fun p => e != JVal.undefined && p.2 == e) with
  | some p => simp
  | none =>
    simp only [Option.none_or, Option.map_none', reduceCtorEq, iff_false]
    intro hc
    cases h2 : extra.find? (fun p => e != JVal.undefined && p.2 == e) with
    | none => rw [h2] at hc; cases hc
    | some q =>
      rw [h2] at hc
      simp only [Option.map_some', Option.some.injEq] at hc
      exact hne (hc ▸ hnew q (List.mem_of_find?_eq_some h2))

/-- C15 at a concrete input: `/users/update` for `ann@example.com` in a store
with two users. -/
theorem user_email_immutable_witness :
    emails annAndBob.users
        <+: emails (handle sampleRuntime sampleEnv .usersUpdate profileBody annAndBob).2.users
      ∧ (getUserIdByEmail sampleRuntime
            (handle sampleRuntime sampleEnv .usersUpdate profileBody annAndBob).2
            (.str "ann@example.com") = .ok "u1"
          ↔ getUserIdByEmail sampleRuntime annAndBob (.str "ann@example.com") = .ok "u1") :=
  user_email_immutable sampleRuntime sampleEnv .usersUpdate profileBody annAndBob
    (.str "ann@example.com") "u1" (by decide) (by decide)

/-! ## C16: per-user listing -/

theorem whereEq_userId (c : List Doc) (uid : String) :
    whereEq c [("userId", .str uid)]
      = c.filter (fun d => decide (d.data.get "userId" = .str uid)) := by
  unfold whereEq
  refine List.filter_congr ?_
  intro d _
  rw [Bool.eq_iff_iff]
  simp [Doc.has]

theorem whereEq_userId_and (c : List Doc) (uid : String) (k : String) (v : JVal)
    (hv : v.truthy = true) :
    whereEq c [("userId", .str uid), (k, v)]
      = c.filter (fun d => decide (d.data.get "userId" = .str uid ∧ d.data.get k = v)) := by
  unfold whereEq
  refine List.filter_congr ?_
  intro d _
  have := JVal.ne_undefined_of_truthy hv
  rw [Bool.eq_iff_iff]
  simp [Doc.has, this]

/-- The object `{id: doc.id, ...doc.data()}`, field by field: the fields of the
data, and `id` when the data has no field of that name. -/
theorem withId_get (d : Doc) (f : String) :
    (withId d).get f
      = if f ∈ d.data.keys then d.data.get f
        else if f = "id" then .str d.id else .undefined := by
  unfold withId
  rw [Obj.get_merge]
  by_cases h : f ∈ d.data.keys
  · simp [h]
  · by_cases h2 : f = "id"
    · simp [h, h2, Obj.get]
    · have h3 : ¬ "id" = f := fun e => h2 e.symm
      simp [h, h2, h3, Obj.get]

/-- C16 as stated fails.  `/goals/update` sets the status of a goal of
`ann@example.com` to the empty string and answers 200; in the store it leaves,
one goal has her `userId` and that status, and `/goals/list-by-status` with
that status answers 400 instead of a list; `/transactions/list-by-category`
with the empty string as category answers 400 as well. -/
theorem per_user_listing_counterexample :
    (handle sampleRuntime sampleEnv .goalsUpdate clearStatusBody twoGoals).1.status = 200
      ∧ getUserIdByEmail sampleRuntime clearedStatusStore (emptyFilterBody.get "email")
          = .ok "u1"
      ∧ (clearedStatusStore.goals.filter
            (fun d => decide (d.data.get "userId" = .str "u1"
              ∧ d.data.get "status" = emptyFilterBody.get "status"))).map (fun d => d.id)
          = ["g1"]
      ∧ handle sampleRuntime sampleEnv2 .goalsListByStatus emptyFilterBody clearedStatusStore
          = (errorResponse 400 "Email and status are required.", clearedStatusStore)
      ∧ handle sampleRuntime sampleEnv2 .transactionsListByCategory emptyFilterBody
            clearedStatusStore
          = (errorResponse 400 "Email and category are required.", clearedStatusStore) := by
  refine ⟨by decide, rfl, by decide, by decide, by decide⟩

/-- C16, amended.  For a body whose email resolves to the user `uid`: `/budgets/list`,
`/transactions/list` and `/goals/list` answer 200 with exactly the documents
of the collection whose `userId` is `uid`, in collection order, each as
`{id, ...data}`; `/transactions/list-by-category` and `/goals/list-by-status`,
given a truthy category or status, also require that field to be equal; the
store is left as it was. -/
theorem per_user_listing_exact (rt : Runtime) (env : Env) (body : Obj) (s : Store)
    (uid : String) (he : (body.get "email").truthy = true)
    (hu : getUserIdByEmail rt s (body.get "email") = .ok uid) :
    handle rt env .budgetsList body s
        = (⟨200, .list ((s.budgets.filter
            (fun d => decide (d.data.get "userId" = .str uid))).map withId)⟩, s)
      ∧ handle rt env .transactionsList body s
        = (⟨200, .list ((s.transactions.filter
            (fun d => decide (d.data.get "userId" = .str uid))).map withId)⟩, s)
      ∧ handle rt env .goalsList body s
        = (⟨200, .list ((s.goals.filter
            (fun d => decide (d.data.get "userId" = .str uid))).map withId)⟩, s)
      ∧ ((body.get "category").truthy = true →
          handle rt env .transactionsListByCategory body s
            = (⟨200, .list ((s.transactions.filter
                (fun d => decide (d.data.get "userId" = .str uid
                  ∧ d.data.get "category" = body.get "category"))).map withId)⟩, s))
      ∧ ((body.get "status").truthy = true →
          handle rt env .goalsListByStatus body s
            = (⟨200, .list ((s.goals.filter
                (fun d => decide (d.data.get "userId" = .str uid
                  ∧ d.data.get "status" = body.get "status"))).map withId)⟩, s))
      ∧ ∀ (d : Doc) (f : String),
          (withId d).get f
            = if f ∈ d.data.keys then d.data.get f
              else if f = "id" then .str d.id else .undefined := by
  refine ⟨?_, ?_, ?_, ?_, ?_, withId_get⟩
  · simp only [handle, budgetsList, he, hu, Bool.not_true, Bool.false_eq_true, if_false,
      whereEq_userId]
  · simp only [handle, transactionsList, he, hu, Bool.not_true, Bool.false_eq_true, if_false,
      whereEq_userId]
  · simp only [handle, goalsList, he, hu, Bool.not_true, Bool.false_eq_true, if_false,
      whereEq_userId]
  · intro hc
    simp only [handle, transactionsListByCategory, he, hc, hu, Bool.not_true, Bool.or_self,
      Bool.false_eq_true, if_false, whereEq_userId_and _ _ _ _ hc]
  · intro hc
    simp only [handle, goalsListByStatus, he, hc, hu, Bool.not_true, Bool.or_self,
      Bool.false_eq_true, if_false, whereEq_userId_and _ _ _ _ hc]

/-- C16, amended, at a concrete input: the listings for `ann@example.com` in a store
where she and `bob@example.com` each have a budget. -/
theorem per_user_listing_exact_witness :
    handle sampleRuntime sampleEnv .budgetsList listBody twoUsers
        = (⟨200, .list ((twoUsers.budgets.filter
            (fun d => decide (d.data.get "userId" = .str "u1"))).map withId)⟩, twoUsers)
      ∧ handle sampleRuntime sampleEnv .transactionsList listBody twoUsers
        = (⟨200, .list ((twoUsers.transactions.filter
            (fun d => decide (d.data.get "userId" = .str "u1"))).map withId)⟩, twoUsers)
      ∧ handle sampleRuntime sampleEnv .goalsList listBody twoUsers
        = (⟨200, .list ((twoUsers.goals.filter
            (fun d => decide (d.data.get "userId" = .str "u1"))).map withId)⟩, twoUsers)
      ∧ ((listBody.get "category").truthy = true →
          handle sampleRuntime sampleEnv .transactionsListByCategory listBody twoUsers
            = (⟨200, .list ((twoUsers.transactions.filter
                (fun d => decide (d.data.get "userId" = .str "u1"
                  ∧ d.data.get "category" = listBody.get "category"))).map withId)⟩,
                twoUsers))
      ∧ ((listBody.get "status").truthy = true →
          handle sampleRuntime sampleEnv .goalsListByStatus listBody twoUsers
            = (⟨200, .list ((twoUsers.goals.filter
                (fun d => decide (d.data.get "userId" = .str "u1"
                  ∧ d.data.get "status" = listBody.get "status"))).map withId)⟩, twoUsers))
      ∧ ∀ (d : Doc) (f : String),
          (withId d).get f
            = if f ∈ d.data.keys then d.data.get f
              else if f = "id" then .str d.id else .undefined :=
  per_user_listing_exact sampleRuntime sampleEnv listBody twoUsers "u1" (by decide) rfl

/-! ## C19: validation by truthiness -/

/-- C19.  For budgets, transactions and goals: a create request whose amount
field (`amount`, for goals `targetAmount`) is the number 0 or the empty string
answers 400 "Missing required fields." and writes nothing, whatever else the
body holds; a create request whose amount field is the string `"0"`, with the
other checked fields truthy, an email that resolves to a user and a key that
no document has, answers 201 and adds one document whose amount field is the
number `Number("0")`, which is 0. -/
theorem required_fields_checked_by_truthiness (rt : Runtime) (env : Env) (res : Resource)
    (b b0 : Obj) (s : Store) (uid : String)
    (hres : res = .budgets ∨ res = .transactions ∨ res = .goals)
    (hb : b.get res.amountField = .num (.fin 0) ∨ b.get res.amountField = .str "")
    (hnum : rt.numberOf (.str "0") = .fin 0)
    (hb0 : b0.get res.amountField = .str "0")
    (hreq : ∀ f ∈ res.createFields, f ≠ res.amountField → (b0.get f).truthy = true)
    (hu : getUserIdByEmail rt s (b0.get "email") = .ok uid)
    (hfree : whereEq (res.collection s) (res.key rt uid b0) = []) :
    handle rt env res.createRoute b s = (errorResponse 400 "Missing required fields.", s)
      ∧ (handle rt env res.createRoute b0 s).1.status = 201
      ∧ ∃ d, res.collection (handle rt env res.createRoute b0 s).2 = res.collection s ++ [d]
          ∧ d.data.get res.amountField = .num (.fin 0) := by
  have hfalsy : (b.get res.amountField).truthy = false := by
    rcases hb with h | h <;> rw [h] <;> decide
  have hreq' : ∀ f ∈ res.createFields, (b0.get f).truthy = true := by
    intro f hf
    by_cases hfa : f = res.amountField
    · rw [hfa, hb0]
      decide
    · exact hreq f hf hfa
  have hto : toNumber rt (.str "0") = .fin 0 := hnum
  rcases hres with rfl | rfl | rfl
  · refine ⟨?_, ?_⟩
    · simp only [Resource.amountField] at hfalsy
      simp [handle, Resource.createRoute, budgetsCreate, hfalsy]
    · simp only [Resource.createRoute, handle]
      rw [budgetsCreate_created rt env b0 s uid hreq' hu hfree]
      refine ⟨rfl,
        ⟨env.newId, budgetData rt env uid (b0.get "category") (b0.get "amount")
          (b0.get "startDate") (b0.get "endDate")⟩, ?_, ?_⟩
      · simp only [Resource.collection, logUserActivity_budgets, addDoc]
      · simp only [Resource.amountField] at hb0
        simp [Resource.amountField, budgetData, Obj.get, hb0, hto]
  · refine ⟨?_, ?_⟩
    · simp only [Resource.amountField] at hfalsy
      simp [handle, Resource.createRoute, transactionsCreate, hfalsy]
    · simp only [Resource.createRoute, handle]
      rw [transactionsCreate_created rt env b0 s uid hreq' hu hfree]
      refine ⟨rfl,
        ⟨env.newId, txData rt env uid (b0.get "category") (b0.get "amount")
          (b0.get "transactionDate")⟩, ?_, ?_⟩
      · simp only [Resource.collection, logUserActivity_transactions, addDoc]
      · simp only [Resource.amountField] at hb0
        simp [Resource.amountField, txData, Obj.get, hb0, hto]
  · refine ⟨?_, ?_⟩
    · simp only [Resource.amountField] at hfalsy
      simp [handle, Resource.createRoute, goalsCreate, hfalsy]
    · simp only [Resource.createRoute, handle]
      rw [goalsCreate_created rt env b0 s uid hreq' hu hfree]
      refine ⟨rfl,
        ⟨env.newId, newGoal rt env uid (b0.get "goalName") (b0.get "targetAmount")
          (b0.get "currentAmount") (b0.get "targetDate") (b0.get "status")⟩, ?_, ?_⟩
      · simp only [Resource.collection, logUserActivity_goals, addDoc]
      · simp only [Resource.amountField] at hb0
        simp [Resource.amountField, newGoal, Obj.get, hb0, hto]

/-- C19 at a concrete input: `/budgets/create` with `amount` the number 0, and
with `amount` the string `"0"`. -/
theorem required_fields_checked_by_truthiness_witness :
    handle sampleRuntime sampleEnv Resource.budgets.createRoute budgetBodyZero oneUser
        = (errorResponse 400 "Missing required fields.", oneUser)
      ∧ (handle sampleRuntime sampleEnv Resource.budgets.createRoute budgetBodyStringZero
          oneUser).1.status = 201
      ∧ ∃ d,
          Resource.budgets.collection
              (handle sampleRuntime sampleEnv Resource.budgets.createRoute budgetBodyStringZero
                oneUser).2
            = Resource.budgets.collection oneUser ++ [d]
          ∧ d.data.get Resource.budgets.amountField = .num (.fin 0) :=
  required_fields_checked_by_truthiness sampleRuntime sampleEnv .budgets budgetBodyZero
    budgetBodyStringZero oneUser "u1" (Or.inl rfl) (Or.inl rfl) (by decide) rfl (by decide) rfl
    (by decide)

/-! ## C11: creating a goal and reading it back -/

/-- C11.  For a `/goals/create` body with a truthy email that resolves to a
user, a truthy `goalName`, a non-empty string as `targetAmount`, a truthy
`targetDate`, no `currentAmount` and no `status`, in a store where the user has
no goal of that name: the create answers 201, and `/goals/get` with the same
email and `goalName` on the store it leaves answers 200 with an object whose
`goalName` is the one given, whose `targetAmount` is the number
`Number(targetAmount)`, whose `currentAmount` is the number 0, whose `status`
is "In Progress", and whose `createdAt` and `updatedAt` are both the clock
reading of the create. -/
theorem goal_create_get_round_trip (rt : Runtime) (env1 env2 : Env) (b1 b2 : Obj) (s : Store)
    (uid t : String)
    (he : (b1.get "email").truthy = true) (hg : (b1.get "goalName").truthy = true)
    (ht : b1.get "targetAmount" = .str t) (htne : t ≠ "")
    (hd : (b1.get "targetDate").truthy = true)
    (hc : b1.get "currentAmount" = .undefined) (hs : b1.get "status" = .undefined)
    (hu : getUserIdByEmail rt s (b1.get "email") = .ok uid)
    (hfree : whereEq s.goals (Resource.goals.key rt uid b1) = [])
    (h2e : b2.get "email" = b1.get "email") (h2g : b2.get "goalName" = b1.get "goalName") :
    (handle rt env1 .goalsCreate b1 s).1.status = 201
      ∧ ∃ o,
          handle rt env2 .goalsGet b2 (handle rt env1 .goalsCreate b1 s).2
              = (⟨200, .obj o⟩, (handle rt env1 .goalsCreate b1 s).2)
            ∧ o.get "goalName" = b1.get "goalName"
            ∧ o.get "targetAmount" = .num (toNumber rt (.str t))
            ∧ o.get "currentAmount" = .num (.fin 0)
            ∧ o.get "status" = .str "In Progress"
            ∧ o.get "createdAt" = env1.stamp
            ∧ o.get "updatedAt" = env1.stamp := by
  have hta : (b1.get "targetAmount").truthy = true := by
    rw [ht]
    simp [JVal.truthy, htne]
  have hreq : ∀ f ∈ Resource.goals.createFields, (b1.get f).truthy = true := by
    intro f hf
    simp only [Resource.createFields, List.mem_cons, List.mem_singleton, List.not_mem_nil,
      or_false] at hf
    rcases hf with rfl | rfl | rfl | rfl <;> assumption
  have hm : ((Resource.goals.key rt uid b1).all (fun p =>
      (Doc.mk env1.newId (newGoal rt env1 uid (b1.get "goalName") (b1.get "targetAmount")
        (b1.get "currentAmount") (b1.get "targetDate") (b1.get "status"))).has p.1 p.2))
      = true := by
    simp [Resource.key, goalKey, newGoal, Doc.has_iff, Obj.get, JVal.ne_undefined_of_truthy hg]
  simp only [handle]
  rw [goalsCreate_created rt env1 b1 s uid hreq hu hfree]
  refine ⟨rfl, withId ⟨env1.newId, newGoal rt env1 uid (b1.get "goalName")
    (b1.get "targetAmount") (b1.get "currentAmount") (b1.get "targetDate")
    (b1.get "status")⟩, ?_, ?_⟩
  · have hu2 : getUserIdByEmail rt
        (logUserActivity env1
          { s with
            goals := addDoc s.goals env1.newId
              (newGoal rt env1 uid (b1.get "goalName") (b1.get "targetAmount")
                (b1.get "currentAmount") (b1.get "targetDate") (b1.get "status")) }
          (.str uid) ("Created goal: " ++ render rt (b1.get "goalName")))
        (b1.get "email") = .ok uid :=
      (getUserIdByEmail_congr rt (logUserActivity_users _ _ _ _) _).trans hu
    have hfind := findOne_addDoc_of_free hfree hm
    simp only [Resource.key] at hfind
    simp only [goalsGet, h2e, h2g, he, hg, hu2, logUserActivity_goals, hfind, Bool.not_true,
      Bool.or_self, Bool.false_eq_true, if_false]
  · simp only [withId_get]
    simp [newGoal, Obj.keys, Obj.get, ht, hc, hs, toNumber, JVal.or, JVal.truthy]

/-- C11 at the scenario of the specification: `targetAmount` "1000" is read
back as the number 1000. -/
theorem goal_create_get_round_trip_witness :
    (handle sampleRuntime sampleEnv .goalsCreate vacationBody oneUser).1.status = 201
      ∧ ∃ o,
          handle sampleRuntime sampleEnv2 .goalsGet vacationLookup
              (handle sampleRuntime sampleEnv .goalsCreate vacationBody oneUser).2
              = (⟨200, .obj o⟩, (handle sampleRuntime sampleEnv .goalsCreate vacationBody
                  oneUser).2)
            ∧ o.get "goalName" = vacationBody.get "goalName"
            ∧ o.get "targetAmount" = .num (.fin 1000)
            ∧ o.get "currentAmount" = .num (.fin 0)
            ∧ o.get "status" = .str "In Progress"
            ∧ o.get "createdAt" = sampleEnv.stamp
            ∧ o.get "updatedAt" = sampleEnv.stamp :=
  goal_create_get_round_trip sampleRuntime sampleEnv sampleEnv2 vacationBody vacationLookup
    oneUser "u1" "1000" (by decide) (by decide) rfl (by decide) (by decide) rfl rfl rfl
    (by decide) rfl rfl

/-! ## C12: earning a trophy -/

/-- C12 as stated fails: `/usersTrophies/earn` for an existing user with the
empty string as `trophyName`, a name that no trophy has, answers 400, not 404. -/
theorem earn_outcomes_counterexample :
    getUserIdByEmail sampleRuntime oneTrophy (earnNamelessBody.get "email") = .ok "u1"
      ∧ findOne oneTrophy.trophies [("trophyName", earnNamelessBody.get "trophyName")] = none
      ∧ (handle sampleRuntime sampleEnv .usersTrophiesEarn earnNamelessBody oneTrophy).1
          = errorResponse 400 "email and trophyName are required."
      ∧ (handle sampleRuntime sampleEnv .usersTrophiesEarn earnNamelessBody oneTrophy).1.status
          ≠ 404 := by
  refine ⟨rfl, by decide, by decide, by decide⟩

/-- C12, amended.  `/usersTrophies/earn` with a truthy email that resolves to the user
`uid` and a truthy `trophyName`: when no trophy has that name, 404 and the
store as it was; when one has and the user already has a record for it, 400
and the store as it was; when one has and the user has no record, 201, the
record `{userId, trophyName, earnedAt}` added at the end of `usersTrophies`,
the other collections of resources as they were, and the same request again
answers 400 and writes nothing. -/
theorem earn_outcomes (rt : Runtime) (env1 env2 : Env) (body : Obj) (s : Store) (uid : String)
    (he : (body.get "email").truthy = true) (hn : (body.get "trophyName").truthy = true)
    (hu : getUserIdByEmail rt s (body.get "email") = .ok uid) :
    (findOne s.trophies [("trophyName", body.get "trophyName")] = none →
        (handle rt env1 .usersTrophiesEarn body s).1.status = 404
          ∧ (handle rt env1 .usersTrophiesEarn body s).2 = s)
      ∧ ((findOne s.trophies [("trophyName", body.get "trophyName")]).isSome = true →
          (findOne s.usersTrophies (userTrophyKey uid (body.get "trophyName"))).isSome = true →
          (handle rt env1 .usersTrophiesEarn body s).1.status = 400
            ∧ (handle rt env1 .usersTrophiesEarn body s).2 = s)
      ∧ ((findOne s.trophies [("trophyName", body.get "trophyName")]).isSome = true →
          whereEq s.usersTrophies (userTrophyKey uid (body.get "trophyName")) = [] →
          (handle rt env1 .usersTrophiesEarn body s).1.status = 201
            ∧ (handle rt env1 .usersTrophiesEarn body s).2.usersTrophies
                = s.usersTrophies
                  ++ [⟨env1.newId, [("userId", .str uid), ("trophyName", body.get "trophyName"),
                        ("earnedAt", env1.stamp)]⟩]
            ∧ (handle rt env1 .usersTrophiesEarn body s).2.users = s.users
            ∧ (handle rt env1 .usersTrophiesEarn body s).2.userSettings = s.userSettings
            ∧ (handle rt env1 .usersTrophiesEarn body s).2.budgets = s.budgets
            ∧ (handle rt env1 .usersTrophiesEarn body s).2.transactions = s.transactions
            ∧ (handle rt env1 .usersTrophiesEarn body s).2.goals = s.goals
            ∧ (handle rt env1 .usersTrophiesEarn body s).2.trophies = s.trophies
            ∧ (handle rt env2 .usersTrophiesEarn body
                (handle rt env1 .usersTrophiesEarn body s).2).1.status = 400
            ∧ (handle rt env2 .usersTrophiesEarn body
                (handle rt env1 .usersTrophiesEarn body s).2).2
                = (handle rt env1 .usersTrophiesEarn body s).2) := by
  have hreq : ∀ f ∈ Resource.usersTrophies.createFields, (body.get f).truthy = true := by
    intro f hf
    simp only [Resource.createFields, List.mem_cons, List.mem_singleton, List.not_mem_nil,
      or_false] at hf
    rcases hf with rfl | rfl <;> assumption
  refine ⟨?_, ?_, ?_⟩
  · intro hnone
    simp [handle, usersTrophiesEarn, he, hn, hu, hnone, errorResponse]
  · intro htr hrec
    exact usersTrophiesEarn_conflict rt env1 body s uid hreq hu htr hrec
  · intro htr hfree
    have hm : ((Resource.usersTrophies.key rt uid body).all (fun p =>
        (Doc.mk env1.newId (earnRecord env1 uid (body.get "trophyName"))).has p.1 p.2))
        = true := by
      simp [Resource.key, userTrophyKey, earnRecord, Doc.has_iff, Obj.get,
        JVal.ne_undefined_of_truthy hn]
    have h1 := usersTrophiesEarn_created rt env1 body s uid hreq hu htr hfree
    simp only [handle]
    rw [h1]
    refine ⟨rfl, ?_, ?_, ?_, ?_, ?_, ?_, ?_, ?_⟩
    · simp only [logUserActivity_usersTrophies, addDoc, earnRecord]
    · simp only [logUserActivity_users]
    · simp only [logUserActivity_userSettings]
    · simp only [logUserActivity_budgets]
    · simp only [logUserActivity_transactions]
    · simp only [logUserActivity_goals]
    · simp only [logUserActivity_trophies]
    · refine usersTrophiesEarn_conflict rt env2 body _ uid hreq ?_ ?_ ?_
      · exact (getUserIdByEmail_congr rt (logUserActivity_users _ _ _ _) _).trans hu
      · simpa using htr
      · simp only [logUserActivity_usersTrophies]
        rw [show Resource.usersTrophies.key rt uid body
          = userTrophyKey uid (body.get "trophyName") from rfl] at hm ⊢
        rw [findOne_addDoc_of_free hfree hm]
        rfl

/-- C12, amended, at a concrete input: earning the trophy `saver`, which is in the
catalogue, for a user who does not have it. -/
theorem earn_outcomes_witness :
    (findOne oneTrophy.trophies [("trophyName", earnBody.get "trophyName")]).isSome = true
      ∧ whereEq oneTrophy.usersTrophies (userTrophyKey "u1" (earnBody.get "trophyName")) = []
      ∧ (handle sampleRuntime sampleEnv .usersTrophiesEarn earnBody oneTrophy).1.status = 201
      ∧ (handle sampleRuntime sampleEnv2 .usersTrophiesEarn earnBody
          (handle sampleRuntime sampleEnv .usersTrophiesEarn earnBody oneTrophy).2).1.status
          = 400 :=
  have h := (earn_outcomes sampleRuntime sampleEnv sampleEnv2 earnBody oneTrophy "u1"
    (by decide) (by decide) rfl).2.2 (by decide) (by decide)
  ⟨by decide, by decide, h.1, h.2.2.2.2.2.2.2.2.1⟩

/-! ## C13: listing a user's trophies -/

theorem entries_forall₂ (s : Store) (uid : String) (l : List Doc) :
    List.Forall₂ (EntryOf s uid) (l.filter (hasTrophy s))
      (l.filterMap (userTrophyEntry s uid)) := by
  induction l with
  | nil => exact List.Forall₂.nil
  | cons d l ih =>
    cases h : findOne s.trophies [("trophyName", d.data.get "trophyName")] with
    | none =>
      have h1 : hasTrophy s d = false := by simp [hasTrophy, h]
      have h2 : userTrophyEntry s uid d = none := by simp [userTrophyEntry, h]
      rw [List.filter_cons_of_neg (by simp [h1]), List.filterMap_cons_none h2]
      exact ih
    | some t =>
      have h1 : hasTrophy s d = true := by simp [hasTrophy, h]
      have h2 : userTrophyEntry s uid d
          = some (Obj.merge
              [("userTrophyId", .str d.id), ("userId", .str uid),
                ("earnedAt", d.data.get "earnedAt"), ("trophyName", d.data.get "trophyName")]
              t.data) := by
        simp [userTrophyEntry, h]
      rw [List.filter_cons_of_pos h1, List.filterMap_cons_some h2]
      refine List.Forall₂.cons ⟨t, h, fun f => ?_⟩ ih
      rw [Obj.get_merge]

/-- The answer of `/usersTrophies/list` for a user that exists. -/
theorem usersTrophiesList_shape (rt : Runtime) (body : Obj) (s : Store) (uid : String)
    (he : (body.get "email").truthy = true)
    (hu : getUserIdByEmail rt s (body.get "email") = .ok uid) :
    ∃ L, usersTrophiesList rt body s = (⟨200, .list L⟩, s)
      ∧ List.Forall₂ (EntryOf s uid)
          ((s.usersTrophies.filter
            (fun d => decide (d.data.get "userId" = .str uid))).filter (hasTrophy s)) L := by
  refine ⟨(s.usersTrophies.filter
      (fun d => decide (d.data.get "userId" = .str uid))).filterMap (userTrophyEntry s uid),
    ?_, entries_forall₂ s uid _⟩
  simp only [usersTrophiesList, he, hu, Bool.not_true, Bool.false_eq_true, if_false,
    whereEq_userId]
  split
  · rename_i hempty
    rw [List.isEmpty_iff] at hempty
    rw [hempty]
    rfl
  · rfl

/-- After a successful `/trophies/delete` in a catalogue with distinct names,
no trophy has the deleted name. -/
theorem trophiesDelete_removes_name (rt : Runtime) (body : Obj) (s : Store)
    (huniq : UniqueKeys Resource.trophies.docKey s.trophies)
    (hok : (trophiesDelete rt body s).1.status = 200) :
    findOne (trophiesDelete rt body s).2.trophies [("trophyName", body.get "trophyName")]
      = none := by
  unfold trophiesDelete at hok ⊢
  simp only at hok ⊢
  split at hok
  · simp [errorResponse] at hok
  · rename_i htr
    rw [if_neg htr]
    cases hD : findOne s.trophies [("trophyName", body.get "trophyName")] with
    | none =>
      rw [hD] at hok
      simp [errorResponse] at hok
    | some D =>
      simp only
      obtain ⟨hDmem, hDkey⟩ := findOne_some_mem hD
      cases hx : findOne (deleteById s.trophies D.id) [("trophyName", body.get "trophyName")]
        with
      | none => rfl
      | some t =>
        exfalso
        obtain ⟨htmem, htkey⟩ := findOne_some_mem hx
        unfold deleteById at htmem
        rw [List.mem_filter] at htmem
        have hne : t.id ≠ D.id := by simpa using htmem.2
        have := huniq.eq_of_sameKey htmem.1 hDmem (sameKey_of_match htkey hDkey)
        exact hne (this ▸ rfl)

/-- C13.  For a body whose email resolves to the user `uid`:
`/usersTrophies/list` answers 200 with one entry for each record of the user
whose trophy name is in the catalogue, in record order, each entry being the
record's identifier, `userId`, `earnedAt` and `trophyName` with the fields of
the trophy written over them, and leaves the store as it was; records without
a trophy give no entry.  `/trophies/delete` leaves `usersTrophies` as it was;
and after a successful delete in a catalogue with distinct names no record
that holds the deleted name has a trophy, so the list computed then has no
entry for it. -/
theorem userTrophies_list_joins_catalogue (rt : Runtime) (env : Env) (body bd : Obj)
    (s : Store) (uid : String) (he : (body.get "email").truthy = true)
    (hu : getUserIdByEmail rt s (body.get "email") = .ok uid) :
    (∃ L, handle rt env .usersTrophiesList body s = (⟨200, .list L⟩, s)
        ∧ List.Forall₂ (EntryOf s uid)
            ((s.usersTrophies.filter
              (fun d => decide (d.data.get "userId" = .str uid))).filter (hasTrophy s)) L)
      ∧ (handle rt env .trophiesDelete bd s).2.usersTrophies = s.usersTrophies
      ∧ ((handle rt env .trophiesDelete bd s).1.status = 200 →
          UniqueKeys Resource.trophies.docKey s.trophies →
          (∀ d : Doc, d.data.get "trophyName" = bd.get "trophyName" →
              hasTrophy (handle rt env .trophiesDelete bd s).2 d = false)
            ∧ ∃ L,
                handle rt env .usersTrophiesList body (handle rt env .trophiesDelete bd s).2
                    = (⟨200, .list L⟩, (handle rt env .trophiesDelete bd s).2)
                  ∧ List.Forall₂ (EntryOf (handle rt env .trophiesDelete bd s).2 uid)
                      ((s.usersTrophies.filter
                          (fun d => decide (d.data.get "userId" = .str uid))).filter
                        (hasTrophy (handle rt env .trophiesDelete bd s).2)) L) := by
  have hut : (handle rt env .trophiesDelete bd s).2.usersTrophies = s.usersTrophies := by
    simp only [handle, trophiesDelete]
    repeat' split
    all_goals rfl
  refine ⟨usersTrophiesList_shape rt body s uid he hu, hut, ?_⟩
  intro hok huniq
  refine ⟨?_, ?_⟩
  · intro d hd
    have := trophiesDelete_removes_name rt bd s huniq hok
    simp only [handle, hasTrophy, hd, this, Option.isSome_none]
  · have hu' : getUserIdByEmail rt (handle rt env .trophiesDelete bd s).2 (body.get "email")
        = .ok uid :=
      (getUserIdByEmail_congr rt
        (handle_users_frame rt env .trophiesDelete bd s (by decide)) _).trans hu
    have := usersTrophiesList_shape rt body (handle rt env .trophiesDelete bd s).2 uid he hu'
    rw [hut] at this
    exact this

/-- C13 at a concrete input: the user has earned `saver` and `spender`; after
`/trophies/delete` of `saver` both records are still there and the list has
the one entry for `spender`. -/
theorem userTrophies_list_joins_catalogue_witness :
    (handle sampleRuntime sampleEnv .trophiesDelete deleteSaverBody twoEarned).2.usersTrophies
        = twoEarned.usersTrophies
      ∧ (∀ d : Doc, d.data.get "trophyName" = deleteSaverBody.get "trophyName" →
          hasTrophy (handle sampleRuntime sampleEnv .trophiesDelete deleteSaverBody twoEarned).2
            d = false)
      ∧ (handle sampleRuntime sampleEnv2 .usersTrophiesList annBody
          (handle sampleRuntime sampleEnv .trophiesDelete deleteSaverBody twoEarned).2).1
          = ⟨200, .list
              [[("trophyName", .str "spender"), ("displayName", .str "Spender"),
                ("description", .str ""), ("points", .num (.fin 0)),
                ("createdAt", .time (.fin 4)), ("updatedAt", .time (.fin 4)),
                ("userTrophyId", .str "ut2"), ("userId", .str "u1"),
                ("earnedAt", .time (.fin 60))]]⟩ :=
  have h := userTrophies_list_joins_catalogue sampleRuntime sampleEnv annBody deleteSaverBody
    twoEarned "u1" (by decide) rfl
  ⟨h.2.1, (h.2.2 (by decide) (by decide)).1, by decide⟩

/-! ## C20: renaming a trophy -/

theorem findOne_eq_none_of_forall {c : List Doc} {K : List (String × JVal)}
    (h : ∀ t ∈ c, ¬ (K.all (fun p => t.has p.1 p.2)) = true) : findOne c K = none := by
  rw [findOne_eq_none_iff]
  unfold whereEq
  rw [List.filter_eq_nil_iff]
  exact h

/-- The outcome of `/trophies/update` when the trophy is located and the new
name is not taken. -/
theorem trophiesUpdate_renamed (rt : Runtime) (env : Env) (body : Obj) (s : Store) (D : Doc)
    (hT : (body.get "trophyName").truthy = true)
    (hD : findOne s.trophies [("trophyName", body.get "trophyName")] = some D)
    (hunused : findOne s.trophies [("trophyName", body.get "newTrophyName")] = none) :
    trophiesUpdate rt env body s
      = (messageResponse 200 "Trophy updated"
            [("oldName", body.get "trophyName"),
              ("newName", (body.get "newTrophyName").or (body.get "trophyName"))],
          { s with
            trophies := updateById s.trophies D.id
              (trophyUpdates rt env (body.get "newTrophyName") (body.get "displayName")
                (body.get "description") (body.get "points")) }) := by
  unfold trophiesUpdate
  simp only [hT, hD, hunused, Bool.not_true, Bool.false_eq_true, if_false, Option.isSome_none,
    Bool.and_false]

/-- C20, as amended.  The user `uid` has a record for the trophy T; T is
located by `/trophies/update`, which is asked for the truthy new name T', not
T and not in the catalogue; no other trophy is named T; and the user has no
record for T'.  Then the update answers 200; `usersTrophies` is as it was, so
the record still holds T; no trophy is named T, the record has no trophy, and
`/usersTrophies/list` for the user is computed from the records that have
one; and `/usersTrophies/earn` of T' for the user answers 201. -/
theorem rename_leaves_records (rt : Runtime) (envU envL envE : Env)
    (bodyU bodyL bodyE : Obj) (s : Store) (uid : String) (D record : Doc)
    (hT : (bodyU.get "trophyName").truthy = true)
    (hT' : (bodyU.get "newTrophyName").truthy = true)
    (hne : bodyU.get "newTrophyName" ≠ bodyU.get "trophyName")
    (hD : findOne s.trophies [("trophyName", bodyU.get "trophyName")] = some D)
    (hunused : findOne s.trophies [("trophyName", bodyU.get "newTrophyName")] = none)
    (hother : ∀ t ∈ s.trophies, t.id ≠ D.id →
      t.data.get "trophyName" ≠ bodyU.get "trophyName")
    (he : (bodyL.get "email").truthy = true)
    (hu : getUserIdByEmail rt s (bodyL.get "email") = .ok uid)
    (hrec : record ∈ s.usersTrophies ∧ record.data.get "userId" = .str uid
      ∧ record.data.get "trophyName" = bodyU.get "trophyName")
    (hEe : bodyE.get "email" = bodyL.get "email")
    (hEt : bodyE.get "trophyName" = bodyU.get "newTrophyName")
    (hnorec : whereEq s.usersTrophies (userTrophyKey uid (bodyU.get "newTrophyName")) = []) :
    (handle rt envU .trophiesUpdate bodyU s).1.status = 200
      ∧ (handle rt envU .trophiesUpdate bodyU s).2.usersTrophies = s.usersTrophies
      ∧ findOne (handle rt envU .trophiesUpdate bodyU s).2.trophies
          [("trophyName", bodyU.get "trophyName")] = none
      ∧ hasTrophy (handle rt envU .trophiesUpdate bodyU s).2 record = false
      ∧ (∃ L,
          handle rt envL .usersTrophiesList bodyL (handle rt envU .trophiesUpdate bodyU s).2
              = (⟨200, .list L⟩, (handle rt envU .trophiesUpdate bodyU s).2)
            ∧ List.Forall₂ (EntryOf (handle rt envU .trophiesUpdate bodyU s).2 uid)
                ((s.usersTrophies.filter
                    (fun d => decide (d.data.get "userId" = .str uid))).filter
                  (hasTrophy (handle rt envU .trophiesUpdate bodyU s).2)) L)
      ∧ (handle rt envE .usersTrophiesEarn bodyE
          (handle rt envU .trophiesUpdate bodyU s).2).1.status = 201 := by
  have hshape := trophiesUpdate_renamed rt envU bodyU s D hT hD hunused
  obtain ⟨hDmem, hDkey⟩ := findOne_some_mem hD
  have hNewDef := JVal.ne_undefined_of_truthy hT'
  simp only [handle]
  rw [hshape]
  -- no trophy is named T afterwards
  have hnoT : findOne
      (updateById s.trophies D.id
        (trophyUpdates rt envU (bodyU.get "newTrophyName") (bodyU.get "displayName")
          (bodyU.get "description") (bodyU.get "points")))
      [("trophyName", bodyU.get "trophyName")] = none := by
    refine findOne_eq_none_of_forall ?_
    intro t' ht'
    unfold updateById at ht'
    rw [List.mem_map] at ht'
    obtain ⟨t, ht, rfl⟩ := ht'
    simp only [List.all_cons, List.all_nil, Bool.and_true, Doc.has_iff, not_and]
    intro _
    by_cases hid : t.id = D.id
    · simp only [hid, if_true]
      rw [trophyUpdates_trophyName, if_pos hT']
      exact hne
    · simp only [hid, if_false]
      exact hother t ht hid
  -- the renamed trophy is in the catalogue
  have hNewThere : (findOne
      (updateById s.trophies D.id
        (trophyUpdates rt envU (bodyU.get "newTrophyName") (bodyU.get "displayName")
          (bodyU.get "description") (bodyU.get "points")))
      [("trophyName", bodyU.get "newTrophyName")]).isSome = true := by
    refine findOne_isSome_of_mem (mem_updateById hDmem rfl _) ?_
    simp only [List.all_cons, List.all_nil, Bool.and_true, Doc.has_iff]
    refine ⟨hNewDef, ?_⟩
    rw [trophyUpdates_trophyName, if_pos hT']
  refine ⟨rfl, rfl, hnoT, ?_, ?_, ?_⟩
  · show hasTrophy _ record = false
    unfold hasTrophy
    rw [hrec.2.2]
    show (findOne (updateById s.trophies D.id _) _).isSome = false
    rw [hnoT]
    rfl
  · exact usersTrophiesList_shape rt bodyL _ uid he
      ((getUserIdByEmail_congr rt rfl _).trans hu)
  · have hreq : ∀ f ∈ Resource.usersTrophies.createFields, (bodyE.get f).truthy = true := by
      intro f hf
      simp only [Resource.createFields, List.mem_cons, List.mem_singleton, List.not_mem_nil,
        or_false] at hf
      rcases hf with rfl | rfl
      · rw [hEe]
        exact he
      · rw [hEt]
        exact hT'
    rw [usersTrophiesEarn_created rt envE bodyE _ uid hreq
      ((getUserIdByEmail_congr rt rfl _).trans (hEe ▸ hu)) (by rw [hEt]; exact hNewThere)
      (by simp only [Resource.key, hEt]; exact hnorec)]
    rfl

/-- C20 as stated fails.  After five successful requests the catalogue has the
one trophy `saver`, which the user has earned, and no trophy `hero`; renaming
`saver` to `hero` answers 200, and the user's `/usersTrophies/earn` of `hero`
then answers 400, because a record for `hero` is left from the trophy of that
name that was deleted. -/
theorem rename_then_earn_counterexample :
    (runAll sampleRuntime orphanRun oneUser).1 = [201, 201, 200, 201, 201]
      ∧ orphanStore.trophies.map (fun d => d.data.get "trophyName") = [.str "saver"]
      ∧ findOne orphanStore.trophies [("trophyName", .str "hero")] = none
      ∧ (findOne orphanStore.usersTrophies (userTrophyKey "u1" (.str "saver"))).isSome = true
      ∧ (handle sampleRuntime (envAt 6 "x6" "l6") .trophiesUpdate renameSaverBody
          orphanStore).1.status = 200
      ∧ (handle sampleRuntime (envAt 7 "ut3" "l7") .usersTrophiesEarn earnHeroBody
          (handle sampleRuntime (envAt 6 "x6" "l6") .trophiesUpdate renameSaverBody
            orphanStore).2).1.status = 400 := by
  decide

/-- C20, the amended claim at a concrete input: the user has earned `saver`
and `spender`; `saver` is renamed to `hero`; the record still holds `saver`,
the list has the one entry for `spender`, and earning `hero` answers 201. -/
theorem rename_leaves_records_witness :
    (handle sampleRuntime sampleEnv .trophiesUpdate renameSaverBody twoEarned).1.status = 200
      ∧ (handle sampleRuntime sampleEnv .trophiesUpdate renameSaverBody
          twoEarned).2.usersTrophies = twoEarned.usersTrophies
      ∧ (handle sampleRuntime sampleEnv2 .usersTrophiesList annBody
          (handle sampleRuntime sampleEnv .trophiesUpdate renameSaverBody twoEarned).2).1
          = ⟨200, .list
              [[("trophyName", .str "spender"), ("displayName", .str "Spender"),
                ("description", .str ""), ("points", .num (.fin 0)),
                ("createdAt", .time (.fin 4)), ("updatedAt", .time (.fin 4)),
                ("userTrophyId", .str "ut2"), ("userId", .str "u1"),
                ("earnedAt", .time (.fin 60))]]⟩
      ∧ (handle sampleRuntime sampleEnv2 .usersTrophiesEarn earnHeroBody
          (handle sampleRuntime sampleEnv .trophiesUpdate renameSaverBody
            twoEarned).2).1.status = 201 :=
  have h := rename_leaves_records sampleRuntime sampleEnv sampleEnv2 sampleEnv2
    renameSaverBody annBody earnHeroBody twoEarned "u1"
    ⟨"tr1", [("trophyName", .str "saver"), ("displayName", .str "Saver"),
      ("description", .str ""), ("points", .num (.fin 10)),
      ("createdAt", .time (.fin 3)), ("updatedAt", .time (.fin 3))]⟩
    ⟨"ut1", [("userId", .str "u1"), ("trophyName", .str "saver"),
      ("earnedAt", .time (.fin 50))]⟩
    (by decide) (by decide) (by decide) rfl (by decide) (by decide) (by decide) rfl
    (by decide) rfl rfl (by decide)
  ⟨h.1, h.2.1, by decide, h.2.2.2.2.2⟩

/-! ## C14: a log write that fails -/

/-- With the log write accepted, the handlers with a fallible log write are
the handlers. -/
theorem handleWithLog_none (rt : Runtime) (env : Env) (r : Route) (body : Obj) (s : Store) :
    handleWithLog none rt env r body s = handle rt env r body s := by
  cases r <;> rfl

/-- C14 as stated fails: `/budgets/create` for an existing user, when the
store rejects the write to `userActivityLog`.  With the write accepted the
answer is 201; with it rejected the budget is written all the same and the
answer is 500. -/
theorem log_failure_counterexample :
    (handle sampleRuntime sampleEnv .budgetsCreate budgetBody oneUser).1.status = 201
      ∧ (handleWithLog (some "unavailable") sampleRuntime sampleEnv .budgetsCreate budgetBody
          oneUser).1.status = 500
      ∧ (handleWithLog (some "unavailable") sampleRuntime sampleEnv .budgetsCreate budgetBody
          oneUser).2.budgets
          = (handle sampleRuntime sampleEnv .budgetsCreate budgetBody oneUser).2.budgets
      ∧ (handleWithLog (some "unavailable") sampleRuntime sampleEnv .budgetsCreate budgetBody
          oneUser).2.budgets ≠ oneUser.budgets := by
  decide

/-- C14, as amended.  For every route, body and store: when the request, with
the log write accepted, writes an activity-log entry (its answer is then 200 or
201), the same request with the log write rejected is answered by the
handler's `catch` block, with 500, or with 404 when the message of the
rejection contains "not found" and the `catch` block maps it; and the store is
then the one the successful request leaves, without the log entry. -/
theorem log_failure_is_reported (rt : Runtime) (env : Env) (r : Route) (body : Obj)
    (s : Store) (err : String)
    (hlog : (handle rt env r body s).2.userActivityLog ≠ s.userActivityLog) :
    ((handle rt env r body s).1.status = 200 ∨ (handle rt env r body s).1.status = 201)
      ∧ ((handleWithLog (some err) rt env r body s).1.status = 500
          ∨ ((handleWithLog (some err) rt env r body s).1.status = 404
              ∧ includesNotFound err = true))
      ∧ (handleWithLog (some err) rt env r body s).2
          = { (handle rt env r body s).2 with userActivityLog := s.userActivityLog } := by
  revert hlog
  cases r
  all_goals
    simp only [handle, handleWithLog, recordThenRespond, logUserActivity, catchNotFound,
      usersCreate, usersGet, usersUpdate, settingsGet, settingsUpdate,
      budgetsCreate, budgetsGet, budgetsUpdate, budgetsList, budgetsDelete, transactionsCreate,
      transactionsGet, transactionsUpdate, transactionsList, transactionsListByCategory,
      transactionsDelete, goalsCreate, goalsGet, goalsUpdate, goalsList, goalsListByStatus,
      goalsDelete, activityList, trophiesCreate, trophiesGet, trophiesList, trophiesUpdate,
      trophiesDelete, usersTrophiesEarn, usersTrophiesList, usersTrophiesDelete, helloWorld,
      usersUpdateWithLog, settingsUpdateWithLog, budgetsCreateWithLog, budgetsUpdateWithLog,
      budgetsDeleteWithLog, transactionsCreateWithLog, transactionsUpdateWithLog,
      transactionsDeleteWithLog, goalsCreateWithLog, goalsUpdateWithLog, goalsDeleteWithLog,
      usersTrophiesEarnWithLog, usersTrophiesDeleteWithLog]
  all_goals repeat' split
  all_goals intro hlog
  all_goals simp_all [errorResponse, messageResponse, catchAll]

/-- C14, the amended claim at a concrete input: `/budgets/create` for an
existing user, the log write rejected with the message "unavailable". -/
theorem log_failure_is_reported_witness :
    ((handle sampleRuntime sampleEnv .budgetsCreate budgetBody oneUser).1.status = 200
        ∨ (handle sampleRuntime sampleEnv .budgetsCreate budgetBody oneUser).1.status = 201)
      ∧ ((handleWithLog (some "unavailable") sampleRuntime sampleEnv .budgetsCreate budgetBody
            oneUser).1.status = 500
          ∨ ((handleWithLog (some "unavailable") sampleRuntime sampleEnv .budgetsCreate
                budgetBody oneUser).1.status = 404
              ∧ includesNotFound "unavailable" = true))
      ∧ (handleWithLog (some "unavailable") sampleRuntime sampleEnv .budgetsCreate budgetBody
          oneUser).2
          = { (handle sampleRuntime sampleEnv .budgetsCreate budgetBody oneUser).2 with
              userActivityLog := oneUser.userActivityLog } :=
  log_failure_is_reported sampleRuntime sampleEnv .budgetsCreate budgetBody oneUser
    "unavailable" (by decide)

end PrixFinance
